import Mathlib

/-!
# chromatrix: a verification development

Shallow embedding of the chromatrix color library (conversion engine,
adapters, buffer pool, palette, contrast, gamut, parsing) together with
proofs of the behavioural properties stated in its specification.

Numeric adapters are embedded over `ℝ` (machine doubles idealised as
reals, decimal literals read exactly).  Purely rational utilities
(palette, gamut) are embedded over `ℚ`, with JavaScript's special values
(`Infinity`, `NaN`) modelled explicitly where the behaviour under
scrutiny depends on them.
-/

namespace Chromatrix

/-- The closed enumeration of the 11 supported color spaces
 (`src/types.ts`). -/
inductive ColorSpace where
  | rgb | hsl | hsv | hwb | lab | lch | lrgb | oklab | oklch | xyz50 | xyz65
deriving DecidableEq, Repr

open ColorSpace

/-- A 3-slot numeric buffer value (`ColorArray`), idealised over `ℝ`. -/
structure T3 where
  c0 : ℝ
  c1 : ℝ
  c2 : ℝ

/-- A pure adapter at value level: what the adapter writes into its
 output buffer, as a function of the input buffer's contents. -/
def Adapter : Type := T3 → T3

/-- A 3×3 matrix as laid out row-major in the source's `Float32Array(9)`. -/
structure Mat3 where
  m0 : ℝ
  m1 : ℝ
  m2 : ℝ
  m3 : ℝ
  m4 : ℝ
  m5 : ℝ
  m6 : ℝ
  m7 : ℝ
  m8 : ℝ

/-- `multiplyMatrixVector` (`src/adapters/cat.ts`). -/
def multiplyMatrixVector (m : Mat3) (v : T3) : T3 :=
  ⟨m.m0 * v.c0 + m.m1 * v.c1 + m.m2 * v.c2,
   m.m3 * v.c0 + m.m4 * v.c1 + m.m5 * v.c2,
   m.m6 * v.c0 + m.m7 * v.c1 + m.m8 * v.c2⟩

/-- JavaScript's `Math.cbrt`: the real cube root (odd extension). -/
noncomputable def cbrt (x : ℝ) : ℝ :=
  if x < 0 then -((-x) ^ ((1 : ℝ) / 3)) else x ^ ((1 : ℝ) / 3)

/-- JavaScript's `Math.atan2 y x` (signed zeros not modelled). -/
noncomputable def atan2 (y x : ℝ) : ℝ :=
  if 0 < x then Real.arctan (y / x)
  else if x < 0 then
    (if 0 ≤ y then Real.arctan (y / x) + Real.pi
     else Real.arctan (y / x) - Real.pi)
  else
    (if 0 < y then Real.pi / 2 else if y < 0 then -(Real.pi / 2) else 0)

/-! ### Adapters (`src/adapters/gamma.ts`, `srgb.ts`, `polar.ts`,
  `d50.ts`, `d65.ts`, `cat.ts`) -/

/-- sRGB gamma decode of one channel (`rgbToLrgb` body). -/
noncomputable def gammaDecode (x : ℝ) : ℝ :=
  if x ≤ 0.04045 then x * (1 / 12.92)
  else ((x + 0.055) * (1 / 1.055)) ^ (2.4 : ℝ)

noncomputable def rgbToLrgb : Adapter := fun v =>
  ⟨gammaDecode v.c0, gammaDecode v.c1, gammaDecode v.c2⟩

/-- sRGB gamma encode of one channel (`lrgbToRgb` body: negative linear
 values are clamped to 0 before exponentiation). -/
noncomputable def gammaEncode (x : ℝ) : ℝ :=
  let c := if x < 0 then 0 else x
  if c ≤ 0.0031308 then c * 12.92
  else 1.055 * c ^ ((1 : ℝ) / 2.4) - 0.055

noncomputable def lrgbToRgb : Adapter := fun v =>
  ⟨gammaEncode v.c0, gammaEncode v.c1, gammaEncode v.c2⟩

/-- Truncation toward zero, as JavaScript's `%` and `parseInt` use. -/
noncomputable def jsTrunc (x : ℝ) : ℤ :=
  if x < 0 then -⌊-x⌋ else ⌊x⌋

/-- JavaScript's `%` on numbers (fmod, sign of the dividend). -/
noncomputable def jsFmod (a b : ℝ) : ℝ :=
  a - b * (jsTrunc (a / b) : ℝ)

noncomputable def rgbToHsv : Adapter := fun t =>
  let r := t.c0; let g := t.c1; let b := t.c2
  let v := max r (max g b)
  let mn := min r (min g b)
  let c := v - mn
  let s := if v ≠ 0 then c / v else 0
  let h :=
    if c ≠ 0 then
      let h₀ := if v = r then (g - b) / c
                else if v = g then (b - r) / c + 2
                else (r - g) / c + 4
      let h₁ := h₀ * 60
      if h₁ < 0 then h₁ + 360 else h₁
    else 0
  ⟨h, s, v⟩

noncomputable def hsvToRgb : Adapter := fun t =>
  let h60 := t.c0 * (1 / 60)
  let s := t.c1; let v := t.c2
  if s = 0 then ⟨v, v, v⟩
  else
    let c := v * s
    let x := c * (1 - |jsFmod h60 2 - 1|)
    let m := v - c
    let f := Int.tmod ⌊h60⌋ 6
    let rgb : ℝ × ℝ × ℝ :=
      if f = 0 then (c, x, 0)
      else if f = 1 then (x, c, 0)
      else if f = 2 then (0, c, x)
      else if f = 3 then (0, x, c)
      else if f = 4 then (x, 0, c)
      else (c, 0, x)
    ⟨rgb.1 + m, rgb.2.1 + m, rgb.2.2 + m⟩

noncomputable def hsvToHsl : Adapter := fun t =>
  let h := t.c0; let s := t.c1; let v := t.c2
  let l := v * (1 - s * 0.5)
  let sL := if 0 < l ∧ l < 1 then (v - l) / min l (1 - l) else 0
  ⟨h, sL, l⟩

noncomputable def hslToHsv : Adapter := fun t =>
  let h := t.c0; let s := t.c1; let l := t.c2
  let v := l + s * min l (1 - l)
  let sV := if v = 0 then 0 else 2 * (1 - l / v)
  ⟨h, sV, v⟩

noncomputable def hsvToHwb : Adapter := fun t =>
  ⟨t.c0, t.c2 * (1 - t.c1), 1 - t.c2⟩

noncomputable def hwbToHsv : Adapter := fun t =>
  let h := t.c0; let w := t.c1; let b := t.c2
  let v := 1 - b
  let s := if v = 0 then 0 else (v - w) / v
  ⟨h, if s < 0 then 0 else s, v⟩

/-- Shared Cartesian → polar logic (`labToLch` / `oklabToOklch`). -/
noncomputable def toPolar : Adapter := fun t =>
  let a := t.c1; let b := t.c2
  let chroma := Real.sqrt (a * a + b * b)
  let hue := atan2 b a * (180 / Real.pi)
  ⟨t.c0, chroma, if hue < 0 then hue + 360 else hue⟩

/-- Shared polar → Cartesian logic (`lchToLab` / `oklchToOklab`). -/
noncomputable def toCartesian : Adapter := fun t =>
  let hRad := t.c2 * (Real.pi / 180)
  ⟨t.c0, t.c1 * Real.cos hRad, t.c1 * Real.sin hRad⟩

noncomputable def labToLch : Adapter := toPolar
noncomputable def oklabToOklch : Adapter := toPolar
noncomputable def lchToLab : Adapter := toCartesian
noncomputable def oklchToOklab : Adapter := toCartesian

/-- CIE constants as the source spells them (`src/adapters/d50.ts`). -/
def EPSILON : ℝ := 0.008856451679035631

def KAPPA : ℝ := 903.2962962962963

def WHITE_D50_X : ℝ := 0.96422

def WHITE_D50_Z : ℝ := 0.82521

noncomputable def xyz50ToLab : Adapter := fun t =>
  let xr := t.c0 * (1 / WHITE_D50_X)
  let yr := t.c1
  let zr := t.c2 * (1 / WHITE_D50_Z)
  let fx := if EPSILON < xr then cbrt xr else (KAPPA * xr + 16) / 116
  let fy := if EPSILON < yr then cbrt yr else (KAPPA * yr + 16) / 116
  let fz := if EPSILON < zr then cbrt zr else (KAPPA * zr + 16) / 116
  ⟨116 * fy - 16, 500 * (fx - fy), 200 * (fy - fz)⟩

noncomputable def labToXyz50 : Adapter := fun t =>
  let l := t.c0; let a := t.c1; let b := t.c2
  let fy := (l + 16) / 116
  let fx := a / 500 + fy
  let fz := fy - b / 200
  let fx3 := fx * fx * fx
  let fy3 := fy * fy * fy
  let fz3 := fz * fz * fz
  ⟨(if EPSILON < fx3 then fx3 else (116 * fx - 16) / KAPPA) * WHITE_D50_X,
   (if KAPPA * EPSILON < l then fy3 else l / KAPPA) * 1.0,
   (if EPSILON < fz3 then fz3 else (116 * fz - 16) / KAPPA) * WHITE_D50_Z⟩

def M_SRGB : Mat3 :=
  ⟨0.4124564, 0.3575761, 0.1804375, 0.2126729, 0.7151522, 0.072175,
   0.0193339, 0.119192, 0.9503041⟩

def M_SRGB_INV : Mat3 :=
  ⟨3.2404542, -1.5371385, -0.4985314, -0.969266, 1.876, 0.041556,
   0.0556434, -0.2040259, 1.0572252⟩

def xyz65ToLrgb : Adapter := multiplyMatrixVector M_SRGB_INV

def lrgbToXyz65 : Adapter := multiplyMatrixVector M_SRGB

noncomputable def xyz65ToOklab : Adapter := fun t =>
  let x := t.c0; let y := t.c1; let z := t.c2
  let l := cbrt (0.8189330101 * x + 0.3618667424 * y - 0.1288597137 * z)
  let m := cbrt (0.0329845436 * x + 0.9293118715 * y + 0.0361456387 * z)
  let s := cbrt (0.0482003018 * x + 0.2643662691 * y + 0.633851707 * z)
  ⟨0.2104542553 * l + 0.7936177046 * m - 0.0040704681 * s,
   1.9779984951 * l - 2.4285921822 * m + 0.4505936871 * s,
   0.0259040371 * l + 0.7827717662 * m - 0.808675766 * s⟩

def oklabToXyz65 : Adapter := fun t =>
  let L := t.c0; let a := t.c1; let b := t.c2
  let l := L + 0.3963377774 * a + 0.2158037573 * b
  let m := L - 0.1055613458 * a - 0.0638541728 * b
  let s := L - 0.0894841775 * a - 1.291485548 * b
  let l3 := l * l * l
  let m3 := m * m * m
  let s3 := s * s * s
  ⟨1.2270138511 * l3 - 0.5577999807 * m3 + 0.281256149 * s3,
   -0.0405801784 * l3 + 1.1122568696 * m3 - 0.0716766787 * s3,
   -0.0763812845 * l3 - 0.4214819784 * m3 + 1.5861632204 * s3⟩

def M_CAT_65_TO_50 : Mat3 :=
  ⟨1.0478112, 0.0228866, -0.050127, 0.0295424, 0.9904844, -0.0170491,
   -0.0092345, 0.0150436, 0.7521316⟩

def M_CAT_50_TO_65 : Mat3 :=
  ⟨0.9555766, -0.0230393, 0.0631636, -0.0282895, 1.0099416, 0.0210077,
   0.0122982, -0.020483, 1.3299098⟩

def xyz65ToXyz50 : Adapter := multiplyMatrixVector M_CAT_65_TO_50

def xyz50ToXyz65 : Adapter := multiplyMatrixVector M_CAT_50_TO_65

/-! ### Routing tables and the conversion engine (`src/convert.ts`) -/

/-- Native hub white point of each space (`NATIVE_HUB`). -/
def NATIVE_HUB : ColorSpace → Option ColorSpace
  | rgb => some xyz65
  | hsl => some xyz65
  | hsv => some xyz65
  | hwb => some xyz65
  | lab => some xyz50
  | lch => some xyz50
  | lrgb => some xyz65
  | oklab => some xyz65
  | oklch => some xyz65
  | _ => none

/-- Adapter chain moving a space into its hub (`TO_HUB`). -/
noncomputable def TO_HUB : ColorSpace → Option (List Adapter)
  | rgb => some [rgbToLrgb, lrgbToXyz65]
  | hsl => some [hslToHsv, hsvToRgb, rgbToLrgb, lrgbToXyz65]
  | hsv => some [hsvToRgb, rgbToLrgb, lrgbToXyz65]
  | hwb => some [hwbToHsv, hsvToRgb, rgbToLrgb, lrgbToXyz65]
  | lab => some [labToXyz50]
  | lch => some [lchToLab, labToXyz50]
  | lrgb => some [lrgbToXyz65]
  | oklab => some [oklabToXyz65]
  | oklch => some [oklchToOklab, oklabToXyz65]
  | _ => none

/-- Adapter chain moving a hub value into a target space (`FROM_HUB`). -/
noncomputable def FROM_HUB : ColorSpace → Option (List Adapter)
  | rgb => some [xyz65ToLrgb, lrgbToRgb]
  | hsl => some [xyz65ToLrgb, lrgbToRgb, rgbToHsv, hsvToHsl]
  | hsv => some [xyz65ToLrgb, lrgbToRgb, rgbToHsv]
  | hwb => some [xyz65ToLrgb, lrgbToRgb, rgbToHsv, hsvToHwb]
  | lab => some [xyz50ToLab]
  | lch => some [xyz50ToLab, labToLch]
  | lrgb => some [xyz65ToLrgb]
  | oklab => some [xyz65ToOklab]
  | oklch => some [xyz65ToOklab, oklabToOklch]
  | _ => none

/-- Same-model shortcuts (`DIRECT_HUB`). -/
noncomputable def DIRECT_HUB : ColorSpace → ColorSpace → Option (List Adapter)
  | rgb, hsl => some [rgbToHsv, hsvToHsl]
  | rgb, hsv => some [rgbToHsv]
  | rgb, hwb => some [rgbToHsv, hsvToHwb]
  | rgb, lrgb => some [rgbToLrgb]
  | hsl, rgb => some [hslToHsv, hsvToRgb]
  | hsl, hsv => some [hslToHsv]
  | hsv, rgb => some [hsvToRgb]
  | hsv, hsl => some [hsvToHsl]
  | hsv, hwb => some [hsvToHwb]
  | hwb, rgb => some [hwbToHsv, hsvToRgb]
  | hwb, hsv => some [hwbToHsv]
  | lab, lch => some [labToLch]
  | lch, lab => some [lchToLab]
  | lrgb, rgb => some [lrgbToRgb]
  | oklab, oklch => some [oklabToOklch]
  | oklch, oklab => some [oklchToOklab]
  | _, _ => none

/-- `applyAdapter` at value level: run an ordered adapter chain.  (The
 source stages multi-step chains through one pooled scratch buffer; at
 value level that is a left fold.) -/
def applyAdapter (chain : List Adapter) (input : T3) : T3 :=
  chain.foldl (fun v f => f v) input

/-- The conversion engine `convertColor` at value level: the value the
 engine leaves in `output` for an `input` value in space `frm`. -/
noncomputable def convertColor (input : T3) (frm tgt : ColorSpace) : T3 :=
  if frm = tgt then input
  else
    match DIRECT_HUB frm tgt with
    | some directChain => applyAdapter directChain input
    | none =>
      let sourceHub := (NATIVE_HUB frm).getD frm
      let targetHub := (NATIVE_HUB tgt).getD tgt
      let hubVal :=
        match TO_HUB frm with
        | some toHubChain => applyAdapter toHubChain input
        | none => input
      let adapted :=
        if sourceHub ≠ targetHub then
          if sourceHub = xyz65 then xyz65ToXyz50 hubVal else xyz50ToXyz65 hubVal
        else hubVal
      match FROM_HUB tgt with
      | some fromHubChain => applyAdapter fromHubChain adapted
      | none => adapted

/-- `TO_POLAR` (`src/convert.ts`). -/
def TO_POLAR : ColorSpace → Option ColorSpace
  | rgb => some hsl
  | lrgb => some hsl
  | lab => some lch
  | oklab => some oklch
  | _ => none

/-- `convertHue` at value level. -/
noncomputable def convertHue (input : T3) (mode : ColorSpace) : T3 :=
  match TO_POLAR mode with
  | none => input
  | some targetPolar => convertColor input mode targetPolar

/-! ### The documented routing algorithm, written from the spec's words
  (§4.3): identity copy; else a registered direct shortcut chain and
  nothing else; else to-hub chain (copy when the source is itself a hub),
  the Bradford bridge in the matching direction only when the two native
  hubs differ, then the target's from-hub chain. -/

/-- A space's native hub per the spec: its table entry, or the space
 itself when it already is a hub (xyz50/xyz65). -/
def specNativeHub (s : ColorSpace) : ColorSpace :=
  match NATIVE_HUB s with
  | some h => h
  | none => s

/-- The routing algorithm exactly as §4.3 documents it. -/
noncomputable def specRoute (input : T3) (frm tgt : ColorSpace) : T3 :=
  if frm = tgt then
    input
  else
    match DIRECT_HUB frm tgt with
    | some shortcut => applyAdapter shortcut input
    | none =>
      let atHub :=
        match TO_HUB frm with
        | some chain => applyAdapter chain input
        | none => input
      let bridged :=
        if specNativeHub frm = specNativeHub tgt then atHub
        else if specNativeHub frm = xyz65 then xyz65ToXyz50 atHub
        else xyz50ToXyz65 atHub
      match FROM_HUB tgt with
      | some chain => applyAdapter chain bridged
      | none => bridged

/-- C1: for every ordered pair of registered color spaces, `convertColor`
 writes into the output exactly the result of the documented routing
 algorithm: identity copy when the spaces coincide, exactly the direct
 same-model shortcut chain when one is registered, and otherwise the
 source's to-hub chain, the Bradford bridge in the matching direction only
 when the native hubs differ, then the target's from-hub chain. -/
theorem convertColor_implements_documented_routing
    (frm tgt : ColorSpace) (input : T3) :
    convertColor input frm tgt = specRoute input frm tgt := by
  cases frm <;> cases tgt <;> rfl

/-! ### C3: the Bradford bridge and the D65/D50 white points.

  Two implementations of the bridge exist in the repository: the fully
  precomputed matrices (`src/adapters/cat.ts`, wired into `convertColor`
  above) and the staged Bradford computation with precomputed per-channel
  scale ratios (`ref` variant of `cat.ts`).  Both are covered. -/

def M_BRADFORD : Mat3 :=
  ⟨0.8951, 0.2664, -0.1614, -0.7502, 1.7135, 0.0367, 0.0389, -0.0685, 1.0296⟩

def M_BRADFORD_INV : Mat3 :=
  ⟨0.98699, -0.14705, 0.15996, 0.43231, 0.51836, 0.04929, -0.00853, 0.04006,
   0.96848⟩

def WHITE_D65 : T3 := ⟨0.95047, 1.0, 1.08883⟩

def WHITE_D50 : T3 := ⟨0.96422, 1.0, 0.82521⟩

/-- Bradford cone response of the D65 white point (`lmsD65`). -/
def lmsD65 : T3 := multiplyMatrixVector M_BRADFORD WHITE_D65

/-- Bradford cone response of the D50 white point (`lmsD50`). -/
def lmsD50 : T3 := multiplyMatrixVector M_BRADFORD WHITE_D50

/-- Per-channel adaptation ratios, precomputed at initialisation
 (`SCALE_D65_TO_D50`). -/
noncomputable def SCALE_D65_TO_D50 : T3 :=
  ⟨lmsD50.c0 / lmsD65.c0, lmsD50.c1 / lmsD65.c1, lmsD50.c2 / lmsD65.c2⟩

/-- Per-channel adaptation ratios (`SCALE_D50_TO_D65`). -/
noncomputable def SCALE_D50_TO_D65 : T3 :=
  ⟨lmsD65.c0 / lmsD50.c0, lmsD65.c1 / lmsD50.c1, lmsD65.c2 / lmsD50.c2⟩

/-- The `ref` variant of `xyz65ToXyz50`: Bradford cone space, scale,
 inverse Bradford. -/
noncomputable def xyz65ToXyz50Bradford : Adapter := fun v =>
  let lms := multiplyMatrixVector M_BRADFORD v
  let scaled : T3 := ⟨lms.c0 * SCALE_D65_TO_D50.c0, lms.c1 * SCALE_D65_TO_D50.c1,
                      lms.c2 * SCALE_D65_TO_D50.c2⟩
  multiplyMatrixVector M_BRADFORD_INV scaled

/-- The `ref` variant of `xyz50ToXyz65`. -/
noncomputable def xyz50ToXyz65Bradford : Adapter := fun v =>
  let lms := multiplyMatrixVector M_BRADFORD v
  let scaled : T3 := ⟨lms.c0 * SCALE_D50_TO_D65.c0, lms.c1 * SCALE_D50_TO_D65.c1,
                      lms.c2 * SCALE_D50_TO_D65.c2⟩
  multiplyMatrixVector M_BRADFORD_INV scaled

/-- Componentwise closeness of two buffer values. -/
def close (tol : ℝ) (u v : T3) : Prop :=
  |u.c0 - v.c0| < tol ∧ |u.c1 - v.c1| < tol ∧ |u.c2 - v.c2| < tol

/-- C3: converting the D65 white point from xyz65 to xyz50 lands on the
 D50 white point within 1e-4 on every channel, and the reverse bridge
 recovers the D65 white point within the same tolerance — for both the
 precomputed-matrix bridge wired into `convertColor` and the staged
 Bradford implementation. -/
theorem bradford_whitepoint_roundtrip :
    close (1 / 10 ^ 4) (convertColor WHITE_D65 xyz65 xyz50) WHITE_D50 ∧
    close (1 / 10 ^ 4)
      (convertColor (convertColor WHITE_D65 xyz65 xyz50) xyz50 xyz65)
      WHITE_D65 ∧
    close (1 / 10 ^ 4) (xyz65ToXyz50Bradford WHITE_D65) WHITE_D50 ∧
    close (1 / 10 ^ 4)
      (xyz50ToXyz65Bradford (xyz65ToXyz50Bradford WHITE_D65)) WHITE_D65 := by
  have h1 : convertColor WHITE_D65 xyz65 xyz50 = xyz65ToXyz50 WHITE_D65 := rfl
  have h2 : convertColor (xyz65ToXyz50 WHITE_D65) xyz50 xyz65
      = xyz50ToXyz65 (xyz65ToXyz50 WHITE_D65) := rfl
  rw [h1, h2]
  refine ⟨?_, ?_, ?_, ?_⟩ <;>
    simp only [close, xyz65ToXyz50, xyz50ToXyz65, xyz65ToXyz50Bradford,
      xyz50ToXyz65Bradford, SCALE_D65_TO_D50, SCALE_D50_TO_D65, lmsD65, lmsD50,
      multiplyMatrixVector, M_CAT_65_TO_50, M_CAT_50_TO_65, M_BRADFORD,
      M_BRADFORD_INV, WHITE_D65, WHITE_D50] <;>
    norm_num [abs_lt]

/-! ## JavaScript numbers for the palette utilities

  `mixColor` and `createScales` (`src/utils/palette.ts`) are pure
  rational arithmetic, but `createScales` divides by `steps - 1`, so the
  IEEE special values (`Infinity`, `NaN`) are part of their observable
  behaviour.  `JsNum` models a double as an exact rational or one of the
  special values (signed zero and rounding are not modelled; none of the
  properties below depend on them). -/

inductive JsNum where
  | num (q : ℚ)
  | posInf
  | negInf
  | nan
deriving DecidableEq, Repr

namespace JsNum

/-- Rational truncation toward zero (`Math.trunc` / the integer part
 JavaScript's `%` uses). -/
def truncQ (q : ℚ) : ℤ :=
  if 0 ≤ q then ⌊q⌋ else -⌊-q⌋

def add : JsNum → JsNum → JsNum
  | nan, _ => nan
  | _, nan => nan
  | num a, num b => num (a + b)
  | num _, posInf => posInf
  | num _, negInf => negInf
  | posInf, num _ => posInf
  | negInf, num _ => negInf
  | posInf, posInf => posInf
  | negInf, negInf => negInf
  | posInf, negInf => nan
  | negInf, posInf => nan

def neg : JsNum → JsNum
  | num a => num (-a)
  | posInf => negInf
  | negInf => posInf
  | nan => nan

def sub (a b : JsNum) : JsNum := add a (neg b)

def mul : JsNum → JsNum → JsNum
  | nan, _ => nan
  | _, nan => nan
  | num a, num b => num (a * b)
  | num a, posInf => if a = 0 then nan else if 0 < a then posInf else negInf
  | num a, negInf => if a = 0 then nan else if 0 < a then negInf else posInf
  | posInf, num b => if b = 0 then nan else if 0 < b then posInf else negInf
  | negInf, num b => if b = 0 then nan else if 0 < b then negInf else posInf
  | posInf, posInf => posInf
  | negInf, negInf => posInf
  | posInf, negInf => negInf
  | negInf, posInf => negInf

def div : JsNum → JsNum → JsNum
  | nan, _ => nan
  | _, nan => nan
  | num a, num b =>
    if b = 0 then (if a = 0 then nan else if 0 < a then posInf else negInf)
    else num (a / b)
  | num _, posInf => num 0
  | num _, negInf => num 0
  | posInf, num b => if b < 0 then negInf else posInf
  | negInf, num b => if b < 0 then posInf else negInf
  | posInf, _ => nan
  | negInf, _ => nan

/-- JavaScript's `%` (fmod; sign of the dividend). -/
def mod : JsNum → JsNum → JsNum
  | nan, _ => nan
  | _, nan => nan
  | posInf, _ => nan
  | negInf, _ => nan
  | num a, num b =>
    if b = 0 then nan else num (a - b * (truncQ (a / b) : ℚ))
  | num a, posInf => num a
  | num a, negInf => num a

/-- JavaScript's `<` (false whenever an operand is NaN). -/
def ltb : JsNum → JsNum → Bool
  | nan, _ => false
  | _, nan => false
  | num a, num b => a < b
  | num _, posInf => true
  | num _, negInf => false
  | posInf, _ => false
  | negInf, num _ => true
  | negInf, posInf => true
  | negInf, negInf => false

/-- JavaScript's `>`. -/
def gtb (a b : JsNum) : Bool := ltb b a

/-- `ToInt32` as used by `x | 0` (NaN and infinities go to 0). -/
def toInt32 : JsNum → ℤ
  | num q => (truncQ q + 2 ^ 31) % 2 ^ 32 - 2 ^ 31
  | _ => 0

end JsNum

/-- The public `Color` object as the palette utilities see it: space
 tag, three channels, optional alpha. -/
structure JsColor where
  space : ColorSpace
  v0 : JsNum
  v1 : JsNum
  v2 : JsNum
  alpha : Option JsNum
deriving DecidableEq, Repr

instance : Inhabited JsColor := ⟨⟨ColorSpace.rgb, .nan, .nan, .nan, none⟩⟩

open JsNum in
/-- One channel of `mixColor`'s loop body. -/
def mixChannel (isHue : Bool) (startVal endVal w : JsNum) : JsNum :=
  if isHue then
    let diff := sub endVal startVal
    let endVal' :=
      if gtb diff (num 180) then sub endVal (num 360)
      else if ltb diff (num (-180)) then add endVal (num 360)
      else endVal
    let h := add startVal (mul (sub endVal' startVal) w)
    let h' := mod h (num 360)
    if ltb h' (num 0) then add h' (num 360) else h'
  else
    add startVal (mul (sub endVal startVal) w)

/-- Hue-channel index per space, as `mixColor` selects it
 (0 for hsl/hwb, 2 for lch/oklch, −1 otherwise). -/
def hueIndex : ColorSpace → ℤ
  | ColorSpace.hsl => 0
  | ColorSpace.hwb => 0
  | ColorSpace.lch => 2
  | ColorSpace.oklch => 2
  | _ => -1

open JsNum in
/-- `mixColor` (`src/utils/palette.ts`). -/
def mixColor (start end_ : JsColor) (t : JsNum) : JsColor :=
  let space := start.space
  let w := if ltb t (num 0) then num 0 else if gtb t (num 1) then num 1 else t
  let hIdx := hueIndex space
  let sA := start.alpha.getD (num 1)
  let eA := end_.alpha.getD (num 1)
  { space := space
    v0 := mixChannel (0 = hIdx) start.v0 end_.v0 w
    v1 := mixChannel (1 = hIdx) start.v1 end_.v1 w
    v2 := mixChannel (2 = hIdx) start.v2 end_.v2 w
    alpha := some (add sA (mul (sub eA sA) w)) }

/-- Iteration count of a JavaScript `for (let i = 0; i < steps; i++)`
 loop with a (finite) numeric bound. -/
def jsLoopCount (steps : ℚ) : ℕ :=
  if steps ≤ 0 then 0 else ⌈steps⌉.toNat

/-- `createShades` (`src/utils/palette.ts`). -/
def createShades (start end_ : JsColor) (steps : ℚ) : List JsColor :=
  if steps ≤ 0 then []
  else if steps = 1 then [{ start with }]
  else
    let invTotal : JsNum := JsNum.div (.num 1) (.num (steps - 1))
    (List.range (jsLoopCount steps)).map fun i : ℕ =>
      mixColor start end_ (JsNum.mul (.num (i : ℚ)) invTotal)

open JsNum in
/-- `createScales` (`src/utils/palette.ts`). -/
def createScales (stops : List JsColor) (steps : ℚ) : List JsColor :=
  if steps ≤ 0 then []
  else if stops.length < 2 then stops.map fun s => { s with }
  else
    let totalSegments : ℤ := (stops.length : ℤ) - 1
    let stepInterval : JsNum := div (num 1) (num (steps - 1))
    (List.range (jsLoopCount steps)).map fun i : ℕ =>
      let segmentRaw := mul (mul (num (i : ℚ)) stepInterval) (num (totalSegments : ℚ))
      let idx0 := toInt32 segmentRaw
      let idx := if totalSegments ≤ idx0 then totalSegments - 1 else idx0
      mixColor (stops.getD idx.toNat default) (stops.getD (idx.toNat + 1) default)
        (sub segmentRaw (num (idx : ℚ)))

/-! ### C4: characterisation of `mixColor` -/

/-- Clamping of the interpolation weight into [0,1] (spec wording). -/
def clamp01 (t : ℚ) : ℚ := max 0 (min 1 t)

/-- Linear interpolation (spec wording). -/
def lerpQ (a b w : ℚ) : ℚ := a + (b - a) * w

/-- Renormalisation into [0,360) (mathematical floor-mod). -/
def wrap360 (q : ℚ) : ℚ := q - 360 * (⌊q / 360⌋ : ℚ)

/-- The endpoint the spec interpolates toward: when |end−start| exceeds
 180° the end hue is wrapped by ∓360° (signed shortest arc). -/
def specHueArc (s e : ℚ) : ℚ :=
  if 180 < |e - s| then (if 180 < e - s then e - 360 else e + 360) else e

/-- Hue interpolation along the signed shortest arc, renormalised into
 [0,360) (spec wording). -/
def specHueMix (s e w : ℚ) : ℚ := wrap360 (s + (specHueArc s e - s) * w)

theorem wrap360_nonneg (q : ℚ) : 0 ≤ wrap360 q := by
  have h := Int.floor_le (q / 360)
  unfold wrap360
  nlinarith

theorem wrap360_lt (q : ℚ) : wrap360 q < 360 := by
  have h := Int.lt_floor_add_one (q / 360)
  unfold wrap360
  nlinarith

theorem wrap360_eq_of (x r : ℚ) (k : ℤ) (hr : r = x - 360 * k) (h0 : 0 ≤ r)
    (h1 : r < 360) : wrap360 x = r := by
  have hk : ⌊x / 360⌋ = k := by
    rw [Int.floor_eq_iff]
    constructor
    · rw [le_div_iff (by norm_num : (0:ℚ) < 360)]
      push_cast
      linarith
    · rw [div_lt_iff (by norm_num : (0:ℚ) < 360)]
      push_cast
      linarith
  unfold wrap360
  rw [hk]
  linarith

theorem truncQ_le_self {q : ℚ} (h : 0 ≤ q) : (JsNum.truncQ q : ℚ) ≤ q := by
  unfold JsNum.truncQ
  rw [if_pos h]
  exact_mod_cast Int.floor_le q

theorem truncQ_gt {q : ℚ} (h : 0 ≤ q) : q - 1 < (JsNum.truncQ q : ℚ) := by
  unfold JsNum.truncQ
  rw [if_pos h]
  have := Int.lt_floor_add_one q
  push_cast
  linarith

theorem truncQ_ge_self {q : ℚ} (h : q < 0) : q ≤ (JsNum.truncQ q : ℚ) := by
  unfold JsNum.truncQ
  rw [if_neg (not_le.mpr h)]
  have := Int.floor_le (-q)
  push_cast
  linarith

theorem truncQ_lt {q : ℚ} (h : q < 0) : (JsNum.truncQ q : ℚ) < q + 1 := by
  unfold JsNum.truncQ
  rw [if_neg (not_le.mpr h)]
  have := Int.lt_floor_add_one (-q)
  push_cast
  linarith

/-- Arithmetic facades for the `JsNum` operations on finite values. -/
theorem JsNum.add_num (a b : ℚ) : JsNum.add (.num a) (.num b) = .num (a + b) := rfl

theorem JsNum.neg_num (a : ℚ) : JsNum.neg (.num a) = .num (-a) := rfl

theorem JsNum.sub_num (a b : ℚ) : JsNum.sub (.num a) (.num b) = .num (a - b) := by
  rw [JsNum.sub, JsNum.neg_num, JsNum.add_num, ← sub_eq_add_neg]

theorem JsNum.mul_num (a b : ℚ) : JsNum.mul (.num a) (.num b) = .num (a * b) := rfl

theorem JsNum.ltb_num (a b : ℚ) : JsNum.ltb (.num a) (.num b) = decide (a < b) := rfl

theorem JsNum.gtb_num (a b : ℚ) : JsNum.gtb (.num a) (.num b) = decide (b < a) := rfl

theorem JsNum.mod_num (a b : ℚ) (h : b ≠ 0) :
    JsNum.mod (.num a) (.num b) = .num (a - b * (JsNum.truncQ (a / b) : ℚ)) := by
  simp [JsNum.mod, h]

/-- The source's hue renormalisation (`h %= 360; if (h < 0) h += 360`)
 computes the mathematical floor-mod into [0,360). -/
theorem jsHueNorm_eq_wrap360 (x : ℚ) :
    (if x - 360 * (JsNum.truncQ (x / 360) : ℚ) < 0
     then x - 360 * (JsNum.truncQ (x / 360) : ℚ) + 360
     else x - 360 * (JsNum.truncQ (x / 360) : ℚ)) = wrap360 x := by
  by_cases hx : 0 ≤ x / 360
  · have h1 := truncQ_le_self hx
    have h2 := truncQ_gt hx
    have hb1 : 360 * (JsNum.truncQ (x / 360) : ℚ) ≤ x := by
      have := (le_div_iff₀ (by norm_num : (0:ℚ) < 360)).mp h1
      linarith
    have hb2 : x < 360 * (JsNum.truncQ (x / 360) : ℚ) + 360 := by
      have := (div_lt_iff₀ (by norm_num : (0:ℚ) < 360)).mp
        (by linarith : x / 360 < (JsNum.truncQ (x / 360) : ℚ) + 1)
      linarith
    rw [if_neg (by push_neg; linarith)]
    exact (wrap360_eq_of x _ _ rfl (by linarith) (by linarith)).symm
  · push_neg at hx
    have h1 := truncQ_ge_self hx
    have h2 := truncQ_lt hx
    have hb1 : x ≤ 360 * (JsNum.truncQ (x / 360) : ℚ) := by
      have := (div_le_iff₀ (by norm_num : (0:ℚ) < 360)).mp h1
      linarith
    have hb2 : 360 * (JsNum.truncQ (x / 360) : ℚ) - 360 < x := by
      have := (lt_div_iff₀ (by norm_num : (0:ℚ) < 360)).mp
        (by linarith : (JsNum.truncQ (x / 360) : ℚ) - 1 < x / 360)
      linarith
    by_cases hneg : x - 360 * (JsNum.truncQ (x / 360) : ℚ) < 0
    · rw [if_pos hneg]
      exact (wrap360_eq_of x _ (JsNum.truncQ (x / 360) - 1) (by push_cast; ring)
        (by linarith) (by linarith)).symm
    · rw [if_neg hneg]
      push_neg at hneg
      exact (wrap360_eq_of x _ _ rfl hneg (by linarith)).symm

theorem jsnum_ite_norm (x : ℚ) :
    (if x - 360 * (JsNum.truncQ (x / 360) : ℚ) < 0
     then JsNum.num (x - 360 * (JsNum.truncQ (x / 360) : ℚ) + 360)
     else JsNum.num (x - 360 * (JsNum.truncQ (x / 360) : ℚ)))
      = JsNum.num (wrap360 x) := by
  rw [← jsHueNorm_eq_wrap360 x, apply_ite JsNum.num]

/-- The spec's shortest-arc endpoint coincides with the source's signed
 branch structure. -/
theorem specHueArc_code (s e : ℚ) :
    specHueArc s e
      = if 180 < e - s then e - 360 else if e - s < -180 then e + 360 else e := by
  unfold specHueArc
  rcases abs_cases (e - s) with ⟨h1, h2⟩ | ⟨h1, h2⟩ <;> rw [h1] <;>
    split_ifs <;> first | rfl | linarith

theorem mixChannel_lin (s e w : ℚ) :
    mixChannel false (.num s) (.num e) (.num w) = .num (lerpQ s e w) := by
  simp only [mixChannel, Bool.false_eq_true, if_false, JsNum.sub_num,
    JsNum.mul_num, JsNum.add_num, lerpQ]

theorem jsHuePath (s e w : ℚ) :
    (if JsNum.ltb
          (JsNum.mod
            (JsNum.add (.num s) (JsNum.mul (JsNum.sub (.num e) (.num s)) (.num w)))
            (.num 360)) (.num 0) then
      JsNum.add
        (JsNum.mod
          (JsNum.add (.num s) (JsNum.mul (JsNum.sub (.num e) (.num s)) (.num w)))
          (.num 360)) (.num 360)
    else
      JsNum.mod
        (JsNum.add (.num s) (JsNum.mul (JsNum.sub (.num e) (.num s)) (.num w)))
        (.num 360)) = .num (wrap360 (s + (e - s) * w)) := by
  rw [JsNum.sub_num, JsNum.mul_num, JsNum.add_num,
    JsNum.mod_num _ _ (by norm_num : (360:ℚ) ≠ 0), JsNum.ltb_num]
  simp only [decide_eq_true_eq, JsNum.add_num]
  exact jsnum_ite_norm _

theorem mixChannel_hue (s e w : ℚ) :
    mixChannel true (.num s) (.num e) (.num w) = .num (specHueMix s e w) := by
  have harc :
      (if JsNum.gtb (JsNum.sub (.num e) (.num s)) (.num 180) then
        JsNum.sub (.num e) (.num 360)
      else if JsNum.ltb (JsNum.sub (.num e) (.num s)) (.num (-180)) then
        JsNum.add (.num e) (.num 360)
      else (.num e : JsNum)) = .num (specHueArc s e) := by
    rw [specHueArc_code]
    simp only [JsNum.sub_num, JsNum.add_num, JsNum.gtb_num, JsNum.ltb_num]
    by_cases hc1 : 180 < e - s
    · simp [hc1]
    · by_cases hc2 : e - s < -180 <;> simp [hc1, hc2]
  simp only [mixChannel, if_true]
  rw [harc, specHueMix]
  exact jsHuePath s (specHueArc s e) w

/-- The weight clamp in `mixColor` computes `max 0 (min 1 t)`. -/
theorem mix_weight_clamp (t : ℚ) :
    (if JsNum.ltb (.num t) (.num 0) then (.num 0 : JsNum)
     else if JsNum.gtb (.num t) (.num 1) then .num 1 else .num t)
      = .num (clamp01 t) := by
  simp only [JsNum.ltb, JsNum.gtb, clamp01]
  split_ifs with h1 h2 <;> simp_all only [decide_eq_true_eq, JsNum.num.injEq]
  · rw [min_eq_right (by linarith), max_eq_left (by linarith)]
  · rw [min_eq_left (by linarith), max_eq_right (by linarith)]
  · rw [min_eq_right (by linarith), max_eq_right (by linarith)]

/-- C4: `mixColor` clamps the weight to [0,1]; every channel except the
 hue channel (index 0 for hsl/hwb, index 2 for lch/oklch, none otherwise)
 interpolates linearly with the clamped weight; the hue channel follows
 the signed shortest arc (wrapping one endpoint by ±360° when the raw
 difference exceeds 180°) renormalised into [0,360); alpha interpolates
 linearly; and mixing hsl hue 350 with hsl hue 10 at weight 1/2 lands on
 hue 0, not 180. -/
theorem mixColor_shortest_arc_spec :
    (∀ (start end_ : JsColor) (t s0 s1 s2 e0 e1 e2 sa ea : ℚ),
      start.v0 = .num s0 → start.v1 = .num s1 → start.v2 = .num s2 →
      end_.v0 = .num e0 → end_.v1 = .num e1 → end_.v2 = .num e2 →
      start.alpha.getD (.num 1) = .num sa → end_.alpha.getD (.num 1) = .num ea →
      mixColor start end_ (.num t) =
        { space := start.space
          v0 := .num (if hueIndex start.space = 0 then specHueMix s0 e0 (clamp01 t)
                      else lerpQ s0 e0 (clamp01 t))
          v1 := .num (lerpQ s1 e1 (clamp01 t))
          v2 := .num (if hueIndex start.space = 2 then specHueMix s2 e2 (clamp01 t)
                      else lerpQ s2 e2 (clamp01 t))
          alpha := some (.num (lerpQ sa ea (clamp01 t))) }) ∧
    (∀ a b w : ℚ, 0 ≤ specHueMix a b w ∧ specHueMix a b w < 360) ∧
    (mixColor ⟨hsl, .num 350, .num 1, .num (1/2), none⟩
        ⟨hsl, .num 10, .num 1, .num (1/2), none⟩ (.num (1/2))).v0 = .num 0 := by
  have main : ∀ (start end_ : JsColor) (t s0 s1 s2 e0 e1 e2 sa ea : ℚ),
      start.v0 = .num s0 → start.v1 = .num s1 → start.v2 = .num s2 →
      end_.v0 = .num e0 → end_.v1 = .num e1 → end_.v2 = .num e2 →
      start.alpha.getD (.num 1) = .num sa → end_.alpha.getD (.num 1) = .num ea →
      mixColor start end_ (.num t) =
        { space := start.space
          v0 := .num (if hueIndex start.space = 0 then specHueMix s0 e0 (clamp01 t)
                      else lerpQ s0 e0 (clamp01 t))
          v1 := .num (lerpQ s1 e1 (clamp01 t))
          v2 := .num (if hueIndex start.space = 2 then specHueMix s2 e2 (clamp01 t)
                      else lerpQ s2 e2 (clamp01 t))
          alpha := some (.num (lerpQ sa ea (clamp01 t))) } := by
    intro start end_ t s0 s1 s2 e0 e1 e2 sa ea hv0 hv1 hv2 he0 he1 he2 hsa hea
    cases hsp : start.space <;>
      simp only [mixColor, hsp, hueIndex, hv0, hv1, hv2, he0, he1, he2, hsa, hea,
        mix_weight_clamp] <;>
      norm_num [mixChannel_lin, mixChannel_hue, JsNum.sub_num, JsNum.mul_num,
        JsNum.add_num, lerpQ]
  refine ⟨main, fun a b w => ⟨wrap360_nonneg _, wrap360_lt _⟩, ?_⟩
  have := main ⟨hsl, .num 350, .num 1, .num (1/2), none⟩
    ⟨hsl, .num 10, .num 1, .num (1/2), none⟩ (1/2) 350 1 (1/2) 10 1 (1/2) 1 1
    rfl rfl rfl rfl rfl rfl rfl rfl
  rw [this]
  norm_num [hueIndex, specHueMix, specHueArc, wrap360, clamp01]

theorem JsNum.mul_nan (x : JsNum) : JsNum.mul x .nan = .nan := by
  cases x <;> rfl

theorem JsNum.nan_add (x : JsNum) : JsNum.add .nan x = .nan := by
  cases x <;> rfl

theorem JsNum.nan_sub (x : JsNum) : JsNum.sub .nan x = .nan := by
  cases x <;> rfl

theorem JsNum.nan_ltb (x : JsNum) : JsNum.ltb .nan x = false := by
  cases x <;> rfl

theorem JsNum.ltb_nan (x : JsNum) : JsNum.ltb x .nan = false := by
  cases x <;> rfl

theorem JsNum.add_nan (x : JsNum) : JsNum.add x .nan = .nan := by
  cases x <;> rfl

/-- A NaN weight slips through `mixColor`'s clamp (NaN is neither `< 0`
 nor `> 1`) and poisons every interpolated channel. -/
theorem mixChannel_nan (isHue : Bool) (s e : JsNum) :
    mixChannel isHue s e .nan = .nan := by
  cases isHue <;> simp only [mixChannel, Bool.false_eq_true, if_false, if_true,
    JsNum.mul_nan, JsNum.add_nan]
  split_ifs <;> simp [JsNum.mul_nan, JsNum.add_nan, JsNum.nan_add, JsNum.mod, JsNum.ltb]

/-- A NaN interpolation weight poisons every channel and the alpha of
 `mixColor`'s result. -/
theorem mixColor_nan_weight (a b : JsColor) :
    mixColor a b .nan =
      { space := a.space, v0 := .nan, v1 := .nan, v2 := .nan,
        alpha := some .nan } := by
  simp [mixColor, JsNum.nan_ltb, JsNum.ltb_nan, JsNum.gtb, mixChannel_nan,
    JsNum.mul_nan, JsNum.add_nan]

/-- C10: with at least two stops, `createScales(stops, 1)` produces a
 single color whose three channels are all NaN: the step interval divides
 by zero, `0 * ∞` is NaN, and the NaN weight passes unchanged through
 `mixColor`'s clamp into every channel. -/
theorem createScales_single_step_nan (stops : List JsColor)
    (h : 2 ≤ stops.length) :
    ∃ c : JsColor, createScales stops 1 = [c] ∧
      c.v0 = JsNum.nan ∧ c.v1 = JsNum.nan ∧ c.v2 = JsNum.nan := by
  have h2 : ¬((1 : ℚ) ≤ 0) := by norm_num
  have hlen : ¬(stops.length < 2) := by omega
  simp only [createScales, h2, if_false, hlen, jsLoopCount]
  have hcount : (⌈(1 : ℚ)⌉).toNat = 1 := by norm_num
  rw [hcount]
  have hdiv : JsNum.div (.num 1) (.num (1 - 1 : ℚ)) = JsNum.posInf := by
    norm_num [JsNum.div]
  rw [hdiv]
  have hr : List.range 1 = [0] := rfl
  rw [hr]
  simp only [List.map_cons, List.map_nil]
  have hsegraw : JsNum.mul (JsNum.mul (.num ((0 : ℕ) : ℚ)) JsNum.posInf)
      (.num (((stops.length : ℤ) - 1 : ℤ) : ℚ)) = JsNum.nan := by
    norm_num [JsNum.mul]
  rw [hsegraw]
  refine ⟨_, rfl, ?_, ?_, ?_⟩ <;> rw [JsNum.nan_sub, mixColor_nan_weight]

/-! ## Gamut clamping (`src/utils/gamut.ts`), embedded over `ℚ`.

  A color here carries a buffer identity (`buf`) so that the in-place /
  fresh-buffer discipline of `clampColor` is observable; `fresh` stands
  for the id of the buffer `createMatrix` would hand out. -/

structure QColor where
  space : ColorSpace
  buf : ℕ
  v0 : ℚ
  v1 : ℚ
  v2 : ℚ
  alpha : Option ℚ
deriving DecidableEq, Repr

/-- Per-channel (min,max) pairs; a max of 360 marks a circular (hue)
 dimension (`CLAMP_BOUNDS`). -/
def CLAMP_BOUNDS : ColorSpace → Option (List ℚ)
  | rgb => some [0, 1, 0, 1, 0, 1]
  | lrgb => some [0, 1, 0, 1, 0, 1]
  | hsl => some [0, 360, 0, 1, 0, 1]
  | hwb => some [0, 360, 0, 1, 0, 1]
  | lab => some [0, 100, -128, 128, -128, 128]
  | lch => some [0, 100, 0, 150, 0, 360]
  | oklab => some [0, 1, -2/5, 2/5, -2/5, 2/5]
  | oklch => some [0, 1, 0, 2/5, 0, 360]
  | xyz50 => some [0, 1, 0, 1, 0, 1]
  | xyz65 => some [0, 1, 0, 1, 0, 1]
  | _ => none

/-- The loop body of `clampColor` on one channel. -/
def clampChannel (mn mx v : ℚ) : ℚ :=
  if mx = 360 then
    let r := v - 360 * (JsNum.truncQ (v / 360) : ℚ)
    if r < 0 then r + 360 else r
  else if v < mn then mn
  else if v > mx then mx
  else v

/-- `clampColor` (`src/utils/gamut.ts`).  `fresh` is the buffer id a
 `createMatrix` call would return for the non-mutating path. -/
def clampColor (color : QColor) (mutate : Bool) (fresh : ℕ) : QColor :=
  match CLAMP_BOUNDS color.space with
  | none =>
    if mutate then color else { color with alpha := some (color.alpha.getD 1) }
  | some bounds =>
    let c0 := clampChannel (bounds.getD 0 0) (bounds.getD 1 0) color.v0
    let c1 := clampChannel (bounds.getD 2 0) (bounds.getD 3 0) color.v1
    let c2 := clampChannel (bounds.getD 4 0) (bounds.getD 5 0) color.v2
    if mutate then { color with v0 := c0, v1 := c1, v2 := c2 }
    else
      { space := color.space, buf := fresh, v0 := c0, v1 := c1, v2 := c2,
        alpha := some (color.alpha.getD 1) }

/-- Reduction of `clampColor` when the space has a bounds row. -/
theorem clampColor_mutate_of_bounds (c : QColor) (f : ℕ) (bounds : List ℚ)
    (hb : CLAMP_BOUNDS c.space = some bounds) :
    clampColor c true f =
      { c with v0 := clampChannel (bounds.getD 0 0) (bounds.getD 1 0) c.v0,
               v1 := clampChannel (bounds.getD 2 0) (bounds.getD 3 0) c.v1,
               v2 := clampChannel (bounds.getD 4 0) (bounds.getD 5 0) c.v2 } := by
  unfold clampColor
  rw [hb]
  rfl

/-- Reduction of `clampColor` into a fresh buffer when the space has a
 bounds row. -/
theorem clampColor_fresh_of_bounds (c : QColor) (f : ℕ) (bounds : List ℚ)
    (hb : CLAMP_BOUNDS c.space = some bounds) :
    clampColor c false f =
      { space := c.space, buf := f,
        v0 := clampChannel (bounds.getD 0 0) (bounds.getD 1 0) c.v0,
        v1 := clampChannel (bounds.getD 2 0) (bounds.getD 3 0) c.v1,
        v2 := clampChannel (bounds.getD 4 0) (bounds.getD 5 0) c.v2,
        alpha := some (c.alpha.getD 1) } := by
  unfold clampColor
  rw [hb]
  rfl

/-- Reduction of `clampColor` for spaces absent from the bounds table. -/
theorem clampColor_of_no_bounds (c : QColor) (m : Bool) (f : ℕ)
    (hn : CLAMP_BOUNDS c.space = none) :
    clampColor c m f =
      if m then c else { c with alpha := some (c.alpha.getD 1) } := by
  unfold clampColor
  rw [hn]

/-- `checkGamut` (`src/utils/gamut.ts`). -/
def checkGamut (color : QColor) (tolerance : ℚ) : Bool :=
  match CLAMP_BOUNDS color.space with
  | none => true
  | some bounds =>
    let ok := fun (mn mx v : ℚ) =>
      if mx = 360 then true
      else decide (mn - tolerance ≤ v ∧ v ≤ mx + tolerance)
    ok (bounds.getD 0 0) (bounds.getD 1 0) color.v0 &&
    ok (bounds.getD 2 0) (bounds.getD 3 0) color.v1 &&
    ok (bounds.getD 4 0) (bounds.getD 5 0) color.v2

theorem clampChannel_idem (mn mx v : ℚ) (hb : mn ≤ mx) :
    clampChannel mn mx (clampChannel mn mx v) = clampChannel mn mx v := by
  unfold clampChannel
  by_cases hc : mx = 360
  · rw [if_pos hc, if_pos hc]
    have := jsHueNorm_eq_wrap360 v
    simp only at this
    rw [this, jsHueNorm_eq_wrap360 (wrap360 v)]
    have h0 := wrap360_nonneg v
    have h1 := wrap360_lt v
    exact wrap360_eq_of _ _ 0 (by push_cast; ring) h0 h1
  · rw [if_neg hc, if_neg hc]
    split_ifs <;> first | rfl | linarith

theorem clampChannel_mem (mn mx v : ℚ) (hb : mn ≤ mx) (hc : mx ≠ 360) :
    mn ≤ clampChannel mn mx v ∧ clampChannel mn mx v ≤ mx := by
  unfold clampChannel
  rw [if_neg hc]
  split_ifs <;> constructor <;> linarith

theorem clampChannel_hue_mem (mn v : ℚ) :
    0 ≤ clampChannel mn 360 v ∧ clampChannel mn 360 v < 360 := by
  unfold clampChannel
  rw [if_pos rfl]
  have := jsHueNorm_eq_wrap360 v
  simp only at this
  rw [this]
  exact ⟨wrap360_nonneg v, wrap360_lt v⟩

/-- C6: `clampColor` is idempotent on channel values; every circular
 (hue) dimension of a clamped color lands in [0,360) and every bounded
 dimension in [min,max]; the operation writes in place when `mutate` is
 set and into the freshly drawn buffer otherwise; colors of spaces absent
 from the bounds table pass through unchanged. -/
theorem clampColor_spec :
    (∀ (c : QColor) (m₁ m₂ : Bool) (f₁ f₂ : ℕ),
      (clampColor (clampColor c m₁ f₁) m₂ f₂).v0 = (clampColor c m₁ f₁).v0 ∧
      (clampColor (clampColor c m₁ f₁) m₂ f₂).v1 = (clampColor c m₁ f₁).v1 ∧
      (clampColor (clampColor c m₁ f₁) m₂ f₂).v2 = (clampColor c m₁ f₁).v2) ∧
    (∀ (c : QColor) (m : Bool) (f : ℕ) (bounds : List ℚ),
      CLAMP_BOUNDS c.space = some bounds →
      ((bounds.getD 1 0 = 360 →
          0 ≤ (clampColor c m f).v0 ∧ (clampColor c m f).v0 < 360) ∧
       (bounds.getD 1 0 ≠ 360 →
          bounds.getD 0 0 ≤ (clampColor c m f).v0 ∧
          (clampColor c m f).v0 ≤ bounds.getD 1 0) ∧
       (bounds.getD 3 0 = 360 →
          0 ≤ (clampColor c m f).v1 ∧ (clampColor c m f).v1 < 360) ∧
       (bounds.getD 3 0 ≠ 360 →
          bounds.getD 2 0 ≤ (clampColor c m f).v1 ∧
          (clampColor c m f).v1 ≤ bounds.getD 3 0) ∧
       (bounds.getD 5 0 = 360 →
          0 ≤ (clampColor c m f).v2 ∧ (clampColor c m f).v2 < 360) ∧
       (bounds.getD 5 0 ≠ 360 →
          bounds.getD 4 0 ≤ (clampColor c m f).v2 ∧
          (clampColor c m f).v2 ≤ bounds.getD 5 0))) ∧
    (∀ (c : QColor) (f : ℕ),
      (clampColor c true f).buf = c.buf ∧
      (CLAMP_BOUNDS c.space ≠ none → (clampColor c false f).buf = f)) ∧
    (∀ (c : QColor) (m : Bool) (f : ℕ),
      CLAMP_BOUNDS c.space = none →
      (clampColor c m f).v0 = c.v0 ∧ (clampColor c m f).v1 = c.v1 ∧
      (clampColor c m f).v2 = c.v2) := by
  have i01 : ∀ v, clampChannel 0 1 (clampChannel 0 1 v) = clampChannel 0 1 v :=
    fun v => clampChannel_idem 0 1 v (by norm_num)
  have i0100 : ∀ v, clampChannel 0 100 (clampChannel 0 100 v) = clampChannel 0 100 v :=
    fun v => clampChannel_idem 0 100 v (by norm_num)
  have i128 : ∀ v, clampChannel (-128) 128 (clampChannel (-128) 128 v)
      = clampChannel (-128) 128 v :=
    fun v => clampChannel_idem (-128) 128 v (by norm_num)
  have i04 : ∀ v, clampChannel (-2/5) (2/5) (clampChannel (-2/5) (2/5) v)
      = clampChannel (-2/5) (2/5) v :=
    fun v => clampChannel_idem (-2/5) (2/5) v (by norm_num)
  have i0150 : ∀ v, clampChannel 0 150 (clampChannel 0 150 v) = clampChannel 0 150 v :=
    fun v => clampChannel_idem 0 150 v (by norm_num)
  have i04p : ∀ v, clampChannel 0 (2/5) (clampChannel 0 (2/5) v)
      = clampChannel 0 (2/5) v :=
    fun v => clampChannel_idem 0 (2/5) v (by norm_num)
  have ihue : ∀ v, clampChannel 0 360 (clampChannel 0 360 v) = clampChannel 0 360 v :=
    fun v => clampChannel_idem 0 360 v (by norm_num)
  refine ⟨?_, ?_, ?_, ?_⟩
  · intro c m₁ m₂ f₁ f₂
    cases hsp : c.space <;>
      cases m₁ <;> cases m₂ <;>
      simp [clampColor, CLAMP_BOUNDS, hsp, i01, i0100, i128, i04, i04p, i0150, ihue]
  · intro c m f bounds hb
    have hmono : bounds.getD 0 0 ≤ bounds.getD 1 0 ∧
        bounds.getD 2 0 ≤ bounds.getD 3 0 ∧
        bounds.getD 4 0 ≤ bounds.getD 5 0 := by
      cases hsp : c.space <;> rw [hsp] at hb <;>
        simp only [CLAMP_BOUNDS, Option.some.injEq, reduceCtorEq] at hb <;>
        subst hb <;> norm_num
    cases m
    · rw [clampColor_fresh_of_bounds c f bounds hb]
      refine ⟨fun h => ?_, fun h => ?_, fun h => ?_, fun h => ?_, fun h => ?_,
        fun h => ?_⟩
      · rw [h]; exact clampChannel_hue_mem (bounds.getD 0 0) c.v0
      · exact clampChannel_mem (bounds.getD 0 0) (bounds.getD 1 0) c.v0 hmono.1 h
      · rw [h]; exact clampChannel_hue_mem (bounds.getD 2 0) c.v1
      · exact clampChannel_mem (bounds.getD 2 0) (bounds.getD 3 0) c.v1 hmono.2.1 h
      · rw [h]; exact clampChannel_hue_mem (bounds.getD 4 0) c.v2
      · exact clampChannel_mem (bounds.getD 4 0) (bounds.getD 5 0) c.v2 hmono.2.2 h
    · rw [clampColor_mutate_of_bounds c f bounds hb]
      refine ⟨fun h => ?_, fun h => ?_, fun h => ?_, fun h => ?_, fun h => ?_,
        fun h => ?_⟩
      · rw [h]; exact clampChannel_hue_mem (bounds.getD 0 0) c.v0
      · exact clampChannel_mem (bounds.getD 0 0) (bounds.getD 1 0) c.v0 hmono.1 h
      · rw [h]; exact clampChannel_hue_mem (bounds.getD 2 0) c.v1
      · exact clampChannel_mem (bounds.getD 2 0) (bounds.getD 3 0) c.v1 hmono.2.1 h
      · rw [h]; exact clampChannel_hue_mem (bounds.getD 4 0) c.v2
      · exact clampChannel_mem (bounds.getD 4 0) (bounds.getD 5 0) c.v2 hmono.2.2 h
  · intro c f
    refine ⟨?_, ?_⟩
    · rcases hcb : CLAMP_BOUNDS c.space with _ | bounds
      · rw [clampColor_of_no_bounds _ _ _ hcb]
        rfl
      · rw [clampColor_mutate_of_bounds c f bounds hcb]
    · intro hne
      rcases hcb : CLAMP_BOUNDS c.space with _ | bounds
      · exact absurd hcb hne
      · rw [clampColor_fresh_of_bounds c f bounds hcb]
  · intro c m f hnone
    cases m <;> rw [clampColor_of_no_bounds _ _ _ hnone] <;> exact ⟨rfl, rfl, rfl⟩

/-! ## The buffer pool (`src/shared.ts`)

  Buffers are identified by natural-number ids.  The JavaScript array's
  end (where `push`/`pop` operate) is the head of the Lean list, so the
  list is the free-list viewed top-first.  `next` numbers the fresh
  `Float32Array(3)` allocations. -/

def MAX_POOL_SIZE : ℕ := 256

structure PoolState where
  pool : List ℕ
  next : ℕ
deriving DecidableEq, Repr

def initPool : PoolState := ⟨[], 0⟩

/-- `createMatrix`: pop from the free-list, else allocate fresh. -/
def createMatrix : PoolState → ℕ × PoolState
  | ⟨[], next⟩ => (next, ⟨[], next + 1⟩)
  | ⟨b :: rest, next⟩ => (b, ⟨rest, next⟩)

/-- `dropMatrix`: push back only while below capacity; silently drop
 otherwise. -/
def dropMatrix (b : ℕ) (s : PoolState) : PoolState :=
  if s.pool.length < MAX_POOL_SIZE then { s with pool := b :: s.pool } else s

/-- `preallocatePool`: fill with `min size (capacity − length)` fresh
 buffers. -/
def preallocatePool (size : ℕ) (s : PoolState) : PoolState :=
  let count := min size (MAX_POOL_SIZE - s.pool.length)
  { pool := ((List.range count).map (s.next + ·)).reverse ++ s.pool,
    next := s.next + count }

/-- `clearPool`. -/
def clearPool (s : PoolState) : PoolState := { s with pool := [] }

/-- One observable pool operation. -/
inductive PoolOp where
  | create
  | drop (b : ℕ)
  | prealloc (n : ℕ)
  | clear
deriving DecidableEq, Repr

def poolStep (s : PoolState) : PoolOp → PoolState
  | .create => (createMatrix s).2
  | .drop b => dropMatrix b s
  | .prealloc n => preallocatePool n s
  | .clear => clearPool s

def runPool (ops : List PoolOp) : PoolState :=
  ops.foldl poolStep initPool

theorem poolStep_length_le (s : PoolState) (op : PoolOp)
    (h : s.pool.length ≤ MAX_POOL_SIZE) :
    (poolStep s op).pool.length ≤ MAX_POOL_SIZE := by
  cases op with
  | create =>
    rcases s with ⟨_ | ⟨b, rest⟩, next⟩ <;>
      simp_all [poolStep, createMatrix] <;> omega
  | drop b =>
    simp only [poolStep, dropMatrix]
    split_ifs with hlt
    · simpa using hlt
    · exact h
  | prealloc n =>
    simp only [poolStep, preallocatePool, List.length_append,
      List.length_reverse, List.length_map, List.length_range]
    omega
  | clear => simp [poolStep, clearPool]

set_option maxRecDepth 8192 in
/-- C7 counterexample: with the pool already at its 256-buffer capacity,
 releasing a buffer drops it, so the immediately following acquire hands
 back a different buffer reference — refuting the claim's unconditional
 "acquiring immediately after releasing a buffer returns that same
 buffer". -/
theorem pool_release_acquire_not_same_at_capacity :
    (createMatrix (runPool [.prealloc 256, .drop 999])).1 ≠ 999 := by
  decide

/-- C7 (amended): `createMatrix` recycles the top of a non-empty
 free-list and otherwise allocates fresh; `dropMatrix` accepts a buffer
 only while the pool holds fewer than 256 and silently drops it
 otherwise (so an acquire right after an accepted release returns that
 same buffer); `preallocatePool` fills at most to capacity; under every
 operation sequence the free-list length never exceeds 256. -/
theorem pool_contract_spec :
    (∀ (s : PoolState) (b : ℕ), s.pool.length < MAX_POOL_SIZE →
      (createMatrix (dropMatrix b s)).1 = b) ∧
    (∀ (s : PoolState) (b : ℕ) (rest : List ℕ), s.pool = b :: rest →
      (createMatrix s).1 = b ∧ (createMatrix s).2.pool = rest) ∧
    (∀ s : PoolState, s.pool = [] →
      (createMatrix s).1 = s.next ∧ (createMatrix s).2.next = s.next + 1) ∧
    (∀ (s : PoolState) (b : ℕ), MAX_POOL_SIZE ≤ s.pool.length →
      dropMatrix b s = s) ∧
    (∀ (s : PoolState) (n : ℕ),
      (preallocatePool n s).pool.length
        = min (s.pool.length + n) (max s.pool.length MAX_POOL_SIZE)) ∧
    (∀ ops : List PoolOp, (runPool ops).pool.length ≤ MAX_POOL_SIZE) := by
  refine ⟨?_, ?_, ?_, ?_, ?_, ?_⟩
  · intro s b hlt
    simp [dropMatrix, hlt, createMatrix]
  · intro s b rest hp
    rcases s with ⟨pool, next⟩
    simp only at hp
    subst hp
    exact ⟨rfl, rfl⟩
  · intro s hp
    rcases s with ⟨pool, next⟩
    simp only at hp
    subst hp
    exact ⟨rfl, rfl⟩
  · intro s b hge
    simp [dropMatrix, Nat.not_lt.mpr hge]
  · intro s n
    simp only [preallocatePool, List.length_append, List.length_reverse,
      List.length_map, List.length_range]
    omega
  · intro ops
    have : ∀ (l : List PoolOp) (s : PoolState), s.pool.length ≤ MAX_POOL_SIZE →
        (l.foldl poolStep s).pool.length ≤ MAX_POOL_SIZE := by
      intro l
      induction l with
      | nil => intro s h; simpa using h
      | cons op rest ih =>
        intro s h
        exact ih _ (poolStep_length_le s op h)
    exact this ops initPool (by simp [initPool, MAX_POOL_SIZE])

/-! ### Concrete witnesses for the hypothesis-bearing theorems above -/

theorem mixColor_shortest_arc_spec_witness :
    mixColor ⟨lch, .num 50, .num 30, .num 40, some (.num (1/2))⟩
        ⟨lch, .num 60, .num 20, .num 300, some (.num 1)⟩ (.num (3/4))
      = ⟨lch, .num (115/2), .num (45/2), .num 325, some (.num (7/8))⟩ := by
  rw [mixColor_shortest_arc_spec.1 ⟨lch, .num 50, .num 30, .num 40, some (.num (1/2))⟩
    ⟨lch, .num 60, .num 20, .num 300, some (.num 1)⟩ (3/4) 50 30 40 60 20 300
    (1/2) 1 rfl rfl rfl rfl rfl rfl rfl rfl]
  have hf : ⌊(-35 : ℚ) / 360⌋ = -1 := by
    rw [Int.floor_eq_iff] <;> norm_num
  norm_num [hueIndex, specHueMix, specHueArc, wrap360, lerpQ, clamp01, hf]

theorem clampColor_spec_witness :
    (0 ≤ (clampColor ⟨hsl, 7, 725, 2, -1, some 1⟩ true 0).v0 ∧
      (clampColor ⟨hsl, 7, 725, 2, -1, some 1⟩ true 0).v0 < 360) ∧
    clampColor ⟨hsl, 7, 725, 2, -1, some 1⟩ true 0 = ⟨hsl, 7, 5, 1, 0, some 1⟩ := by
  refine ⟨(clampColor_spec.2.1 ⟨hsl, 7, 725, 2, -1, some 1⟩ true 0
    [0, 360, 0, 1, 0, 1] rfl).1 rfl, ?_⟩
  have hfl : ⌊(725 : ℚ) / 360⌋ = 2 := by
    rw [Int.floor_eq_iff] <;> norm_num
  have h1 : clampChannel 0 360 725 = 5 := by
    unfold clampChannel JsNum.truncQ
    norm_num [hfl]
  have h2 : clampChannel 0 1 2 = 1 := by
    unfold clampChannel
    norm_num
  have h3 : clampChannel 0 1 (-1) = 0 := by
    unfold clampChannel
    norm_num
  rw [clampColor_mutate_of_bounds ⟨hsl, 7, 725, 2, -1, some 1⟩ 0
    [0, 360, 0, 1, 0, 1] rfl]
  norm_num [List.getD_cons_zero, List.getD_cons_succ, h1, h2, h3]

theorem pool_contract_spec_witness :
    (⟨[5], 10⟩ : PoolState).pool.length < MAX_POOL_SIZE ∧
    (createMatrix (dropMatrix 7 ⟨[5], 10⟩)).1 = 7 :=
  ⟨by decide, pool_contract_spec.1 ⟨[5], 10⟩ 7 (by decide)⟩

theorem createScales_single_step_nan_witness :
    2 ≤ ([⟨rgb, .num 0, .num 0, .num 0, none⟩,
          ⟨rgb, .num 1, .num 1, .num 1, none⟩] : List JsColor).length ∧
    ∃ c : JsColor,
      createScales [⟨rgb, .num 0, .num 0, .num 0, none⟩,
        ⟨rgb, .num 1, .num 1, .num 1, none⟩] 1 = [c] ∧
      c.v0 = JsNum.nan ∧ c.v1 = JsNum.nan ∧ c.v2 = JsNum.nan :=
  ⟨by decide, createScales_single_step_nan _ (by decide)⟩

/-! ## APCA contrast (`src/utils/contrast.ts`) -/

/-- The public color object as the contrast utilities see it. -/
structure RColor where
  space : ColorSpace
  value : T3
  alpha : Option ℝ

def APCA_SCALE : ℝ := 1.14

def DARK_THRESH : ℝ := 0.022

noncomputable def DARK_CLAMP : ℝ := 1414 / 1000

/-- `getLuminanceD65`: the Y channel after conversion to xyz65. -/
noncomputable def getLuminanceD65 (color : RColor) : ℝ :=
  (convertColor color.value color.space xyz65).c1

/-- `getSapcV`: APCA soft clamp of a luminance. -/
noncomputable def getSapcV (y : ℝ) : ℝ :=
  if DARK_THRESH < y then y else y + (DARK_THRESH - y) ^ DARK_CLAMP

/-- `calculateLc`: the asymmetric APCA power law. -/
noncomputable def calculateLc (vt vb : ℝ) : ℝ :=
  if vt < vb then (vb ^ (0.56 : ℝ) - vt ^ (0.57 : ℝ)) * APCA_SCALE
  else (vb ^ (0.65 : ℝ) - vt ^ (0.62 : ℝ)) * APCA_SCALE

/-- JavaScript's `Math.round` (half away from zero is half-up for the
 values taken here; modelled as floor of x + 1/2). -/
noncomputable def jsRound (x : ℝ) : ℝ := (⌊x + 1 / 2⌋ : ℤ)

/-- `checkContrast` (`src/utils/contrast.ts`). -/
noncomputable def checkContrast (text background : RColor) : ℝ :=
  let vt := getSapcV (getLuminanceD65 text)
  let vb := getSapcV (getLuminanceD65 background)
  let Lc := calculateLc vt vb
  let res := if |Lc| < 0.001 then 0 else Lc * 100
  jsRound (res * 100) / 100

noncomputable def blackColor : RColor := ⟨rgb, ⟨0, 0, 0⟩, none⟩

noncomputable def whiteColor : RColor := ⟨rgb, ⟨1, 1, 1⟩, none⟩

/-! ### Certified bounds for rational powers -/

theorem rpow_div_le {x u : ℝ} {p q : ℕ} (hq : q ≠ 0) (hx : 0 ≤ x) (hu : 0 ≤ u)
    (h : x ^ p ≤ u ^ q) : x ^ ((p : ℝ) / (q : ℝ)) ≤ u := by
  have key : x ^ ((p : ℝ) / (q : ℝ)) = (x ^ p) ^ ((q : ℝ)⁻¹) := by
    rw [div_eq_mul_inv, Real.rpow_mul hx, Real.rpow_natCast]
  rw [key]
  calc (x ^ p) ^ ((q : ℝ)⁻¹) ≤ (u ^ q) ^ ((q : ℝ)⁻¹) :=
        Real.rpow_le_rpow (by positivity) h (by positivity)
    _ = u := Real.pow_rpow_inv_natCast hu hq

theorem le_rpow_div {x l : ℝ} {p q : ℕ} (hq : q ≠ 0) (hx : 0 ≤ x) (hl : 0 ≤ l)
    (h : l ^ q ≤ x ^ p) : l ≤ x ^ ((p : ℝ) / (q : ℝ)) := by
  have key : x ^ ((p : ℝ) / (q : ℝ)) = (x ^ p) ^ ((q : ℝ)⁻¹) := by
    rw [div_eq_mul_inv, Real.rpow_mul hx, Real.rpow_natCast]
  rw [key]
  calc l = (l ^ q) ^ ((q : ℝ)⁻¹) := (Real.pow_rpow_inv_natCast hl hq).symm
    _ ≤ (x ^ p) ^ ((q : ℝ)⁻¹) := Real.rpow_le_rpow (by positivity) h (by positivity)

theorem gammaDecode_zero : gammaDecode 0 = 0 := by
  unfold gammaDecode
  rw [if_pos (by norm_num)]
  norm_num

theorem gammaDecode_one : gammaDecode 1 = 1 := by
  unfold gammaDecode
  rw [if_neg (by norm_num)]
  have h1 : ((1 : ℝ) + 0.055) * (1 / 1.055) = 1 := by norm_num
  rw [h1, Real.one_rpow]

theorem lum_black : getLuminanceD65 blackColor = 0 := by
  have hroute : getLuminanceD65 blackColor
      = (lrgbToXyz65 (rgbToLrgb ⟨0, 0, 0⟩)).c1 := rfl
  rw [hroute]
  show (multiplyMatrixVector M_SRGB (rgbToLrgb ⟨0, 0, 0⟩)).c1 = 0
  simp only [rgbToLrgb, gammaDecode_zero, multiplyMatrixVector, M_SRGB]
  norm_num

theorem lum_white : getLuminanceD65 whiteColor = 10000001 / 10000000 := by
  have hroute : getLuminanceD65 whiteColor
      = (lrgbToXyz65 (rgbToLrgb ⟨1, 1, 1⟩)).c1 := rfl
  rw [hroute]
  show (multiplyMatrixVector M_SRGB (rgbToLrgb ⟨1, 1, 1⟩)).c1 = 10000001 / 10000000
  simp only [rgbToLrgb, gammaDecode_one, multiplyMatrixVector, M_SRGB]
  norm_num

/-- The encoded luminance of pure black. -/
theorem sapc_black : getSapcV (getLuminanceD65 blackColor)
    = (0.022 : ℝ) ^ DARK_CLAMP := by
  rw [lum_black]
  unfold getSapcV
  rw [if_neg (by norm_num [DARK_THRESH])]
  norm_num [DARK_THRESH]

/-- The encoded luminance of pure white. -/
theorem sapc_white : getSapcV (getLuminanceD65 whiteColor)
    = 10000001 / 10000000 := by
  rw [lum_white]
  unfold getSapcV
  rw [if_pos (by norm_num [DARK_THRESH])]

theorem dark_clamp_frac : DARK_CLAMP = ((707 : ℕ) : ℝ) / ((500 : ℕ) : ℝ) := by
  norm_num [DARK_CLAMP]

theorem sapcBlack_ub : (0.022 : ℝ) ^ DARK_CLAMP ≤ 0.005 := by
  rw [dark_clamp_frac]
  exact rpow_div_le (by norm_num) (by norm_num) (by norm_num) (by norm_num)

theorem sapcBlack_lb : (0.004 : ℝ) ≤ (0.022 : ℝ) ^ DARK_CLAMP := by
  rw [dark_clamp_frac]
  exact le_rpow_div (by norm_num) (by norm_num) (by norm_num) (by norm_num)

/-- C5: `checkContrast` snaps to exactly 0 whenever |Lc| < 0.001, and on
 the black/white extremes realises the documented sign convention:
 above 100 for black text on a white (light) background, below −100 for
 white text on a black (dark) background, and exactly 0 for identical
 white on white. -/
theorem checkContrast_spec :
    (∀ text bg : RColor,
      |calculateLc (getSapcV (getLuminanceD65 text))
          (getSapcV (getLuminanceD65 bg))| < 0.001 →
      checkContrast text bg = 0) ∧
    100 < checkContrast blackColor whiteColor ∧
    checkContrast whiteColor blackColor < -100 ∧
    checkContrast whiteColor whiteColor = 0 := by
  have hfloor_half : (⌊(0 : ℝ) * 100 + 1 / 2⌋ : ℤ) = 0 := by
    rw [Int.floor_eq_iff]
    norm_num
  refine ⟨?_, ?_, ?_, ?_⟩
  · intro text bg hsnap
    simp only [checkContrast]
    rw [if_pos hsnap]
    unfold jsRound
    rw [hfloor_half]
    norm_num
  · -- black text on white background
    set A := (0.022 : ℝ) ^ DARK_CLAMP with hA
    have hW56 : (1 : ℝ) ≤ (10000001 / 10000000 : ℝ) ^ (0.56 : ℝ) :=
      Real.one_le_rpow (by norm_num) (by norm_num)
    have hA_nonneg : (0 : ℝ) ≤ A := Real.rpow_nonneg (by norm_num) _
    have hA57 : A ^ (0.57 : ℝ) ≤ 0.05 := by
      calc A ^ (0.57 : ℝ) ≤ (0.005 : ℝ) ^ (0.57 : ℝ) :=
            Real.rpow_le_rpow hA_nonneg sapcBlack_ub (by norm_num)
        _ ≤ 0.05 := by
            rw [show (0.57 : ℝ) = ((57 : ℕ) : ℝ) / ((100 : ℕ) : ℝ) by norm_num]
            exact rpow_div_le (by norm_num) (by norm_num) (by norm_num) (by norm_num)
    have hLc : calculateLc (getSapcV (getLuminanceD65 blackColor))
        (getSapcV (getLuminanceD65 whiteColor))
        = ((10000001 / 10000000 : ℝ) ^ (0.56 : ℝ) - A ^ (0.57 : ℝ)) * APCA_SCALE := by
      rw [sapc_black, sapc_white, ← hA]
      unfold calculateLc
      rw [if_pos (by nlinarith [sapcBlack_ub])]
    have hLc_lb : (1.083 : ℝ) ≤ calculateLc (getSapcV (getLuminanceD65 blackColor))
        (getSapcV (getLuminanceD65 whiteColor)) := by
      rw [hLc]
      unfold APCA_SCALE
      nlinarith
    simp only [checkContrast]
    rw [if_neg (by rw [abs_lt]; push_neg; intro h; linarith)]
    unfold jsRound
    have hcast := Int.lt_floor_add_one
      (calculateLc (getSapcV (getLuminanceD65 blackColor))
        (getSapcV (getLuminanceD65 whiteColor)) * 100 * 100 + 1 / 2)
    linarith
  · -- white text on black background
    set A := (0.022 : ℝ) ^ DARK_CLAMP with hA
    have hA_nonneg : (0 : ℝ) ≤ A := Real.rpow_nonneg (by norm_num) _
    have hW62 : (1 : ℝ) ≤ (10000001 / 10000000 : ℝ) ^ (0.62 : ℝ) :=
      Real.one_le_rpow (by norm_num) (by norm_num)
    have hA65 : A ^ (0.65 : ℝ) ≤ 0.032 := by
      calc A ^ (0.65 : ℝ) ≤ (0.005 : ℝ) ^ (0.65 : ℝ) :=
            Real.rpow_le_rpow hA_nonneg sapcBlack_ub (by norm_num)
        _ ≤ 0.032 := by
            rw [show (0.65 : ℝ) = ((65 : ℕ) : ℝ) / ((100 : ℕ) : ℝ) by norm_num]
            exact rpow_div_le (by norm_num) (by norm_num) (by norm_num) (by norm_num)
    have hLc : calculateLc (getSapcV (getLuminanceD65 whiteColor))
        (getSapcV (getLuminanceD65 blackColor))
        = (A ^ (0.65 : ℝ) - (10000001 / 10000000 : ℝ) ^ (0.62 : ℝ)) * APCA_SCALE := by
      rw [sapc_black, sapc_white, ← hA]
      unfold calculateLc
      rw [if_neg (by push_neg; nlinarith [sapcBlack_ub])]
    have hLc_ub : calculateLc (getSapcV (getLuminanceD65 whiteColor))
        (getSapcV (getLuminanceD65 blackColor)) ≤ -1.103 := by
      rw [hLc]
      unfold APCA_SCALE
      nlinarith
    simp only [checkContrast]
    rw [if_neg (by rw [abs_lt]; push_neg; intro h; linarith)]
    unfold jsRound
    have hcast := Int.floor_le
      (calculateLc (getSapcV (getLuminanceD65 whiteColor))
        (getSapcV (getLuminanceD65 blackColor)) * 100 * 100 + 1 / 2)
    linarith
  · -- white on white snaps to zero
    set W := (10000001 / 10000000 : ℝ) with hWdef
    have hW1 : (1 : ℝ) ≤ W := by rw [hWdef]; norm_num
    have h65ub : W ^ (0.65 : ℝ) ≤ W := by
      calc W ^ (0.65 : ℝ) ≤ W ^ (1 : ℝ) :=
            Real.rpow_le_rpow_of_exponent_le hW1 (by norm_num)
        _ = W := Real.rpow_one W
    have h62ub : W ^ (0.62 : ℝ) ≤ W := by
      calc W ^ (0.62 : ℝ) ≤ W ^ (1 : ℝ) :=
            Real.rpow_le_rpow_of_exponent_le hW1 (by norm_num)
        _ = W := Real.rpow_one W
    have h65lb : (1 : ℝ) ≤ W ^ (0.65 : ℝ) := Real.one_le_rpow hW1 (by norm_num)
    have h62lb : (1 : ℝ) ≤ W ^ (0.62 : ℝ) := Real.one_le_rpow hW1 (by norm_num)
    have hLc : calculateLc (getSapcV (getLuminanceD65 whiteColor))
        (getSapcV (getLuminanceD65 whiteColor))
        = (W ^ (0.65 : ℝ) - W ^ (0.62 : ℝ)) * APCA_SCALE := by
      rw [sapc_white, ← hWdef]
      unfold calculateLc
      rw [if_neg (lt_irrefl W)]
    have hsnap : |calculateLc (getSapcV (getLuminanceD65 whiteColor))
        (getSapcV (getLuminanceD65 whiteColor))| < 0.001 := by
      rw [hLc, abs_lt]
      unfold APCA_SCALE
      constructor <;> nlinarith [hW1, h65ub, h62ub, h65lb, h62lb,
        (by rw [hWdef]; norm_num : W ≤ 1 + 1 / 10 ^ 7)]
    simp only [checkContrast]
    rw [if_pos hsnap]
    unfold jsRound
    rw [hfloor_half]
    norm_num

theorem checkContrast_spec_witness :
    |calculateLc (getSapcV (getLuminanceD65 ⟨xyz65, ⟨0, 1, 0⟩, none⟩))
        (getSapcV (getLuminanceD65 ⟨xyz65, ⟨0, 1, 0⟩, none⟩))| < 0.001 ∧
    checkContrast ⟨xyz65, ⟨0, 1, 0⟩, none⟩ ⟨xyz65, ⟨0, 1, 0⟩, none⟩ = 0 := by
  have hlum : getLuminanceD65 ⟨xyz65, ⟨0, 1, 0⟩, none⟩ = 1 := rfl
  have hs : getSapcV (1 : ℝ) = 1 := by
    unfold getSapcV
    rw [if_pos (by norm_num [DARK_THRESH])]
  have hLc : calculateLc 1 1 = 0 := by
    unfold calculateLc
    rw [if_neg (lt_irrefl (1 : ℝ)), Real.one_rpow, Real.one_rpow]
    ring
  have hsnap : |calculateLc (getSapcV (getLuminanceD65 ⟨xyz65, ⟨0, 1, 0⟩, none⟩))
      (getSapcV (getLuminanceD65 ⟨xyz65, ⟨0, 1, 0⟩, none⟩))| < 0.001 := by
    rw [hlum, hs, hLc]
    norm_num
  exact ⟨hsnap, checkContrast_spec.1 _ _ hsnap⟩

/-! ## CSS parsing (`src/parse.ts`)

  Strings are handled as `List Char`.  JavaScript numbers inside the
  parser are `JsNum` (NaN propagates through the arithmetic on malformed
  tokens exactly as in the engine). -/

def isJsWhitespace (c : Char) : Bool :=
  c = ' ' || c = '\t' || c = '\n' || c = '\r' || c = '\x0b' || c = '\x0c'

/-- `String.prototype.trim` (ASCII whitespace suffices here). -/
def jsTrim (l : List Char) : List Char :=
  ((l.dropWhile isJsWhitespace).reverse.dropWhile isJsWhitespace).reverse

def hexDigitVal (c : Char) : Option ℕ :=
  if '0' ≤ c ∧ c ≤ '9' then some (c.toNat - '0'.toNat)
  else if 'a' ≤ c ∧ c ≤ 'f' then some (c.toNat - 'a'.toNat + 10)
  else if 'A' ≤ c ∧ c ≤ 'F' then some (c.toNat - 'A'.toNat + 10)
  else none

/-- `Number.parseInt(s, 16)`: whitespace, optional sign, optional 0x
 prefix, longest hex-digit run; NaN (`none`) when no digit occurs. -/
def parseIntHex (l : List Char) : Option ℤ :=
  let l1 := l.dropWhile isJsWhitespace
  let signed : ℤ × List Char :=
    match l1 with
    | '-' :: r => (-1, r)
    | '+' :: r => (1, r)
    | _ => (1, l1)
  let l3 :=
    match signed.2 with
    | '0' :: 'x' :: r => r
    | '0' :: 'X' :: r => r
    | _ => signed.2
  let digits := l3.takeWhile fun c => (hexDigitVal c).isSome
  if digits = [] then none
  else some (signed.1 * digits.foldl (fun acc c => acc * 16 + ((hexDigitVal c).getD 0 : ℤ)) 0)

/-- `ToInt32`, applied by the bitwise operators. -/
def int32 (n : ℤ) : ℤ := (n + 2 ^ 31) % 2 ^ 32 - 2 ^ 31

/-- `(num >> k) & mask` on a possibly-NaN parse result: ToInt32 (NaN to
 0), arithmetic shift (floor division), then the low-bits mask. -/
def hexField (num : Option ℤ) (k : ℕ) (mask : ℤ) : ℤ :=
  (Int.fdiv (int32 (num.getD 0)) (2 ^ k)) % mask

/-- `fastParseHex` (`src/parse.ts`). -/
def fastParseHex (hex : List Char) : Except String (ℤ × ℤ × ℤ × ℤ) :=
  let len := hex.length
  let num := parseIntHex hex
  if len = 3 then
    .ok (hexField num 8 16 * 17, hexField num 4 16 * 17, hexField num 0 16 * 17, 255)
  else if len = 4 then
    .ok (hexField num 12 16 * 17, hexField num 8 16 * 17, hexField num 4 16 * 17,
      hexField num 0 16 * 17)
  else if len = 6 then
    .ok (hexField num 16 256, hexField num 8 256, hexField num 0 256, 255)
  else if len = 8 then
    .ok (hexField num 24 256, hexField num 16 256, hexField num 8 256, hexField num 0 256)
  else .error ("Invalid Hex length: " ++ toString len)

def isDecDigit (c : Char) : Bool := '0' ≤ c && c ≤ '9'

def digitsVal (l : List Char) : ℕ :=
  l.foldl (fun acc c => acc * 10 + (c.toNat - '0'.toNat)) 0

/-- `Number.parseFloat`: optional sign, digits with optional fraction,
 optional exponent; NaN (`none`) if no digit is consumed.  (`Infinity`
 literals are not modelled.) -/
def jsParseFloat (l : List Char) : Option ℚ :=
  let l1 := l.dropWhile isJsWhitespace
  let signed : ℚ × List Char :=
    match l1 with
    | '-' :: r => (-1, r)
    | '+' :: r => (1, r)
    | _ => (1, l1)
  let intDigits := signed.2.takeWhile isDecDigit
  let rest1 := signed.2.dropWhile isDecDigit
  let fracDigits :=
    match rest1 with
    | '.' :: r => r.takeWhile isDecDigit
    | _ => []
  let rest2 :=
    match rest1 with
    | '.' :: r => r.dropWhile isDecDigit
    | _ => rest1
  if intDigits = [] ∧ fracDigits = [] then none
  else
    let mantissa : ℚ :=
      signed.1 * ((digitsVal intDigits : ℚ)
        + (digitsVal fracDigits : ℚ) / 10 ^ fracDigits.length)
    let expPart : Option (ℤ × List Char) :=
      match rest2 with
      | 'e' :: '-' :: r => some (-1, r.takeWhile isDecDigit)
      | 'E' :: '-' :: r => some (-1, r.takeWhile isDecDigit)
      | 'e' :: '+' :: r => some (1, r.takeWhile isDecDigit)
      | 'E' :: '+' :: r => some (1, r.takeWhile isDecDigit)
      | 'e' :: r => some (1, r.takeWhile isDecDigit)
      | 'E' :: r => some (1, r.takeWhile isDecDigit)
      | _ => none
    match expPart with
    | some (sign, ds) =>
      if ds = [] then some mantissa
      else some (mantissa * (10 : ℚ) ^ (sign * (digitsVal ds : ℤ)))
    | none => some mantissa

def floatToJs (v : Option ℚ) : JsNum :=
  match v with
  | none => JsNum.nan
  | some q => JsNum.num q

def indexOfChar (l : List Char) (c : Char) : Option ℕ :=
  l.indexOf? c

def lastIndexOfChar (l : List Char) (c : Char) : Option ℕ :=
  (l.reverse.indexOf? c).map fun i => l.length - 1 - i

/-- Split on runs of `[,\s/]` and drop empty tokens
 (`content.split(/[,\s\x2f]+/).filter(Boolean)`). -/
def isSepChar (c : Char) : Bool := c = ',' || c = '/' || isJsWhitespace c

def splitAux : List Char → List Char → List (List Char)
  | [], acc => if acc = [] then [] else [acc.reverse]
  | c :: rest, acc =>
    if isSepChar c then
      (if acc = [] then splitAux rest [] else acc.reverse :: splitAux rest [])
    else splitAux rest (c :: acc)

def splitTokens (l : List Char) : List (List Char) := splitAux l []

/-- The parse result: a raw space tag (the source casts arbitrary
 strings to `ColorSpace`, so the tag is kept as text) and JS-number
 channels. -/
structure ParsedColor where
  space : List Char
  v0 : JsNum
  v1 : JsNum
  v2 : JsNum
  alpha : JsNum
deriving DecidableEq, Repr

def JsNum.jmin (a b : JsNum) : JsNum :=
  match a, b with
  | .nan, _ => .nan
  | _, .nan => .nan
  | x, y => if JsNum.ltb y x then y else x

def JsNum.jmax (a b : JsNum) : JsNum :=
  match a, b with
  | .nan, _ => .nan
  | _, .nan => .nan
  | x, y => if JsNum.ltb x y then y else x

/-- The functional-notation branch of `parseColor`, total by
 construction (a missing token behaves as NaN, as in the source where
 `parseFloat(undefined)` is NaN). -/
def parseFunctionalBody (trimmed : List Char) (op cp : ℕ) : ParsedColor :=
  let spaceName := (trimmed.take op).map Char.toLower
  let content := (trimmed.drop (op + 1)).take (cp - (op + 1))
  let parts := splitTokens content
  let isColorFn := spaceName = "color".data
  let offset := if isColorFn then 1 else 0
  let space :=
    if isColorFn then
      let profile := parts.getD 0 []
      if profile = "srgb-linear".data then "lrgb".data
      else if profile = "xyz".data ∨ profile = "xyz-d65".data then "xyz65".data
      else if profile = "xyz-d50".data then "xyz50".data
      else profile
    else
      if 3 < spaceName.length ∧ spaceName.getLast? = some 'a' then
        spaceName.dropLast
      else spaceName
  let v0 := floatToJs (jsParseFloat (parts.getD offset []))
  let v1 := floatToJs (jsParseFloat (parts.getD (offset + 1) []))
  let v2 := floatToJs (jsParseFloat (parts.getD (offset + 2) []))
  let scaled : JsNum × JsNum × JsNum :=
    if space = "rgb".data then
      (JsNum.mul v0 (.num (1 / 255)), JsNum.mul v1 (.num (1 / 255)),
       JsNum.mul v2 (.num (1 / 255)))
    else if space = "hsl".data ∨ space = "hwb".data then
      (v0, JsNum.mul v1 (.num (1 / 100)), JsNum.mul v2 (.num (1 / 100)))
    else if space = "lab".data ∨ space = "lch".data ∨ space = "oklab".data ∨
        space = "oklch".data then
      (JsNum.mul v0 (.num (1 / 100)), v1, v2)
    else (v0, v1, v2)
  let alpha :=
    match parts.get? (offset + 3) with
    | none => JsNum.num 1
    | some rawA =>
      if rawA.getLast? = some '%' then
        JsNum.mul (floatToJs (jsParseFloat rawA)) (.num (1 / 100))
      else floatToJs (jsParseFloat rawA)
  { space := space, v0 := scaled.1, v1 := scaled.2.1, v2 := scaled.2.2,
    alpha := JsNum.jmax (.num 0) (JsNum.jmin (.num 1) alpha) }

/-- The color built from a successful `fastParseHex` result. -/
def hexColorOf (v : ℤ × ℤ × ℤ × ℤ) : ParsedColor :=
  { space := "rgb".data,
    v0 := .num ((v.1 : ℚ) * (1 / 255)), v1 := .num ((v.2.1 : ℚ) * (1 / 255)),
    v2 := .num ((v.2.2.1 : ℚ) * (1 / 255)),
    alpha := .num ((v.2.2.2 : ℚ) * (1 / 255)) }

/-- `parseColor` (`src/parse.ts`). -/
def parseColor (css : String) : Except String ParsedColor :=
  let trimmed := jsTrim css.data
  match trimmed with
  | '#' :: hex =>
    match fastParseHex hex with
    | .error e => .error e
    | .ok v => .ok (hexColorOf v)
  | _ =>
    match indexOfChar trimmed '(', lastIndexOfChar trimmed ')' with
    | some op, some cp => .ok (parseFunctionalBody trimmed op cp)
    | _, _ => .error ("Invalid format: " ++ css)

theorem fastParseHex_isOk (hex : List Char) :
    (fastParseHex hex).isOk = true ↔
      (hex.length = 3 ∨ hex.length = 4 ∨ hex.length = 6 ∨ hex.length = 8) := by
  simp only [fastParseHex]
  split_ifs with h3 h4 h6 h8 <;> simp_all [Except.isOk, Except.toBool]

theorem fastParseHex_error (hex : List Char)
    (h : ¬(hex.length = 3 ∨ hex.length = 4 ∨ hex.length = 6 ∨ hex.length = 8)) :
    fastParseHex hex = .error ("Invalid Hex length: " ++ toString hex.length) := by
  push_neg at h
  unfold fastParseHex
  rw [if_neg h.1, if_neg h.2.1, if_neg h.2.2.1, if_neg h.2.2.2]

theorem indexOfChar_none_iff (l : List Char) (ch : Char) :
    indexOfChar l ch = none ↔ ch ∉ l := by
  unfold indexOfChar
  rw [List.indexOf?_eq_none_iff]
  simp only [beq_iff_eq]
  exact ⟨fun h hm => h ch hm rfl, fun h x hx he => h (he ▸ hx)⟩

theorem lastIndexOfChar_none_iff (l : List Char) (ch : Char) :
    lastIndexOfChar l ch = none ↔ ch ∉ l := by
  unfold lastIndexOfChar
  rw [Option.map_eq_none', List.indexOf?_eq_none_iff]
  simp only [beq_iff_eq, List.mem_reverse]
  exact ⟨fun h hm => h ch hm rfl, fun h x hx he => h (he ▸ hx)⟩

/-- Reduction of `parseColor` when the trimmed input does not open with
 `#`. -/
theorem parseColor_not_hash (css : String)
    (hhead : (jsTrim css.data).head? ≠ some '#') :
    parseColor css =
      (match indexOfChar (jsTrim css.data) '(',
          lastIndexOfChar (jsTrim css.data) ')' with
       | some op, some cp => Except.ok (parseFunctionalBody (jsTrim css.data) op cp)
       | _, _ => Except.error ("Invalid format: " ++ css)) := by
  rcases hg : jsTrim css.data with _ | ⟨c, rest⟩
  · simp only [parseColor, hg]
  · have hc : c ≠ '#' := fun h => hhead (by rw [hg, h]; rfl)
    simp only [parseColor, hg]
    split
    · next hex heq =>
      rw [List.cons.injEq] at heq
      exact absurd heq.1 hc
    · rfl

/-- C8 (amended): `parseColor` fails exactly on a leading-`#` input whose
 digit count is not 3, 4, 6 or 8 — reporting that digit count — or on a
 non-`#` input that lacks an opening or a closing parenthesis — reporting
 the offending input verbatim; both branches of the parser are otherwise
 total. -/
theorem parseColor_error_characterisation :
    (∀ (css : String) (hex : List Char), jsTrim css.data = '#' :: hex →
      ((parseColor css).isOk = true ↔
        (hex.length = 3 ∨ hex.length = 4 ∨ hex.length = 6 ∨ hex.length = 8))) ∧
    (∀ css : String, (jsTrim css.data).head? ≠ some '#' →
      ((parseColor css).isOk = true ↔
        ('(' ∈ jsTrim css.data ∧ ')' ∈ jsTrim css.data))) ∧
    (∀ (css : String) (hex : List Char), jsTrim css.data = '#' :: hex →
      ¬(hex.length = 3 ∨ hex.length = 4 ∨ hex.length = 6 ∨ hex.length = 8) →
      parseColor css = .error ("Invalid Hex length: " ++ toString hex.length)) ∧
    (∀ css : String, (jsTrim css.data).head? ≠ some '#' →
      ('(' ∉ jsTrim css.data ∨ ')' ∉ jsTrim css.data) →
      parseColor css = .error ("Invalid format: " ++ css)) := by
  have hhex : ∀ (css : String) (hex : List Char), jsTrim css.data = '#' :: hex →
      parseColor css =
        (match fastParseHex hex with
         | .error e => Except.error e
         | .ok v => Except.ok (hexColorOf v)) := by
    intro css hex ht
    simp only [parseColor, ht]
  refine ⟨?_, ?_, ?_, ?_⟩
  · intro css hex ht
    rw [hhex css hex ht]
    rcases hok : fastParseHex hex with e | v
    · have h2 := fastParseHex_isOk hex
      rw [hok] at h2
      simpa [Except.isOk, Except.toBool] using h2
    · have h2 := fastParseHex_isOk hex
      rw [hok] at h2
      simpa [Except.isOk, Except.toBool] using h2
  · intro css hhead
    rw [parseColor_not_hash css hhead]
    rcases h1 : indexOfChar (jsTrim css.data) '(' with _ | op <;>
      rcases h2 : lastIndexOfChar (jsTrim css.data) ')' with _ | cp
    · simp [Except.isOk, Except.toBool, (indexOfChar_none_iff _ _).mp h1]
    · simp [Except.isOk, Except.toBool, (indexOfChar_none_iff _ _).mp h1]
    · simp [Except.isOk, Except.toBool, (lastIndexOfChar_none_iff _ _).mp h2]
    · have hin1 : '(' ∈ jsTrim css.data := by
        by_contra hmem
        rw [← indexOfChar_none_iff] at hmem
        rw [hmem] at h1
        cases h1
      have hin2 : ')' ∈ jsTrim css.data := by
        by_contra hmem
        rw [← lastIndexOfChar_none_iff] at hmem
        rw [hmem] at h2
        cases h2
      simp [Except.isOk, Except.toBool, hin1, hin2]
  · intro css hex ht hlen
    rw [hhex css hex ht, fastParseHex_error hex hlen]
  · intro css hhead hmiss
    rw [parseColor_not_hash css hhead]
    rcases h1 : indexOfChar (jsTrim css.data) '(' with _ | op <;>
      rcases h2 : lastIndexOfChar (jsTrim css.data) ')' with _ | cp <;>
      first
        | rfl
        | (exfalso
           rcases hmiss with hm | hm
           · rw [← indexOfChar_none_iff] at hm
             rw [hm] at h1
             cases h1
           · rw [← lastIndexOfChar_none_iff] at hm
             rw [hm] at h2
             cases h2)

/-- C8 counterexample: the input `")("` has no balanced parentheses yet
 parses without error, and the bad-hex failure message reports only the
 digit count, not the offending input. -/
theorem parseColor_claim_counterexample :
    (parseColor ")(").isOk = true ∧
    parseColor "#12345" = .error "Invalid Hex length: 5" ∧
    ¬("#12345".data <:+: "Invalid Hex length: 5".data) := by
  refine ⟨rfl, rfl, by decide⟩

theorem parseColor_error_characterisation_witness :
    (parseColor "#abc").isOk = true ∧
    parseColor "oops" = .error "Invalid format: oops" :=
  ⟨(parseColor_error_characterisation.1 "#abc" "abc".data (by decide)).mpr
      (Or.inl (by decide)),
    parseColor_error_characterisation.2.2.2 "oops" (by decide)
      (Or.inl (by decide))⟩

/-! ## Aliasing safety of the adapters (C9)

  Buffers live in a store indexed by buffer ids; each operational adapter
  below performs the same sequence of reads and writes as its source
  counterpart, so that calling it with the same id for input and output
  is observably the in-place call of the library. -/

def Store : Type := ℕ → T3

/-- Write one slot of one buffer. -/
def wr0 (σ : Store) (b : ℕ) (x : ℝ) : Store :=
  fun b' => if b' = b then { σ b with c0 := x } else σ b'

def wr1 (σ : Store) (b : ℕ) (x : ℝ) : Store :=
  fun b' => if b' = b then { σ b with c1 := x } else σ b'

def wr2 (σ : Store) (b : ℕ) (x : ℝ) : Store :=
  fun b' => if b' = b then { σ b with c2 := x } else σ b'

/-- Write all three slots from precomputed locals (the pattern every
 adapter ends with). -/
def wr012 (σ : Store) (b : ℕ) (x y z : ℝ) : Store :=
  wr2 (wr1 (wr0 σ b x) b y) b z

/-- Operational `rgbToLrgb`: reads `input[0..2]` into locals, then
 writes the three outputs. -/
noncomputable def rgbToLrgbOp (σ : Store) (inp out : ℕ) : Store :=
  let r := (σ inp).c0
  let g := (σ inp).c1
  let b := (σ inp).c2
  wr012 σ out (gammaDecode r) (gammaDecode g) (gammaDecode b)

noncomputable def lrgbToRgbOp (σ : Store) (inp out : ℕ) : Store :=
  let r := (σ inp).c0
  let g := (σ inp).c1
  let b := (σ inp).c2
  wr012 σ out (gammaEncode r) (gammaEncode g) (gammaEncode b)

/-- Operational `multiplyMatrixVector`: reads `v0..v2`, then writes. -/
def multiplyMatrixVectorOp (m : Mat3) (σ : Store) (inp out : ℕ) : Store :=
  let v0 := (σ inp).c0
  let v1 := (σ inp).c1
  let v2 := (σ inp).c2
  wr012 σ out (m.m0 * v0 + m.m1 * v1 + m.m2 * v2)
    (m.m3 * v0 + m.m4 * v1 + m.m5 * v2) (m.m6 * v0 + m.m7 * v1 + m.m8 * v2)

def lrgbToXyz65Op : Store → ℕ → ℕ → Store := multiplyMatrixVectorOp M_SRGB

def xyz65ToLrgbOp : Store → ℕ → ℕ → Store := multiplyMatrixVectorOp M_SRGB_INV

def xyz65ToXyz50Op : Store → ℕ → ℕ → Store := multiplyMatrixVectorOp M_CAT_65_TO_50

def xyz50ToXyz65Op : Store → ℕ → ℕ → Store := multiplyMatrixVectorOp M_CAT_50_TO_65

noncomputable def rgbToHsvOp (σ : Store) (inp out : ℕ) : Store :=
  let r := (σ inp).c0
  let g := (σ inp).c1
  let b := (σ inp).c2
  let res := rgbToHsv ⟨r, g, b⟩
  wr012 σ out res.c0 res.c1 res.c2

noncomputable def hsvToRgbOp (σ : Store) (inp out : ℕ) : Store :=
  let h := (σ inp).c0
  let s := (σ inp).c1
  let v := (σ inp).c2
  let res := hsvToRgb ⟨h, s, v⟩
  wr012 σ out res.c0 res.c1 res.c2

noncomputable def hsvToHslOp (σ : Store) (inp out : ℕ) : Store :=
  let h := (σ inp).c0
  let s := (σ inp).c1
  let v := (σ inp).c2
  let res := hsvToHsl ⟨h, s, v⟩
  wr012 σ out res.c0 res.c1 res.c2

noncomputable def hslToHsvOp (σ : Store) (inp out : ℕ) : Store :=
  let h := (σ inp).c0
  let s := (σ inp).c1
  let l := (σ inp).c2
  let res := hslToHsv ⟨h, s, l⟩
  wr012 σ out res.c0 res.c1 res.c2

noncomputable def hsvToHwbOp (σ : Store) (inp out : ℕ) : Store :=
  let h := (σ inp).c0
  let s := (σ inp).c1
  let v := (σ inp).c2
  let res := hsvToHwb ⟨h, s, v⟩
  wr012 σ out res.c0 res.c1 res.c2

noncomputable def hwbToHsvOp (σ : Store) (inp out : ℕ) : Store :=
  let h := (σ inp).c0
  let w := (σ inp).c1
  let b := (σ inp).c2
  let res := hwbToHsv ⟨h, w, b⟩
  wr012 σ out res.c0 res.c1 res.c2

/-- Operational `toPolar`.  Note the faithful write order: `output[0]`
 is copied from `input[0]` *before* the chroma/hue writes, but chroma
 and hue were already computed from `input[1..2]`. -/
noncomputable def toPolarOp (σ : Store) (inp out : ℕ) : Store :=
  let a := (σ inp).c1
  let b := (σ inp).c2
  let chroma := Real.sqrt (a * a + b * b)
  let hue0 := atan2 b a * (180 / Real.pi)
  let hue := if hue0 < 0 then hue0 + 360 else hue0
  let σ1 := wr0 σ out ((σ inp).c0)
  wr2 (wr1 σ1 out chroma) out hue

noncomputable def toCartesianOp (σ : Store) (inp out : ℕ) : Store :=
  let L := (σ inp).c0
  let C := (σ inp).c1
  let hRad := (σ inp).c2 * (Real.pi / 180)
  wr012 σ out L (C * Real.cos hRad) (C * Real.sin hRad)

noncomputable def xyz50ToLabOp (σ : Store) (inp out : ℕ) : Store :=
  let x := (σ inp).c0
  let y := (σ inp).c1
  let z := (σ inp).c2
  let res := xyz50ToLab ⟨x, y, z⟩
  wr012 σ out res.c0 res.c1 res.c2

noncomputable def labToXyz50Op (σ : Store) (inp out : ℕ) : Store :=
  let l := (σ inp).c0
  let a := (σ inp).c1
  let b := (σ inp).c2
  let res := labToXyz50 ⟨l, a, b⟩
  wr012 σ out res.c0 res.c1 res.c2

noncomputable def xyz65ToOklabOp (σ : Store) (inp out : ℕ) : Store :=
  let x := (σ inp).c0
  let y := (σ inp).c1
  let z := (σ inp).c2
  let res := xyz65ToOklab ⟨x, y, z⟩
  wr012 σ out res.c0 res.c1 res.c2

noncomputable def oklabToXyz65Op (σ : Store) (inp out : ℕ) : Store :=
  let L := (σ inp).c0
  let a := (σ inp).c1
  let b := (σ inp).c2
  let res := oklabToXyz65 ⟨L, a, b⟩
  wr012 σ out res.c0 res.c1 res.c2

/-- An operational adapter is aliasing-safe for a pure function `f`:
 the aliased call leaves the shared buffer holding exactly what the
 call into a distinct output buffer would have produced there, namely
 `f` of the input value. -/
def AliasSafe (op : Store → ℕ → ℕ → Store) (f : T3 → T3) : Prop :=
  ∀ (σ : Store) (b out : ℕ), out ≠ b →
    (op σ b b) b = (op σ b out) out ∧ (op σ b b) b = f (σ b)

theorem wr012_self (σ : Store) (b : ℕ) (x y z : ℝ) :
    (wr012 σ b x y z) b = ⟨x, y, z⟩ := by
  simp [wr012, wr0, wr1, wr2]

theorem aliasSafe_of_read_first (f : T3 → T3)
    (op : Store → ℕ → ℕ → Store)
    (hop : ∀ (σ : Store) (inp out : ℕ),
      op σ inp out = wr012 σ out (f (σ inp)).c0 (f (σ inp)).c1 (f (σ inp)).c2) :
    AliasSafe op f := by
  intro σ b out _
  rw [hop, hop, wr012_self, wr012_self]
  exact ⟨rfl, rfl⟩

/-- C9: every adapter of the conversion graph — gamma encode/decode, the
 sRGB cylindrical family, polar↔Cartesian, the Lab and Oklab hub
 transforms, the sRGB matrices and the Bradford CAT — is aliasing-safe:
 run with input and output being the same buffer, it leaves that buffer
 holding exactly the value it would have written into a distinct output
 buffer, the pure adapter value. -/
theorem adapters_alias_safe :
    AliasSafe rgbToLrgbOp rgbToLrgb ∧
    AliasSafe lrgbToRgbOp lrgbToRgb ∧
    AliasSafe rgbToHsvOp rgbToHsv ∧
    AliasSafe hsvToRgbOp hsvToRgb ∧
    AliasSafe hsvToHslOp hsvToHsl ∧
    AliasSafe hslToHsvOp hslToHsv ∧
    AliasSafe hsvToHwbOp hsvToHwb ∧
    AliasSafe hwbToHsvOp hwbToHsv ∧
    AliasSafe toPolarOp toPolar ∧
    AliasSafe toCartesianOp toCartesian ∧
    AliasSafe xyz50ToLabOp xyz50ToLab ∧
    AliasSafe labToXyz50Op labToXyz50 ∧
    AliasSafe xyz65ToOklabOp xyz65ToOklab ∧
    AliasSafe oklabToXyz65Op oklabToXyz65 ∧
    AliasSafe lrgbToXyz65Op lrgbToXyz65 ∧
    AliasSafe xyz65ToLrgbOp xyz65ToLrgb ∧
    AliasSafe xyz65ToXyz50Op xyz65ToXyz50 ∧
    AliasSafe xyz50ToXyz65Op xyz50ToXyz65 := by
  refine ⟨?_, ?_, ?_, ?_, ?_, ?_, ?_, ?_, ?_, ?_, ?_, ?_, ?_, ?_, ?_, ?_, ?_, ?_⟩
  · exact aliasSafe_of_read_first _ _ fun σ inp out => rfl
  · exact aliasSafe_of_read_first _ _ fun σ inp out => rfl
  · exact aliasSafe_of_read_first _ _ fun σ inp out => rfl
  · exact aliasSafe_of_read_first _ _ fun σ inp out => rfl
  · exact aliasSafe_of_read_first _ _ fun σ inp out => rfl
  · exact aliasSafe_of_read_first _ _ fun σ inp out => rfl
  · exact aliasSafe_of_read_first _ _ fun σ inp out => rfl
  · exact aliasSafe_of_read_first _ _ fun σ inp out => rfl
  · -- toPolar writes slot 0 before slots 1 and 2, but chroma and hue were
    -- already computed from slots 1 and 2 before any write, so the write
    -- chain is still the wr012 of the pure adapter's components.
    exact aliasSafe_of_read_first _ _ fun σ inp out => rfl
  · exact aliasSafe_of_read_first _ _ fun σ inp out => rfl
  · exact aliasSafe_of_read_first _ _ fun σ inp out => rfl
  · exact aliasSafe_of_read_first _ _ fun σ inp out => rfl
  · exact aliasSafe_of_read_first _ _ fun σ inp out => rfl
  · exact aliasSafe_of_read_first _ _ fun σ inp out => rfl
  · exact aliasSafe_of_read_first _ _ fun σ inp out => rfl
  · exact aliasSafe_of_read_first _ _ fun σ inp out => rfl
  · exact aliasSafe_of_read_first _ _ fun σ inp out => rfl
  · exact aliasSafe_of_read_first _ _ fun σ inp out => rfl

/-! ## Roundtrip tolerance across the primary spaces (C2)

  Certified interval arithmetic over the shallow embedding: each
  roundtrip `A → B → A` on the spread's sample for `A` is reduced by the
  exact cancellation lemmas below (gamma, Lab, polar, HSV cylinder) and
  bounded by rational certificates. -/

/-- `x` lies in the closed interval `[l, u]`. -/
def In (x l u : ℝ) : Prop := l ≤ x ∧ x ≤ u

theorem In.exact (x : ℝ) : In x x x := ⟨le_rfl, le_rfl⟩

theorem In.weaken {x l u l' u' : ℝ} (h : In x l u) (h1 : l' ≤ l) (h2 : u ≤ u') :
    In x l' u' := ⟨h1.trans h.1, h.2.trans h2⟩

theorem In.min2 {x y xl xu yl yu : ℝ} (hx : In x xl xu) (hy : In y yl yu) :
    In (min x y) (min xl yl) (min xu yu) :=
  ⟨min_le_min hx.1 hy.1, min_le_min hx.2 hy.2⟩

theorem In.mul_pos {x y xl xu yl yu : ℝ} (hx : In x xl xu) (hy : In y yl yu)
    (h1 : 0 ≤ xl) (h2 : 0 ≤ yl) : In (x * y) (xl * yl) (xu * yu) := by
  constructor
  · nlinarith [hx.1, hx.2, hy.1, hy.2]
  · nlinarith [hx.1, hx.2, hy.1, hy.2]

theorem cbrt_in {x l u : ℝ} (hl : 0 ≤ l) (hu : 0 ≤ u)
    (h1 : l ^ 3 ≤ x) (h2 : x ≤ u ^ 3) : In (cbrt x) l u := by
  have hx : 0 ≤ x := le_trans (by positivity) h1
  unfold cbrt
  rw [if_neg (not_lt.mpr hx)]
  have h3 : ((1 : ℝ) / 3) = ((1 : ℕ) : ℝ) / ((3 : ℕ) : ℝ) := by norm_num
  rw [h3]
  exact ⟨le_rpow_div (by norm_num) hx hl (by simpa using h1),
    rpow_div_le (by norm_num) hx hu (by simpa using h2)⟩

theorem sqrt_in {x l u : ℝ} (hl : 0 ≤ l) (hu : 0 ≤ u)
    (h1 : l ^ 2 ≤ x) (h2 : x ≤ u ^ 2) : In (Real.sqrt x) l u := by
  constructor
  · calc l = Real.sqrt (l ^ 2) := by rw [Real.sqrt_sq hl]
      _ ≤ Real.sqrt x := Real.sqrt_le_sqrt h1
  · calc Real.sqrt x ≤ Real.sqrt (u ^ 2) := Real.sqrt_le_sqrt h2
      _ = u := Real.sqrt_sq hu

theorem decode_in {r l u : ℝ} (hr : 0.04045 < r) (hl : 0 ≤ l) (hu : 0 ≤ u)
    (h1 : l ^ 5 ≤ ((r + 0.055) * (1 / 1.055)) ^ 12)
    (h2 : ((r + 0.055) * (1 / 1.055)) ^ 12 ≤ u ^ 5) :
    In (gammaDecode r) l u := by
  have hbase : (0 : ℝ) ≤ (r + 0.055) * (1 / 1.055) := by
    apply mul_nonneg (by linarith) (by norm_num)
  unfold gammaDecode
  rw [if_neg (not_le.mpr hr)]
  have h24 : (2.4 : ℝ) = ((12 : ℕ) : ℝ) / ((5 : ℕ) : ℝ) := by norm_num
  rw [h24]
  exact ⟨le_rpow_div (by norm_num) hbase hl h1,
    rpow_div_le (by norm_num) hbase hu h2⟩

theorem encode_in {x l u a b : ℝ} (hx : In x l u) (hl : 0.0031308 < l)
    (ha : 0 ≤ a) (hb : 0 ≤ b) (h1 : a ^ 12 ≤ l ^ 5) (h2 : u ^ 5 ≤ b ^ 12) :
    In (gammaEncode x) (1.055 * a - 0.055) (1.055 * b - 0.055) := by
  have hx0 : (0 : ℝ) < x := by have := hx.1; linarith
  unfold gammaEncode
  rw [if_neg (not_lt.mpr hx0.le), if_neg (not_le.mpr (by have := hx.1; linarith))]
  have h12 : ((1 : ℝ) / 2.4) = ((5 : ℕ) : ℝ) / ((12 : ℕ) : ℝ) := by norm_num
  rw [h12]
  have hlb : a ≤ x ^ (((5 : ℕ) : ℝ) / ((12 : ℕ) : ℝ)) :=
    le_rpow_div (by norm_num) hx0.le ha
      (h1.trans (pow_le_pow_left (by linarith) hx.1 5))
  have hub : x ^ (((5 : ℕ) : ℝ) / ((12 : ℕ) : ℝ)) ≤ b :=
    rpow_div_le (by norm_num) hx0.le hb
      ((pow_le_pow_left hx0.le hx.2 5).trans h2)
  exact ⟨by linarith, by linarith⟩

theorem decode_encode_pow {x : ℝ} (h1 : 0.0031308 < x)
    (h2 : (0.1 : ℝ) ^ 12 ≤ x ^ 5) : gammaDecode (gammaEncode x) = x := by
  have hx0 : (0 : ℝ) < x := lt_trans (by norm_num) h1
  have henc : gammaEncode x = 1.055 * x ^ ((1 : ℝ) / 2.4) - 0.055 := by
    unfold gammaEncode
    rw [if_neg (not_lt.mpr hx0.le), if_neg (not_le.mpr h1)]
  have h12 : ((1 : ℝ) / 2.4) = ((5 : ℕ) : ℝ) / ((12 : ℕ) : ℝ) := by norm_num
  have hroot : (0.1 : ℝ) ≤ x ^ ((1 : ℝ) / 2.4) := by
    rw [h12]; exact le_rpow_div (by norm_num) hx0.le (by norm_num) h2
  rw [henc]
  unfold gammaDecode
  rw [if_neg (by push_neg; nlinarith)]
  have hinner : (1.055 * x ^ ((1 : ℝ) / 2.4) - 0.055 + 0.055) * (1 / 1.055)
      = x ^ ((1 : ℝ) / 2.4) := by ring_nf
  rw [hinner, ← Real.rpow_mul hx0.le,
    show (1 : ℝ) / 2.4 * 2.4 = 1 by norm_num, Real.rpow_one]

theorem decode_encode_lin {x : ℝ} (h0 : 0 ≤ x) (h1 : x ≤ 0.0031308) :
    gammaDecode (gammaEncode x) = x := by
  have henc : gammaEncode x = x * 12.92 := by
    unfold gammaEncode
    rw [if_neg (not_lt.mpr h0), if_pos h1]
  rw [henc]
  unfold gammaDecode
  rw [if_pos (by nlinarith)]
  ring_nf

theorem cbrt_cube {x : ℝ} (h : 0 ≤ x) : cbrt x * cbrt x * cbrt x = x := by
  unfold cbrt
  rw [if_neg (not_lt.mpr h)]
  have : x ^ ((1 : ℝ) / 3) * x ^ ((1 : ℝ) / 3) * x ^ ((1 : ℝ) / 3)
      = x ^ ((1 : ℝ) / 3 + 1 / 3 + 1 / 3) := by
    rw [Real.rpow_add' h (by norm_num), Real.rpow_add' h (by norm_num)]
  rw [this, show (1 : ℝ) / 3 + 1 / 3 + 1 / 3 = 1 by norm_num, Real.rpow_one]

theorem lab_roundtrip (x y z : ℝ) (hx : EPSILON < x * (1 / WHITE_D50_X))
    (hy : EPSILON < y) (hz : EPSILON < z * (1 / WHITE_D50_Z))
    (hL : KAPPA * EPSILON < 116 * cbrt y - 16) :
    labToXyz50 (xyz50ToLab ⟨x, y, z⟩) = ⟨x, y, z⟩ := by
  have heps : (0 : ℝ) < EPSILON := by rw [EPSILON]; norm_num
  have hx0 : 0 ≤ x * (1 / WHITE_D50_X) := le_of_lt (heps.trans hx)
  have hy0 : 0 ≤ y := le_of_lt (heps.trans hy)
  have hz0 : 0 ≤ z * (1 / WHITE_D50_Z) := le_of_lt (heps.trans hz)
  show labToXyz50 ⟨116 * (if EPSILON < y then cbrt y else (KAPPA * y + 16) / 116) - 16, _, _⟩ = _
  rw [if_pos hx, if_pos hy, if_pos hz]
  unfold labToXyz50
  have e1 : 116 * cbrt y - 16 + 16 = 116 * cbrt y := by ring
  have efy : (116 * cbrt y - 16 + 16) / 116 = cbrt y := by rw [e1]; ring_nf
  have efx : 500 * (cbrt (x * (1 / WHITE_D50_X)) - cbrt y) / 500 + cbrt y
      = cbrt (x * (1 / WHITE_D50_X)) := by ring
  have efz : cbrt y - 200 * (cbrt y - cbrt (z * (1 / WHITE_D50_Z))) / 200
      = cbrt (z * (1 / WHITE_D50_Z)) := by ring
  simp only [efy, efx, efz, cbrt_cube hx0, cbrt_cube hy0, cbrt_cube hz0]
  rw [if_pos hx, if_pos hL, if_pos hz]
  have hwx : WHITE_D50_X ≠ 0 := by rw [WHITE_D50_X]; norm_num
  have hwz : WHITE_D50_Z ≠ 0 := by rw [WHITE_D50_Z]; norm_num
  simp only [T3.mk.injEq]
  refine ⟨?_, by ring, ?_⟩
  · field_simp
  · field_simp

theorem arctan_le_self0 {x : ℝ} (h : 0 ≤ x) : Real.arctan x ≤ x := by
  rcases eq_or_lt_of_le h with h0 | h0
  · rw [← h0, Real.arctan_zero]
  · have h1 : Real.arctan 0 < Real.arctan x := Real.arctan_strictMono h0
    rw [Real.arctan_zero] at h1
    have h2 : Real.arctan x < Real.pi / 2 := Real.arctan_lt_pi_div_two x
    have h3 := Real.lt_tan h1 h2
    rw [Real.tan_arctan] at h3
    exact h3.le

theorem arctan_nonneg0 {x : ℝ} (h : 0 ≤ x) : 0 ≤ Real.arctan x := by
  rcases eq_or_lt_of_le h with h0 | h0
  · rw [← h0, Real.arctan_zero]
  · have h1 : Real.arctan 0 < Real.arctan x := Real.arctan_strictMono h0
    rw [Real.arctan_zero] at h1
    exact h1.le

theorem toCartesian_eval (L C H : ℝ) :
    toCartesian ⟨L, C, H⟩ = ⟨L, C * Real.cos (H * (Real.pi / 180)),
      C * Real.sin (H * (Real.pi / 180))⟩ := rfl

theorem toPolar_eval (L a b : ℝ) :
    toPolar ⟨L, a, b⟩ = ⟨L, Real.sqrt (a * a + b * b),
      if atan2 b a * (180 / Real.pi) < 0 then atan2 b a * (180 / Real.pi) + 360
      else atan2 b a * (180 / Real.pi)⟩ := rfl

theorem atan2_cos_sin {a b : ℝ} (h : a ≠ 0 ∨ 0 < b) :
    Real.sqrt (a * a + b * b) * Real.cos (atan2 b a) = a ∧
    Real.sqrt (a * a + b * b) * Real.sin (atan2 b a) = b := by
  rcases lt_trichotomy a 0 with ha | ha | ha
  · have hane : a ≠ 0 := ne_of_lt ha
    have hpos : (0 : ℝ) < a * a + b * b := by nlinarith
    have hr : 0 < Real.sqrt (a * a + b * b) := Real.sqrt_pos.mpr hpos
    have hrne : Real.sqrt (a * a + b * b) ≠ 0 := ne_of_gt hr
    have hsq : Real.sqrt (a * a) = -a := by
      rw [show a * a = -a * -a by ring, Real.sqrt_mul_self (by linarith)]
    have h1 : 1 + (b / a) ^ 2 = (a * a + b * b) / (a * a) := by
      field_simp
      ring
    have hcos : Real.cos (Real.arctan (b / a))
        = -a / Real.sqrt (a * a + b * b) := by
      rw [Real.cos_arctan, h1, Real.sqrt_div hpos.le, hsq, one_div_div]
    have hsin : Real.sin (Real.arctan (b / a))
        = -b / Real.sqrt (a * a + b * b) := by
      rw [Real.sin_arctan, h1, Real.sqrt_div hpos.le, hsq]
      rw [div_div_eq_mul_div, div_mul_eq_mul_div, div_div]
      field_simp
      ring
    have hform : atan2 b a = Real.arctan (b / a) + Real.pi ∨
        atan2 b a = Real.arctan (b / a) - Real.pi := by
      unfold atan2
      rw [if_neg (by linarith), if_pos ha]
      rcases le_or_lt 0 b with hb | hb
      · exact Or.inl (by rw [if_pos hb])
      · exact Or.inr (by rw [if_neg (not_le.mpr hb)])
    rcases hform with hf | hf <;> rw [hf]
    · rw [Real.cos_add_pi, Real.sin_add_pi, hcos, hsin]
      constructor
      · field_simp
      · field_simp
    · rw [Real.cos_sub_pi, Real.sin_sub_pi, hcos, hsin]
      constructor
      · field_simp
      · field_simp
  · have hb : 0 < b := by
      rcases h with h' | h'
      · exact absurd ha h'
      · exact h'
    subst ha
    have hat : atan2 b 0 = Real.pi / 2 := by
      unfold atan2
      rw [if_neg (by norm_num), if_neg (by norm_num), if_pos hb]
    rw [hat, Real.cos_pi_div_two, Real.sin_pi_div_two,
      show (0 : ℝ) * 0 + b * b = b * b by ring, Real.sqrt_mul_self hb.le]
    exact ⟨by ring, by ring⟩
  · have hane : a ≠ 0 := ne_of_gt ha
    have hpos : (0 : ℝ) < a * a + b * b := by nlinarith
    have hr : 0 < Real.sqrt (a * a + b * b) := Real.sqrt_pos.mpr hpos
    have hrne : Real.sqrt (a * a + b * b) ≠ 0 := ne_of_gt hr
    have hsq : Real.sqrt (a * a) = a := Real.sqrt_mul_self ha.le
    have h1 : 1 + (b / a) ^ 2 = (a * a + b * b) / (a * a) := by
      field_simp
      ring
    have hcos : Real.cos (Real.arctan (b / a))
        = a / Real.sqrt (a * a + b * b) := by
      rw [Real.cos_arctan, h1, Real.sqrt_div hpos.le, hsq, one_div_div]
    have hsin : Real.sin (Real.arctan (b / a))
        = b / Real.sqrt (a * a + b * b) := by
      rw [Real.sin_arctan, h1, Real.sqrt_div hpos.le, hsq]
      rw [div_div_eq_mul_div, div_mul_eq_mul_div, div_div]
      field_simp
      ring
    have hat : atan2 b a = Real.arctan (b / a) := by
      unfold atan2
      rw [if_pos ha]
    rw [hat, hcos, hsin]
    constructor
    · field_simp
    · field_simp

theorem polar_roundtrip (L a b : ℝ) (h : a ≠ 0 ∨ 0 < b) :
    toCartesian (toPolar ⟨L, a, b⟩) = ⟨L, a, b⟩ := by
  obtain ⟨hc, hs⟩ := atan2_cos_sin h
  have hπ : Real.pi ≠ 0 := Real.pi_ne_zero
  show toCartesian ⟨L, Real.sqrt (a * a + b * b),
      if atan2 b a * (180 / Real.pi) < 0 then atan2 b a * (180 / Real.pi) + 360
      else atan2 b a * (180 / Real.pi)⟩ = ⟨L, a, b⟩
  rcases lt_or_le (atan2 b a * (180 / Real.pi)) 0 with hw | hw
  · rw [if_pos hw, toCartesian_eval]
    have hang : (atan2 b a * (180 / Real.pi) + 360) * (Real.pi / 180)
        = atan2 b a + 2 * Real.pi := by
      field_simp
      ring
    rw [hang, Real.cos_add_two_pi, Real.sin_add_two_pi]
    simp only [T3.mk.injEq]
    exact ⟨trivial, hc, hs⟩
  · rw [if_neg (not_lt.mpr hw), toCartesian_eval]
    have hang : atan2 b a * (180 / Real.pi) * (Real.pi / 180) = atan2 b a := by
      field_simp
    rw [hang]
    simp only [T3.mk.injEq]
    exact ⟨trivial, hc, hs⟩

/-- Hue written back by `toPolar` for a vector that is nearly straight up
 (`a` small against `b`) is within `58 * (m / b)` degrees of 90. -/
theorem hue_wrap_near_90 {a b m : ℝ} (hb : 0 < b) (ha : |a| ≤ m) (hmb : m ≤ b) :
    |(if atan2 b a * (180 / Real.pi) < 0 then atan2 b a * (180 / Real.pi) + 360
      else atan2 b a * (180 / Real.pi)) - 90| ≤ 58 * (m / b) := by
  have hm0 : 0 ≤ m := (abs_nonneg a).trans ha
  have hmb0 : 0 ≤ m / b := div_nonneg hm0 hb.le
  have hπ : (0 : ℝ) < Real.pi := Real.pi_pos
  have hπ58 : 180 / Real.pi ≤ 58 := by
    rw [div_le_iff₀ hπ]
    nlinarith [Real.pi_gt_3141592]
  have hmb1 : m / b ≤ 1 := (div_le_one hb).mpr hmb
  rcases lt_trichotomy a 0 with ha' | ha' | ha'
  · -- a < 0 : hue = 90 + arctan(-a/b)·(180/π) ∈ (90, 180)
    have hna : (0 : ℝ) < -a := by linarith
    have hdiv : 0 < b / -a := div_pos hb hna
    have hinv : Real.arctan (-a / b) = Real.pi / 2 - Real.arctan (b / -a) := by
      rw [show -a / b = (b / -a)⁻¹ by rw [inv_div]]
      exact Real.arctan_inv_of_pos hdiv
    have hba : Real.arctan (b / a) = -Real.arctan (b / -a) := by
      rw [show b / a = -(b / -a) by field_simp, Real.arctan_neg]
    have hat : atan2 b a = Real.arctan (b / a) + Real.pi := by
      unfold atan2
      rw [if_neg (by linarith), if_pos ha', if_pos hb.le]
    have ht0 : 0 ≤ Real.arctan (-a / b) :=
      arctan_nonneg0 (div_nonneg hna.le hb.le)
    have hta : Real.arctan (-a / b) ≤ m / b := by
      refine (arctan_le_self0 (div_nonneg hna.le hb.le)).trans ?_
      have h' : -a ≤ m := (neg_le_abs a).trans ha
      gcongr
    have htb : Real.arctan (-a / b) * (180 / Real.pi) ≤ 58 * (m / b) := by
      calc Real.arctan (-a / b) * (180 / Real.pi) ≤ (m / b) * 58 :=
            mul_le_mul hta hπ58 (by positivity) hmb0
        _ = 58 * (m / b) := by ring
    have ht180 : 0 ≤ Real.arctan (-a / b) * (180 / Real.pi) := by positivity
    have hhue : atan2 b a * (180 / Real.pi)
        = 90 + Real.arctan (-a / b) * (180 / Real.pi) := by
      rw [hat, hba, show -Real.arctan (b / -a)
        = Real.arctan (-a / b) - Real.pi / 2 by rw [hinv]; ring]
      field_simp
      ring
    rw [hhue, if_neg (by push_neg; linarith)]
    rw [show 90 + Real.arctan (-a / b) * (180 / Real.pi) - 90
      = Real.arctan (-a / b) * (180 / Real.pi) by ring]
    rw [abs_of_nonneg ht180]
    exact htb
  · -- a = 0 : hue is exactly 90
    subst ha'
    have hat : atan2 b 0 = Real.pi / 2 := by
      unfold atan2
      rw [if_neg (by norm_num), if_neg (by norm_num), if_pos hb]
    have h90 : Real.pi / 2 * (180 / Real.pi) = 90 := by
      field_simp
      ring
    rw [hat, h90, if_neg (by norm_num)]
    rw [show (90 : ℝ) - 90 = 0 by ring, abs_zero]
    positivity
  · -- 0 < a : hue = 90 - arctan(a/b)·(180/π) ∈ (0, 90]
    have hdiv : 0 < b / a := div_pos hb ha'
    have hinv : Real.arctan (a / b) = Real.pi / 2 - Real.arctan (b / a) := by
      rw [show a / b = (b / a)⁻¹ by rw [inv_div]]
      exact Real.arctan_inv_of_pos hdiv
    have hat : atan2 b a = Real.arctan (b / a) := by
      unfold atan2
      rw [if_pos ha']
    have ht0 : 0 ≤ Real.arctan (a / b) :=
      arctan_nonneg0 (div_nonneg ha'.le hb.le)
    have hta : Real.arctan (a / b) ≤ m / b := by
      refine (arctan_le_self0 (div_nonneg ha'.le hb.le)).trans ?_
      have h' : a ≤ m := (le_abs_self a).trans ha
      gcongr
    have htb : Real.arctan (a / b) * (180 / Real.pi) ≤ 58 * (m / b) := by
      calc Real.arctan (a / b) * (180 / Real.pi) ≤ (m / b) * 58 :=
            mul_le_mul hta hπ58 (by positivity) hmb0
        _ = 58 * (m / b) := by ring
    have ht180 : 0 ≤ Real.arctan (a / b) * (180 / Real.pi) := by positivity
    have hhue : atan2 b a * (180 / Real.pi)
        = 90 - Real.arctan (a / b) * (180 / Real.pi) := by
      rw [hat, show Real.arctan (b / a)
        = Real.pi / 2 - Real.arctan (a / b) by rw [hinv]; ring]
      field_simp
      ring
    have hub : Real.arctan (a / b) * (180 / Real.pi) ≤ 58 := by
      calc Real.arctan (a / b) * (180 / Real.pi) ≤ 58 * (m / b) := htb
        _ ≤ 58 * 1 := by linarith
        _ = 58 := by ring
    rw [hhue, if_neg (by push_neg; linarith)]
    rw [show 90 - Real.arctan (a / b) * (180 / Real.pi) - 90
      = -(Real.arctan (a / b) * (180 / Real.pi)) by ring]
    rw [abs_neg, abs_of_nonneg ht180]
    exact htb

theorem jsTrunc_nonneg {x : ℝ} (h : 0 ≤ x) : jsTrunc x = ⌊x⌋ := by
  unfold jsTrunc
  rw [if_neg (not_lt.mpr h)]

theorem floor_eq_nat {x : ℝ} (k : ℕ) (h1 : (k : ℝ) ≤ x) (h2 : x < (k : ℝ) + 1) :
    ⌊x⌋ = (k : ℤ) :=
  Int.floor_eq_iff.mpr ⟨by push_cast; linarith, by push_cast; linarith⟩

theorem jsFmod_two {x : ℝ} (k : ℕ) (h0 : 0 ≤ x) (h1 : 2 * (k : ℝ) ≤ x)
    (h2 : x < 2 * (k : ℝ) + 2) : jsFmod x 2 = x - 2 * (k : ℝ) := by
  unfold jsFmod
  rw [jsTrunc_nonneg (by linarith), floor_eq_nat k (by linarith) (by linarith)]
  push_cast
  ring

theorem decode_encode_T3 {x y z : ℝ} (hx : gammaDecode (gammaEncode x) = x)
    (hy : gammaDecode (gammaEncode y) = y)
    (hz : gammaDecode (gammaEncode z) = z) :
    rgbToLrgb (lrgbToRgb ⟨x, y, z⟩) = ⟨x, y, z⟩ := by
  show (⟨gammaDecode (gammaEncode x), gammaDecode (gammaEncode y),
    gammaDecode (gammaEncode z)⟩ : T3) = _
  rw [hx, hy, hz]

theorem hsl_mid (h s v : ℝ) (hv : v ≠ 0) (h0 : 0 < v * (1 - s * 0.5))
    (h1 : v * (1 - s * 0.5) < 1) :
    hslToHsv (hsvToHsl ⟨h, s, v⟩) = ⟨h, s, v⟩ := by
  have hmin : 0 < min (v * (1 - s * 0.5)) (1 - v * (1 - s * 0.5)) :=
    lt_min h0 (by linarith)
  simp only [hsvToHsl, hslToHsv]
  rw [if_pos (And.intro h0 h1), div_mul_cancel₀ _ (ne_of_gt hmin)]
  rw [show v * (1 - s * 0.5) + (v - v * (1 - s * 0.5)) = v from by ring]
  rw [if_neg hv]
  rw [show 2 * (1 - v * (1 - s * 0.5) / v) = s from by field_simp; ring]

theorem hwb_mid (h s v : ℝ) (hv : v ≠ 0) (hs : 0 ≤ s) :
    hwbToHsv (hsvToHwb ⟨h, s, v⟩) = ⟨h, s, v⟩ := by
  simp only [hsvToHwb, hwbToHsv]
  rw [show 1 - (1 - v) = v from by ring, if_neg hv]
  rw [show (v - v * (1 - s)) / v = s from by field_simp; ring]
  rw [if_neg (not_lt.mpr hs)]

theorem rgbToHsv_gmax {r g b : ℝ} (h1 : r < g) (h2 : b < g) (h3 : 0 ≤ r)
    (h4 : 0 ≤ b) :
    rgbToHsv ⟨r, g, b⟩
      = ⟨((b - r) / (g - min r b) + 2) * 60, (g - min r b) / g, g⟩ := by
  have hg : 0 < g := lt_of_le_of_lt h3 h1
  have hminr : min r b ≤ r := min_le_left r b
  have hminb : min r b ≤ b := min_le_right r b
  have hc : 0 < g - min r b := by linarith
  simp only [rgbToHsv]
  rw [max_eq_left h2.le, max_eq_right h1.le, min_eq_right h2.le]
  rw [if_pos hg.ne', if_pos (sub_ne_zero.mpr (ne_of_gt (by linarith : min r b < g)))]
  rw [if_neg h1.ne', if_pos rfl]
  have hdiv : -1 < (b - r) / (g - min r b) := by
    rw [lt_div_iff₀ hc]
    linarith
  rw [if_neg (not_lt.mpr (by nlinarith : (0:ℝ) ≤ ((b - r) / (g - min r b) + 2) * 60))]

theorem rgbToHsv_bmax {r g b : ℝ} (h1 : r < b) (h2 : g < b) (h3 : 0 ≤ r)
    (h4 : 0 ≤ g) :
    rgbToHsv ⟨r, g, b⟩
      = ⟨((r - g) / (b - min r g) + 4) * 60, (b - min r g) / b, b⟩ := by
  have hb : 0 < b := lt_of_le_of_lt h3 h1
  have hminr : min r g ≤ r := min_le_left r g
  have hming : min r g ≤ g := min_le_right r g
  have hc : 0 < b - min r g := by linarith
  simp only [rgbToHsv]
  rw [max_eq_right h2.le, max_eq_right h1.le]
  rw [show min r (min g b) = min r g by rw [min_eq_left h2.le]]
  rw [if_pos hb.ne', if_pos (sub_ne_zero.mpr (ne_of_gt (by linarith : min r g < b)))]
  rw [if_neg h1.ne', if_neg h2.ne']
  have hdiv : -1 < (r - g) / (b - min r g) := by
    rw [lt_div_iff₀ hc]
    linarith
  rw [if_neg (not_lt.mpr (by nlinarith : (0:ℝ) ≤ ((r - g) / (b - min r g) + 4) * 60))]

theorem hsv_rgb_gmax {r g b : ℝ} (h1 : r < g) (h2 : b < g) (h3 : 0 ≤ r)
    (h4 : 0 ≤ b) : hsvToRgb (rgbToHsv ⟨r, g, b⟩) = ⟨r, g, b⟩ := by
  have hg : 0 < g := lt_of_le_of_lt h3 h1
  have hminr : min r b ≤ r := min_le_left r b
  have hminb : min r b ≤ b := min_le_right r b
  have hc : 0 < g - min r b := by linarith
  rw [rgbToHsv_gmax h1 h2 h3 h4]
  simp only [hsvToRgb]
  rw [if_neg (ne_of_gt (div_pos hc hg))]
  rw [show g * ((g - min r b) / g) = g - min r b from by field_simp]
  rw [show ((b - r) / (g - min r b) + 2) * 60 * (1 / 60)
    = (b - r) / (g - min r b) + 2 from by ring]
  rcases le_or_lt r b with hrb | hrb
  · rw [min_eq_left hrb]
    have hgr : (0 : ℝ) < g - r := by linarith
    have ht0 : 0 ≤ (b - r) / (g - r) := div_nonneg (by linarith) hgr.le
    have ht1 : (b - r) / (g - r) < 1 := by
      rw [div_lt_one hgr]
      linarith
    rw [floor_eq_nat 2 (by push_cast; linarith) (by push_cast; linarith)]
    rw [show Int.tmod ((2 : ℕ) : ℤ) 6 = 2 from by decide]
    rw [if_neg (by decide : ¬(2 : ℤ) = 0), if_neg (by decide : ¬(2 : ℤ) = 1),
      if_pos rfl]
    rw [jsFmod_two 1 (by linarith) (by push_cast; linarith)
      (by push_cast; linarith)]
    rw [show (b - r) / (g - r) + 2 - 2 * ((1 : ℕ) : ℝ) - 1
      = (b - r) / (g - r) - 1 from by push_cast; ring]
    rw [abs_of_nonpos (by linarith : (b - r) / (g - r) - 1 ≤ 0)]
    have hgr' : g - r ≠ 0 := ne_of_gt hgr
    simp only [T3.mk.injEq]
    refine ⟨by ring, by ring, ?_⟩
    field_simp
  · rw [min_eq_right hrb.le]
    have hgb : (0 : ℝ) < g - b := by linarith
    have htneg : (b - r) / (g - b) < 0 :=
      div_neg_of_neg_of_pos (by linarith) hgb
    have htm1 : -1 < (b - r) / (g - b) := by
      rw [lt_div_iff₀ hgb]
      linarith
    rw [floor_eq_nat 1 (by push_cast; linarith) (by push_cast; linarith)]
    rw [show Int.tmod ((1 : ℕ) : ℤ) 6 = 1 from by decide]
    rw [if_neg (by decide : ¬(1 : ℤ) = 0), if_pos rfl]
    rw [jsFmod_two 0 (by linarith) (by push_cast; linarith)
      (by push_cast; linarith)]
    rw [show (b - r) / (g - b) + 2 - 2 * ((0 : ℕ) : ℝ) - 1
      = (b - r) / (g - b) + 1 from by push_cast; ring]
    rw [abs_of_nonneg (by linarith : (0:ℝ) ≤ (b - r) / (g - b) + 1)]
    have hgb' : g - b ≠ 0 := ne_of_gt hgb
    simp only [T3.mk.injEq]
    refine ⟨?_, by ring, by ring⟩
    field_simp

theorem hsv_rgb_bmax {r g b : ℝ} (h1 : r < b) (h2 : g < b) (h3 : 0 ≤ r)
    (h4 : 0 ≤ g) : hsvToRgb (rgbToHsv ⟨r, g, b⟩) = ⟨r, g, b⟩ := by
  have hb : 0 < b := lt_of_le_of_lt h3 h1
  have hminr : min r g ≤ r := min_le_left r g
  have hming : min r g ≤ g := min_le_right r g
  have hc : 0 < b - min r g := by linarith
  rw [rgbToHsv_bmax h1 h2 h3 h4]
  simp only [hsvToRgb]
  rw [if_neg (ne_of_gt (div_pos hc hb))]
  rw [show b * ((b - min r g) / b) = b - min r g from by field_simp]
  rw [show ((r - g) / (b - min r g) + 4) * 60 * (1 / 60)
    = (r - g) / (b - min r g) + 4 from by ring]
  rcases le_or_lt g r with hgr | hgr
  · rw [min_eq_right hgr]
    have hbg : (0 : ℝ) < b - g := by linarith
    have ht0 : 0 ≤ (r - g) / (b - g) := div_nonneg (by linarith) hbg.le
    have ht1 : (r - g) / (b - g) < 1 := by
      rw [div_lt_one hbg]
      linarith
    rw [floor_eq_nat 4 (by push_cast; linarith) (by push_cast; linarith)]
    rw [show Int.tmod ((4 : ℕ) : ℤ) 6 = 4 from by decide]
    rw [if_neg (by decide : ¬(4 : ℤ) = 0), if_neg (by decide : ¬(4 : ℤ) = 1),
      if_neg (by decide : ¬(4 : ℤ) = 2), if_neg (by decide : ¬(4 : ℤ) = 3),
      if_pos rfl]
    rw [jsFmod_two 2 (by linarith) (by push_cast; linarith)
      (by push_cast; linarith)]
    rw [show (r - g) / (b - g) + 4 - 2 * ((2 : ℕ) : ℝ) - 1
      = (r - g) / (b - g) - 1 from by push_cast; ring]
    rw [abs_of_nonpos (by linarith : (r - g) / (b - g) - 1 ≤ 0)]
    have hbg' : b - g ≠ 0 := ne_of_gt hbg
    simp only [T3.mk.injEq]
    refine ⟨?_, by ring, by ring⟩
    field_simp
  · rw [min_eq_left hgr.le]
    have hbr : (0 : ℝ) < b - r := by linarith
    have htneg : (r - g) / (b - r) < 0 :=
      div_neg_of_neg_of_pos (by linarith) hbr
    have htm1 : -1 < (r - g) / (b - r) := by
      rw [lt_div_iff₀ hbr]
      linarith
    rw [floor_eq_nat 3 (by push_cast; linarith) (by push_cast; linarith)]
    rw [show Int.tmod ((3 : ℕ) : ℤ) 6 = 3 from by decide]
    rw [if_neg (by decide : ¬(3 : ℤ) = 0), if_neg (by decide : ¬(3 : ℤ) = 1),
      if_neg (by decide : ¬(3 : ℤ) = 2), if_pos rfl]
    rw [jsFmod_two 1 (by linarith) (by push_cast; linarith)
      (by push_cast; linarith)]
    rw [show (r - g) / (b - r) + 4 - 2 * ((1 : ℕ) : ℝ) - 1
      = (r - g) / (b - r) + 1 from by push_cast; ring]
    rw [abs_of_nonneg (by linarith : (0:ℝ) ≤ (r - g) / (b - r) + 1)]
    have hbr' : b - r ≠ 0 := ne_of_gt hbr
    simp only [T3.mk.injEq]
    refine ⟨by ring, ?_, by ring⟩
    field_simp

/-- The spread's sample color for each primary space. -/
noncomputable def sample : ColorSpace → T3
  | rgb => ⟨0.8, 0.4, 0.2⟩
  | hsl => ⟨120, 0.5, 0.4⟩
  | hwb => ⟨240, 0.2, 0.3⟩
  | lab => ⟨50, 10, 20⟩
  | lch => ⟨50, 30, 90⟩
  | oklab => ⟨0.5, 0.05, 0.1⟩
  | oklch => ⟨0.5, 0.1, 90⟩
  | _ => ⟨0, 0, 0⟩

/-- Shortest-arc hue agreement within 0.1 degrees. -/
def hueClose (x y : ℝ) : Prop :=
  min |x - y| (min |x - y - 360| |x - y + 360|) ≤ 0.1

/-- The claim's tolerance: hue channels (index 0 for hsl/hwb, 2 for
 lch/oklch) within 0.1 degrees along the shortest arc, every other
 channel within 0.01. -/
def tolOk (s : ColorSpace) (x y : T3) : Prop :=
  match s with
  | hsl | hwb =>
      hueClose x.c0 y.c0 ∧ |y.c1 - x.c1| ≤ 0.01 ∧ |y.c2 - x.c2| ≤ 0.01
  | lch | oklch =>
      |y.c0 - x.c0| ≤ 0.01 ∧ |y.c1 - x.c1| ≤ 0.01 ∧ hueClose x.c2 y.c2
  | _ => |y.c0 - x.c0| ≤ 0.01 ∧ |y.c1 - x.c1| ≤ 0.01 ∧ |y.c2 - x.c2| ≤ 0.01

/-- The 7 primary spaces of the roundtrip claim. -/
def primaries : List ColorSpace := [rgb, hsl, hwb, lab, lch, oklab, oklch]

theorem hueClose_of_abs {x y : ℝ} (h : |x - y| ≤ 0.1) : hueClose x y :=
  le_trans (min_le_left _ _) h

theorem tolOk_refl (s : ColorSpace) (x : T3) : tolOk s x x := by
  have ha : ∀ u : ℝ, |u - u| ≤ (0.01 : ℝ) := by
    intro u
    rw [sub_self, abs_zero]
    norm_num
  have hcl : ∀ u : ℝ, hueClose u u := by
    intro u
    exact hueClose_of_abs (by rw [sub_self, abs_zero]; norm_num)
  cases s <;> first
    | exact ⟨hcl _, ha _, ha _⟩
    | exact ⟨ha _, ha _, hcl _⟩
    | exact ⟨ha _, ha _, ha _⟩

theorem mmv_eval (m : Mat3) (x y z : ℝ) :
    multiplyMatrixVector m ⟨x, y, z⟩
      = ⟨m.m0 * x + m.m1 * y + m.m2 * z, m.m3 * x + m.m4 * y + m.m5 * z,
         m.m6 * x + m.m7 * y + m.m8 * z⟩ := rfl

theorem lrgbToRgb_eval (x y z : ℝ) :
    lrgbToRgb ⟨x, y, z⟩ = ⟨gammaEncode x, gammaEncode y, gammaEncode z⟩ := rfl

theorem rgbToLrgb_eval (x y z : ℝ) :
    rgbToLrgb ⟨x, y, z⟩ = ⟨gammaDecode x, gammaDecode y, gammaDecode z⟩ := rfl

theorem outer_rgb (z0 z1 z2 : ℝ)
    (h0 : In z0 0.302536307583 0.302537267934)
    (h1 : In z1 0.225828124311 0.225828916659)
    (h2 : In z2 0.0589707738383 0.0589711201169) :
    tolOk ColorSpace.rgb (sample ColorSpace.rgb)
      (lrgbToRgb (xyz65ToLrgb ⟨z0, z1, z2⟩)) := by
  obtain ⟨h0a, h0b⟩ := h0
  obtain ⟨h1a, h1b⟩ := h1
  obtain ⟨h2a, h2b⟩ := h2
  have e1 : xyz65ToLrgb ⟨z0, z1, z2⟩
      = ⟨3.2404542 * z0 + -1.5371385 * z1 + -0.4985314 * z2,
         -0.969266 * z0 + 1.876 * z1 + 0.041556 * z2,
         0.0556434 * z0 + -0.2040259 * z1 + 1.0572252 * z2⟩ := by
    show multiplyMatrixVector M_SRGB_INV ⟨z0, z1, z2⟩ = _
    rw [mmv_eval]
    simp only [M_SRGB_INV]
  rw [e1, lrgbToRgb_eval]
  have hw0 : In (3.2404542 * z0 + -1.5371385 * z1 + -0.4985314 * z2)
      0.60382577127 0.60383027384 := ⟨by linarith, by linarith⟩
  have hw1 : In (-0.969266 * z0 + 1.876 * z1 + 0.041556 * z2)
      0.13286506314 0.13286749482 := ⟨by linarith, by linarith⟩
  have hw2 : In (0.0556434 * z0 + -0.2040259 * z1 + 1.0572252 * z2)
      0.033104588975 0.033105170167 := ⟨by linarith, by linarith⟩
  have he0 := encode_in hw0 (by norm_num) (by norm_num) (by norm_num)
    (by norm_num : (0.81042566364 : ℝ) ^ 12 ≤ 0.60382577127 ^ 5)
    (by norm_num : (0.60383027384 : ℝ) ^ 5 ≤ 0.81042818162 ^ 12)
  have he1 := encode_in hw1 (by norm_num) (by norm_num) (by norm_num)
    (by norm_num : (0.43127521392 : ℝ) ^ 12 ≤ 0.13286506314 ^ 5)
    (by norm_num : (0.13286749482 : ℝ) ^ 5 ≤ 0.43127850273 ^ 12)
  have he2 := encode_in hw2 (by norm_num) (by norm_num) (by norm_num)
    (by norm_num : (0.24170562085 : ℝ) ^ 12 ≤ 0.033104588975 ^ 5)
    (by norm_num : (0.033105170167 : ℝ) ^ 5 ≤ 0.24170738895 ^ 12)
  simp only [tolOk, sample]
  refine ⟨?_, ?_, ?_⟩
  · exact abs_le.mpr ⟨by linarith [he0.1, he0.2], by linarith [he0.1, he0.2]⟩
  · exact abs_le.mpr ⟨by linarith [he1.1, he1.2], by linarith [he1.1, he1.2]⟩
  · exact abs_le.mpr ⟨by linarith [he2.1, he2.2], by linarith [he2.1, he2.2]⟩

theorem hsvToHsl_eval (H S V : ℝ) :
    hsvToHsl ⟨H, S, V⟩
      = ⟨H, if 0 < V * (1 - S * 0.5) ∧ V * (1 - S * 0.5) < 1 then
          (V - V * (1 - S * 0.5)) /
            min (V * (1 - S * 0.5)) (1 - V * (1 - S * 0.5)) else 0,
        V * (1 - S * 0.5)⟩ := rfl

theorem hsvToHwb_eval (H S V : ℝ) :
    hsvToHwb ⟨H, S, V⟩ = ⟨H, V * (1 - S), 1 - V⟩ := rfl

theorem xyz65ToOklab_eval (x y z : ℝ) :
    xyz65ToOklab ⟨x, y, z⟩
      = ⟨0.2104542553 * cbrt (0.8189330101 * x + 0.3618667424 * y - 0.1288597137 * z)
          + 0.7936177046 * cbrt (0.0329845436 * x + 0.9293118715 * y + 0.0361456387 * z)
          - 0.0040704681 * cbrt (0.0482003018 * x + 0.2643662691 * y + 0.633851707 * z),
         1.9779984951 * cbrt (0.8189330101 * x + 0.3618667424 * y - 0.1288597137 * z)
          - 2.4285921822 * cbrt (0.0329845436 * x + 0.9293118715 * y + 0.0361456387 * z)
          + 0.4505936871 * cbrt (0.0482003018 * x + 0.2643662691 * y + 0.633851707 * z),
         0.0259040371 * cbrt (0.8189330101 * x + 0.3618667424 * y - 0.1288597137 * z)
          + 0.7827717662 * cbrt (0.0329845436 * x + 0.9293118715 * y + 0.0361456387 * z)
          - 0.808675766 * cbrt (0.0482003018 * x + 0.2643662691 * y + 0.633851707 * z)⟩ := rfl

theorem xyz50ToLab_pos (x y z : ℝ) (hx : EPSILON < x * (1 / WHITE_D50_X))
    (hy : EPSILON < y) (hz : EPSILON < z * (1 / WHITE_D50_Z)) :
    xyz50ToLab ⟨x, y, z⟩
      = ⟨116 * cbrt y - 16, 500 * (cbrt (x * (1 / WHITE_D50_X)) - cbrt y),
         200 * (cbrt y - cbrt (z * (1 / WHITE_D50_Z)))⟩ := by
  simp only [xyz50ToLab]
  rw [if_pos hx, if_pos hy, if_pos hz]

theorem hueClose_near_90 {a b m : ℝ} (hb : 0 < b) (ha : |a| ≤ m) (hmb : m ≤ b)
    (hsmall : 58 * (m / b) ≤ 0.1) :
    hueClose 90 (if atan2 b a * (180 / Real.pi) < 0 then
      atan2 b a * (180 / Real.pi) + 360 else atan2 b a * (180 / Real.pi)) := by
  apply hueClose_of_abs
  rw [abs_sub_comm]
  exact (hue_wrap_near_90 hb ha hmb).trans hsmall

theorem outer_hsl_core (R G B : ℝ)
    (hR : In R 0.19998563798 0.20001557514)
    (hG : In G 0.59999436582 0.59999995975)
    (hB : In B 0.19999815827 0.20000255841) :
    tolOk ColorSpace.hsl (sample ColorSpace.hsl)
      (hsvToHsl (rgbToHsv ⟨R, G, B⟩)) := by
  rw [rgbToHsv_gmax (by linarith [hR.2, hG.1])
    (by linarith [hB.2, hG.1]) (by linarith [hR.1]) (by linarith [hB.1])]
  have hmn : In (min R B) 0.19998563798 0.20000255841 :=
    ⟨le_min (by linarith [hR.1]) (by linarith [hB.1]),
      (min_le_right _ _).trans (by linarith [hB.2])⟩
  have hcp : (0:ℝ) < G - min R B := by linarith [hG.1, hmn.2]
  have hvp : (0:ℝ) < G := by linarith [hG.1]
  have hcc : In (G - min R B) 0.39999180741 0.40001432177 :=
    ⟨by linarith [hG.1, hmn.2], by linarith [hG.2, hmn.1]⟩
  have hss : In ((G - min R B) / G) 0.66665305707 0.66669679677 :=
    ⟨by rw [le_div_iff₀ hvp]; linarith [hcc.1, hG.2],
      by rw [div_le_iff₀ hvp]; linarith [hcc.2, hG.1]⟩
  have hdv : In ((B - R) / (G - min R B)) (-0.000043543066827) 0.000042301941407 :=
    ⟨by rw [le_div_iff₀ hcp]; linarith [hB.1, hR.2, hcc.2, hcc.1],
      by rw [div_le_iff₀ hcp]; linarith [hB.2, hR.1, hcc.1, hcc.2]⟩
  rw [hsvToHsl_eval]
  have hone : In (1 - ((G - min R B) / G) * 0.5) 0.66665160161 0.66667347147 :=
    ⟨by linarith [hss.2], by linarith [hss.1]⟩
  have hll : In (G * (1 - ((G - min R B) / G) * 0.5)) 0.39998720493 0.40000405605 :=
    In.weaken (In.mul_pos hG hone (by norm_num) (by norm_num))
      (by norm_num) (by norm_num)
  rw [if_pos (And.intro (by linarith [hll.1]) (by linarith [hll.2]))]
  have hnum : In (G - G * (1 - ((G - min R B) / G) * 0.5)) 0.19999030977 0.20001275482 :=
    ⟨by linarith [hG.1, hll.2], by linarith [hG.2, hll.1]⟩
  have hden : In (min (G * (1 - ((G - min R B) / G) * 0.5)) (1 - G * (1 - ((G - min R B) / G) * 0.5))) 0.39998720493 0.40000405605 :=
    ⟨le_min (by linarith [hll.1]) (by linarith [hll.2]),
      (min_le_left _ _).trans (by linarith [hll.2])⟩
  have hdp : (0:ℝ) < min (G * (1 - ((G - min R B) / G) * 0.5)) (1 - G * (1 - ((G - min R B) / G) * 0.5)) := by linarith [hden.1]
  have hsL : In ((G - G * (1 - ((G - min R B) / G) * 0.5)) / (min (G * (1 - ((G - min R B) / G) * 0.5)) (1 - G * (1 - ((G - min R B) / G) * 0.5)))) 0.49997070465 0.50004788242 :=
    ⟨by rw [le_div_iff₀ hdp]; linarith [hnum.1, hden.2, hden.1],
      by rw [div_le_iff₀ hdp]; linarith [hnum.2, hden.1, hden.2]⟩
  simp only [tolOk, sample]
  refine ⟨hueClose_of_abs (abs_le.mpr ⟨by linarith [hdv.1, hdv.2],
      by linarith [hdv.1, hdv.2]⟩), ?_, ?_⟩
  · exact abs_le.mpr ⟨by linarith [hsL.1, hsL.2], by linarith [hsL.1, hsL.2]⟩
  · exact abs_le.mpr ⟨by linarith [hll.1, hll.2], by linarith [hll.1, hll.2]⟩

theorem outer_hsl (z0 z1 z2 : ℝ)
    (h0 : In z0 0.133531405072 0.133532898574)
    (h1 : In z1 0.237237405915 0.237240099145)
    (h2 : In z2 0.0700675467263 0.070068245134) :
    tolOk ColorSpace.hsl (sample ColorSpace.hsl)
      (hsvToHsl (rgbToHsv (lrgbToRgb (xyz65ToLrgb ⟨z0, z1, z2⟩)))) := by
  obtain ⟨h0a, h0b⟩ := h0
  obtain ⟨h1a, h1b⟩ := h1
  obtain ⟨h2a, h2b⟩ := h2
  have e1 : xyz65ToLrgb ⟨z0, z1, z2⟩
      = ⟨3.2404542 * z0 + -1.5371385 * z1 + -0.4985314 * z2,
         -0.969266 * z0 + 1.876 * z1 + 0.041556 * z2,
         0.0556434 * z0 + -0.2040259 * z1 + 1.0572252 * z2⟩ := by
    show multiplyMatrixVector M_SRGB_INV ⟨z0, z1, z2⟩ = _
    rw [mmv_eval]
    simp only [M_SRGB_INV]
  rw [e1]
  have hw0 : In (3.2404542 * z0 + -1.5371385 * z1 + -0.4985314 * z2)
      0.033100291915 0.033109619587 := ⟨by linarith, by linarith⟩
  have hw1 : In (-0.969266 * z0 + 1.876 * z1 + 0.041556 * z2)
      0.31854020199 0.31854673113 := ⟨by linarith, by linarith⟩
  have hw2 : In (0.0556434 * z0 + -0.2040259 * z1 + 1.0572252 * z2)
      0.033104192742 0.033105563709 := ⟨by linarith, by linarith⟩
  rw [lrgbToRgb_eval]
  have he0 := encode_in hw0 (by norm_num) (by norm_num) (by norm_num)
    (by norm_num : (0.24169254785 : ℝ) ^ 12 ≤ 0.033100291915 ^ 5)
    (by norm_num : (0.033109619587 : ℝ) ^ 5 ≤ 0.2417209243 ^ 12)
  have hE0 : In (gammaEncode (3.2404542 * z0 + -1.5371385 * z1 + -0.4985314 * z2)) 0.19998563798 0.20001557514 :=
    In.weaken he0 (by norm_num) (by norm_num)
  have he1 := encode_in hw1 (by norm_num) (by norm_num) (by norm_num)
    (by norm_num : (0.62084774012 : ℝ) ^ 12 ≤ 0.31854020199 ^ 5)
    (by norm_num : (0.31854673113 : ℝ) ^ 5 ≤ 0.62085304241 ^ 12)
  have hE1 : In (gammaEncode (-0.969266 * z0 + 1.876 * z1 + 0.041556 * z2)) 0.59999436582 0.59999995975 :=
    In.weaken he1 (by norm_num) (by norm_num)
  have he2 := encode_in hw2 (by norm_num) (by norm_num) (by norm_num)
    (by norm_num : (0.24170441543 : ℝ) ^ 12 ≤ 0.033104192742 ^ 5)
    (by norm_num : (0.033105563709 : ℝ) ^ 5 ≤ 0.24170858617 ^ 12)
  have hE2 : In (gammaEncode (0.0556434 * z0 + -0.2040259 * z1 + 1.0572252 * z2)) 0.19999815827 0.20000255841 :=
    In.weaken he2 (by norm_num) (by norm_num)
  exact outer_hsl_core _ _ _ hE0 hE1 hE2

theorem outer_hwb_core (R G B : ℝ)
    (hR : In R 0.19999203809 0.2000089628)
    (hG : In G 0.19999293012 0.20000189585)
    (hB : In B 0.69999985852 0.70000147615) :
    tolOk ColorSpace.hwb (sample ColorSpace.hwb)
      (hsvToHwb (rgbToHsv ⟨R, G, B⟩)) := by
  rw [rgbToHsv_bmax (by linarith [hR.2, hB.1])
    (by linarith [hG.2, hB.1]) (by linarith [hR.1]) (by linarith [hG.1])]
  have hmn : In (min R G) 0.19999203809 0.20000189585 :=
    ⟨le_min (by linarith [hR.1]) (by linarith [hG.1]),
      (min_le_right _ _).trans (by linarith [hG.2])⟩
  have hcp : (0:ℝ) < B - min R G := by linarith [hB.1, hmn.2]
  have hvp : (0:ℝ) < B := by linarith [hB.1]
  have hcc : In (B - min R G) 0.49999796267 0.50000943806 :=
    ⟨by linarith [hB.1, hmn.2], by linarith [hB.2, hmn.1]⟩
  have hss : In ((B - min R G) / B) 0.71428129754 0.7142993416 :=
    ⟨by rw [le_div_iff₀ hvp]; linarith [hcc.1, hB.2],
      by rw [div_le_iff₀ hvp]; linarith [hcc.2, hB.1]⟩
  have hdv : In ((R - G) / (B - min R G)) (-0.000019715600335) 0.000032065490656 :=
    ⟨by rw [le_div_iff₀ hcp]; linarith [hR.1, hG.2, hcc.2, hcc.1],
      by rw [div_le_iff₀ hcp]; linarith [hR.2, hG.1, hcc.1, hcc.2]⟩
  rw [hsvToHwb_eval]
  have hone : In (1 - ((B - min R G) / B)) 0.2857006584 0.28571870246 :=
    ⟨by linarith [hss.2], by linarith [hss.1]⟩
  have hww : In (B * (1 - ((B - min R G) / B))) 0.19999042045 0.20000351349 :=
    In.weaken (In.mul_pos hB hone (by norm_num) (by norm_num))
      (by norm_num) (by norm_num)
  simp only [tolOk, sample]
  refine ⟨hueClose_of_abs (abs_le.mpr ⟨by linarith [hdv.1, hdv.2],
      by linarith [hdv.1, hdv.2]⟩), ?_, ?_⟩
  · exact abs_le.mpr ⟨by linarith [hww.1, hww.2], by linarith [hww.1, hww.2]⟩
  · exact abs_le.mpr ⟨by linarith [hB.1, hB.2], by linarith [hB.1, hB.2]⟩

theorem outer_hwb (z0 z1 z2 : ℝ)
    (h0 : In z0 0.106325412045 0.106326263705)
    (h1 : In z1 0.0630485032465 0.0630495092939)
    (h2 : In z2 0.43031100322 0.430312943142) :
    tolOk ColorSpace.hwb (sample ColorSpace.hwb)
      (hsvToHwb (rgbToHsv (lrgbToRgb (xyz65ToLrgb ⟨z0, z1, z2⟩)))) := by
  obtain ⟨h0a, h0b⟩ := h0
  obtain ⟨h1a, h1b⟩ := h1
  obtain ⟨h2a, h2b⟩ := h2
  have e1 : xyz65ToLrgb ⟨z0, z1, z2⟩
      = ⟨3.2404542 * z0 + -1.5371385 * z1 + -0.4985314 * z2,
         -0.969266 * z0 + 1.876 * z1 + 0.041556 * z2,
         0.0556434 * z0 + -0.2040259 * z1 + 1.0572252 * z2⟩ := by
    show multiplyMatrixVector M_SRGB_INV ⟨z0, z1, z2⟩ = _
    rw [mmv_eval]
    simp only [M_SRGB_INV]
  rw [e1]
  have hw0 : In (3.2404542 * z0 + -1.5371385 * z1 + -0.4985314 * z2)
      0.033102285903 0.033107559215 := ⟨by linarith, by linarith⟩
  have hw1 : In (-0.969266 * z0 + 1.876 * z1 + 0.041556 * z2)
      0.033102563823 0.03310535727 := ⟨by linarith, by linarith⟩
  have hw2 : In (0.0556434 * z0 + -0.2040259 * z1 + 1.0572252 * z2)
      0.44798821099 0.44799051458 := ⟨by linarith, by linarith⟩
  rw [lrgbToRgb_eval]
  have he0 := encode_in hw0 (by norm_num) (by norm_num) (by norm_num)
    (by norm_num : (0.24169861431 : ℝ) ^ 12 ≤ 0.033102285903 ^ 5)
    (by norm_num : (0.033107559215 : ℝ) ^ 5 ≤ 0.24171465668 ^ 12)
  have hE0 : In (gammaEncode (3.2404542 * z0 + -1.5371385 * z1 + -0.4985314 * z2)) 0.19999203809 0.2000089628 :=
    In.weaken he0 (by norm_num) (by norm_num)
  have he1 := encode_in hw1 (by norm_num) (by norm_num) (by norm_num)
    (by norm_num : (0.24169945983 : ℝ) ^ 12 ≤ 0.033102563823 ^ 5)
    (by norm_num : (0.03310535727 : ℝ) ^ 5 ≤ 0.24170795815 ^ 12)
  have hE1 : In (gammaEncode (-0.969266 * z0 + 1.876 * z1 + 0.041556 * z2)) 0.19999293012 0.20000189585 :=
    In.weaken he1 (by norm_num) (by norm_num)
  have he2 := encode_in hw2 (by norm_num) (by norm_num) (by norm_num)
    (by norm_num : (0.71563967633 : ℝ) ^ 12 ≤ 0.44798821099 ^ 5)
    (by norm_num : (0.44799051458 : ℝ) ^ 5 ≤ 0.71564120962 ^ 12)
  have hE2 : In (gammaEncode (0.0556434 * z0 + -0.2040259 * z1 + 1.0572252 * z2)) 0.69999985852 0.70000147615 :=
    In.weaken he2 (by norm_num) (by norm_num)
  exact outer_hwb_core _ _ _ hE0 hE1 hE2

theorem outer_lab_core (cx cy cz : ℝ)
    (hcx : In cx 0.58896473512 0.58896627044)
    (hcy : In cy 0.56896407193 0.56896629572)
    (hcz : In cz 0.46896514794 0.4689662358) :
    tolOk ColorSpace.lab (sample ColorSpace.lab)
      ⟨116 * cy - 16, 500 * (cx - cy), 200 * (cy - cz)⟩ := by
  simp only [tolOk, sample]
  refine ⟨?_, ?_, ?_⟩
  · exact abs_le.mpr ⟨by linarith [hcy.1, hcy.2], by linarith [hcy.1, hcy.2]⟩
  · exact abs_le.mpr ⟨by linarith [hcx.1, hcx.2, hcy.1, hcy.2], by linarith [hcx.1, hcx.2, hcy.1, hcy.2]⟩
  · exact abs_le.mpr ⟨by linarith [hcy.1, hcy.2, hcz.1, hcz.2], by linarith [hcy.1, hcy.2, hcz.1, hcz.2]⟩

theorem outer_lab (z0 z1 z2 : ℝ)
    (h0 : In z0 0.196989923096 0.196991463634)
    (h1 : In z1 0.184185114884 0.184187274536)
    (h2 : In z2 0.085111096888 0.085111689176) :
    tolOk ColorSpace.lab (sample ColorSpace.lab)
      (xyz50ToLab ⟨z0, z1, z2⟩) := by
  obtain ⟨h0a, h0b⟩ := h0
  obtain ⟨h1a, h1b⟩ := h1
  obtain ⟨h2a, h2b⟩ := h2
  have hxr : In (z0 * (1 / WHITE_D50_X)) 0.20429976882 0.20430136653 := by
    unfold WHITE_D50_X
    exact ⟨by linarith, by linarith⟩
  have hzr : In (z2 * (1 / WHITE_D50_Z)) 0.10313871243 0.10313943018 := by
    unfold WHITE_D50_Z
    exact ⟨by linarith, by linarith⟩
  have heps : xyz50ToLab ⟨z0, z1, z2⟩
      = ⟨116 * cbrt z1 - 16,
         500 * (cbrt (z0 * (1 / WHITE_D50_X)) - cbrt z1),
         200 * (cbrt z1 - cbrt (z2 * (1 / WHITE_D50_Z)))⟩ :=
    xyz50ToLab_pos z0 z1 z2 (by unfold EPSILON; linarith [hxr.1])
      (by unfold EPSILON; linarith) (by unfold EPSILON; linarith [hzr.1])
  have hcbx : In (cbrt (z0 * (1 / WHITE_D50_X))) 0.58896473512 0.58896627044 :=
    cbrt_in (by norm_num) (by norm_num) (by linarith [hxr.1])
      (by linarith [hxr.2])
  have hcby : In (cbrt z1) 0.56896407193 0.56896629572 :=
    cbrt_in (by norm_num) (by norm_num) (by linarith) (by linarith)
  have hcbz : In (cbrt (z2 * (1 / WHITE_D50_Z))) 0.46896514794 0.4689662358 :=
    cbrt_in (by norm_num) (by norm_num) (by linarith [hzr.1])
      (by linarith [hzr.2])
  rw [heps]
  exact outer_lab_core _ _ _ hcbx hcby hcbz

theorem outer_lch_core (cx cy cz : ℝ)
    (hcx : In cx 0.56896468445 0.56896622489)
    (hcy : In cy 0.56896406822 0.56896624649)
    (hcz : In cz 0.41896505735 0.4189662021) :
    tolOk ColorSpace.lch (sample ColorSpace.lch)
      (toPolar ⟨116 * cy - 16, 500 * (cx - cy), 200 * (cy - cz)⟩) := by
  rw [toPolar_eval]
  have haa : In (500 * (cx - cy)) (-0.00078102) 0.001078335 :=
    ⟨by linarith [hcx.1, hcy.2], by linarith [hcx.2, hcy.1]⟩
  have hbb : In (200 * (cy - cz)) 29.999573224 30.000237828 :=
    ⟨by linarith [hcy.1, hcz.2], by linarith [hcy.2, hcz.1]⟩
  have haa2 : (500 * (cx - cy)) * (500 * (cx - cy)) ≤ 0.00107834 * 0.00107834 := by
    nlinarith [haa.1, haa.2]
  have hbb2l : (29.999573224 : ℝ) * 29.999573224 ≤ (200 * (cy - cz)) * (200 * (cy - cz)) := by
    nlinarith [hbb.1]
  have hbb2u : (200 * (cy - cz)) * (200 * (cy - cz)) ≤ 30.000237828 * 30.000237828 := by
    nlinarith [hbb.1, hbb.2]
  have hsq : In (Real.sqrt ((500 * (cx - cy)) * (500 * (cx - cy)) + (200 * (cy - cz)) * (200 * (cy - cz))))
      29.999573224 30.000237848 :=
    sqrt_in (by norm_num) (by norm_num)
      (by nlinarith [hbb2l, mul_self_nonneg (500 * (cx - cy))])
      (by nlinarith [hbb2u, haa2])
  simp only [tolOk, sample]
  refine ⟨?_, ?_, ?_⟩
  · exact abs_le.mpr ⟨by linarith [hcy.1, hcy.2], by linarith [hcy.1, hcy.2]⟩
  · exact abs_le.mpr ⟨by linarith [hsq.1, hsq.2], by linarith [hsq.1, hsq.2]⟩
  · refine hueClose_near_90 (a := 500 * (cx - cy)) (b := 200 * (cy - cz))
      (m := 0.00107834) (by linarith [hbb.1])
      (abs_le.mpr ⟨by linarith [haa.1], by linarith [haa.2]⟩)
      (by linarith [hbb.1]) ?_
    have hq : 0.00107834 / (200 * (cy - cz)) ≤ 0.00107834 / 29.999573224 := by
      gcongr
      exact hbb.1
    linarith [hq]

theorem outer_lch (z0 z1 z2 : ℝ)
    (h0 : In z0 0.177595545047 0.177596987527)
    (h1 : In z1 0.184185111285 0.184187226727)
    (h2 : In z2 0.0606873106395 0.0606878080872) :
    tolOk ColorSpace.lch (sample ColorSpace.lch)
      (labToLch (xyz50ToLab ⟨z0, z1, z2⟩)) := by
  obtain ⟨h0a, h0b⟩ := h0
  obtain ⟨h1a, h1b⟩ := h1
  obtain ⟨h2a, h2b⟩ := h2
  have hxr : In (z0 * (1 / WHITE_D50_X)) 0.18418570974 0.18418720575 := by
    unfold WHITE_D50_X
    exact ⟨by linarith, by linarith⟩
  have hzr : In (z2 * (1 / WHITE_D50_Z)) 0.073541656838 0.073542259652 := by
    unfold WHITE_D50_Z
    exact ⟨by linarith, by linarith⟩
  have heps : xyz50ToLab ⟨z0, z1, z2⟩
      = ⟨116 * cbrt z1 - 16,
         500 * (cbrt (z0 * (1 / WHITE_D50_X)) - cbrt z1),
         200 * (cbrt z1 - cbrt (z2 * (1 / WHITE_D50_Z)))⟩ :=
    xyz50ToLab_pos z0 z1 z2 (by unfold EPSILON; linarith [hxr.1])
      (by unfold EPSILON; linarith) (by unfold EPSILON; linarith [hzr.1])
  have hcbx : In (cbrt (z0 * (1 / WHITE_D50_X))) 0.56896468445 0.56896622489 :=
    cbrt_in (by norm_num) (by norm_num) (by linarith [hxr.1])
      (by linarith [hxr.2])
  have hcby : In (cbrt z1) 0.56896406822 0.56896624649 :=
    cbrt_in (by norm_num) (by norm_num) (by linarith) (by linarith)
  have hcbz : In (cbrt (z2 * (1 / WHITE_D50_Z))) 0.41896505735 0.4189662021 :=
    cbrt_in (by norm_num) (by norm_num) (by linarith [hzr.1])
      (by linarith [hzr.2])
  show tolOk ColorSpace.lch (sample ColorSpace.lch)
    (toPolar (xyz50ToLab ⟨z0, z1, z2⟩))
  rw [heps]
  exact outer_lch_core _ _ _ hcbx hcby hcbz

theorem outer_oklab_core (c0 c1 c2 : ℝ)
    (hc0 : In c0 0.54139644678 0.5413972942)
    (hc1 : In c1 0.48833529688 0.48833653409)
    (hc2 : In c2 0.36637632864 0.36637725209) :
    tolOk ColorSpace.oklab (sample ColorSpace.oklab)
      ⟨0.2104542553 * c0 + 0.7936177046 * c1 - 0.0040704681 * c2, 1.9779984951 * c0 - 2.4285921822 * c1 + 0.4505936871 * c2, 0.0259040371 * c0 + 0.7827717662 * c1 - 0.808675766 * c2⟩ := by
  simp only [tolOk, sample]
  refine ⟨?_, ?_, ?_⟩
  · exact abs_le.mpr ⟨by linarith [hc0.1, hc0.2, hc1.1, hc1.2, hc2.1, hc2.2], by linarith [hc0.1, hc0.2, hc1.1, hc1.2, hc2.1, hc2.2]⟩
  · exact abs_le.mpr ⟨by linarith [hc0.1, hc0.2, hc1.1, hc1.2, hc2.1, hc2.2], by linarith [hc0.1, hc0.2, hc1.1, hc1.2, hc2.1, hc2.2]⟩
  · exact abs_le.mpr ⟨by linarith [hc0.1, hc0.2, hc1.1, hc1.2, hc2.1, hc2.2], by linarith [hc0.1, hc0.2, hc1.1, hc1.2, hc2.1, hc2.2]⟩

theorem outer_oklab (z0 z1 z2 : ℝ)
    (h0 : In z0 0.143587295726 0.143587769342)
    (h1 : In z1 0.119562115621 0.119563044892)
    (h2 : In z2 0.0168022653534 0.0168024284282) :
    tolOk ColorSpace.oklab (sample ColorSpace.oklab)
      (xyz65ToOklab ⟨z0, z1, z2⟩) := by
  obtain ⟨h0a, h0b⟩ := h0
  obtain ⟨h1a, h1b⟩ := h1
  obtain ⟨h2a, h2b⟩ := h2
  have hm0 : In (0.8189330101 * z0 + 0.3618667424 * z1 - 0.1288597137 * z2)
      0.15868877347 0.15868951863 := ⟨by linarith, by linarith⟩
  have hcb0 : In (cbrt (0.8189330101 * z0 + 0.3618667424 * z1 - 0.1288597137 * z2)) 0.54139644678 0.5413972942 :=
    cbrt_in (by norm_num) (by norm_num) (by linarith [hm0.1])
      (by linarith [hm0.2])
  have hm1 : In (0.0329845436 * z0 + 0.9293118715 * z1 + 0.0361456387 * z2)
      0.11645398345 0.11645486856 := ⟨by linarith, by linarith⟩
  have hcb1 : In (cbrt (0.0329845436 * z0 + 0.9293118715 * z1 + 0.0361456387 * z2)) 0.48833529688 0.48833653409 :=
    cbrt_in (by norm_num) (by norm_num) (by linarith [hm1.1])
      (by linarith [hm1.2])
  have hm2 : In (0.0482003018 * z0 + 0.2643662691 * z1 + 0.633851707 * z2)
      0.049179285996 0.049179657859 := ⟨by linarith, by linarith⟩
  have hcb2 : In (cbrt (0.0482003018 * z0 + 0.2643662691 * z1 + 0.633851707 * z2)) 0.36637632864 0.36637725209 :=
    cbrt_in (by norm_num) (by norm_num) (by linarith [hm2.1])
      (by linarith [hm2.2])
  rw [xyz65ToOklab_eval]
  exact outer_oklab_core _ _ _ hcb0 hcb1 hcb2

set_option maxHeartbeats 1600000 in
theorem outer_oklch_core (c0 c1 c2 : ℝ)
    (hc0 : In c0 0.5215794612 0.52158040988)
    (hc1 : In c1 0.49361333724 0.49361460013)
    (hc2 : In c2 0.370850521 0.37085145937) :
    tolOk ColorSpace.oklch (sample ColorSpace.oklch)
      (toPolar ⟨0.2104542553 * c0 + 0.7936177046 * c1 - 0.0040704681 * c2, 1.9779984951 * c0 - 2.4285921822 * c1 + 0.4505936871 * c2, 0.0259040371 * c0 + 0.7827717662 * c1 - 0.808675766 * c2⟩) := by
  rw [toPolar_eval]
  have haa : In (1.9779984951 * c0 - 2.4285921822 * c1 + 0.4505936871 * c2) (-0.0000022659464823) 0.0000031004095092 :=
    ⟨by linarith [hc0.1, hc0.2, hc1.1, hc1.2, hc2.1, hc2.2], by linarith [hc0.1, hc0.2, hc1.1, hc1.2, hc2.1, hc2.2]⟩
  have hbb : In (0.0259040371 * c0 + 0.7827717662 * c1 - 0.808675766 * c2) 0.099999009546 0.10000078152 :=
    ⟨by linarith [hc0.1, hc0.2, hc1.1, hc1.2, hc2.1, hc2.2], by linarith [hc0.1, hc0.2, hc1.1, hc1.2, hc2.1, hc2.2]⟩
  have haa2 : (1.9779984951 * c0 - 2.4285921822 * c1 + 0.4505936871 * c2) * (1.9779984951 * c0 - 2.4285921822 * c1 + 0.4505936871 * c2) ≤ 0.00000310041 * 0.00000310041 := by
    nlinarith [haa.1, haa.2]
  have hbb2l : (0.099999009546 : ℝ) * 0.099999009546 ≤ (0.0259040371 * c0 + 0.7827717662 * c1 - 0.808675766 * c2) * (0.0259040371 * c0 + 0.7827717662 * c1 - 0.808675766 * c2) := by
    nlinarith [hbb.1]
  have hbb2u : (0.0259040371 * c0 + 0.7827717662 * c1 - 0.808675766 * c2) * (0.0259040371 * c0 + 0.7827717662 * c1 - 0.808675766 * c2) ≤ 0.10000078152 * 0.10000078152 := by
    nlinarith [hbb.1, hbb.2]
  have hsq : In (Real.sqrt ((1.9779984951 * c0 - 2.4285921822 * c1 + 0.4505936871 * c2) * (1.9779984951 * c0 - 2.4285921822 * c1 + 0.4505936871 * c2) + (0.0259040371 * c0 + 0.7827717662 * c1 - 0.808675766 * c2) * (0.0259040371 * c0 + 0.7827717662 * c1 - 0.808675766 * c2)))
      0.099999009546 0.10000078157 :=
    sqrt_in (by norm_num) (by norm_num)
      (by nlinarith [hbb2l, mul_self_nonneg (1.9779984951 * c0 - 2.4285921822 * c1 + 0.4505936871 * c2)])
      (by nlinarith [hbb2u, haa2])
  simp only [tolOk, sample]
  refine ⟨?_, ?_, ?_⟩
  · exact abs_le.mpr ⟨by linarith [hc0.1, hc0.2, hc1.1, hc1.2, hc2.1, hc2.2], by linarith [hc0.1, hc0.2, hc1.1, hc1.2, hc2.1, hc2.2]⟩
  · exact abs_le.mpr ⟨by linarith [hsq.1, hsq.2], by linarith [hsq.1, hsq.2]⟩
  · refine hueClose_near_90 (a := 1.9779984951 * c0 - 2.4285921822 * c1 + 0.4505936871 * c2) (b := 0.0259040371 * c0 + 0.7827717662 * c1 - 0.808675766 * c2)
      (m := 0.00000310041) (by linarith [hbb.1])
      (abs_le.mpr ⟨by linarith [haa.1], by linarith [haa.2]⟩)
      (by linarith [hbb.1]) ?_
    have hq : 0.00000310041 / (0.0259040371 * c0 + 0.7827717662 * c1 - 0.808675766 * c2) ≤ 0.00000310041 / 0.099999009546 := by
      gcongr
      exact hbb.1
    linarith [hq]

theorem outer_oklch (z0 z1 z2 : ℝ)
    (h0 : In z0 0.121362711315 0.121363201767)
    (h1 : In z1 0.124358380228 0.12435934956)
    (h2 : In z2 0.0193692500772 0.0193694193009) :
    tolOk ColorSpace.oklch (sample ColorSpace.oklch)
      (oklabToOklch (xyz65ToOklab ⟨z0, z1, z2⟩)) := by
  obtain ⟨h0a, h0b⟩ := h0
  obtain ⟨h1a, h1b⟩ := h1
  obtain ⟨h2a, h2b⟩ := h2
  have hm0 : In (0.8189330101 * z0 + 0.3618667424 * z1 - 0.1288597137 * z2)
      0.1418931546 0.14189392884 := ⟨by linarith, by linarith⟩
  have hcb0 : In (cbrt (0.8189330101 * z0 + 0.3618667424 * z1 - 0.1288597137 * z2)) 0.5215794612 0.52158040988 :=
    cbrt_in (by norm_num) (by norm_num) (by linarith [hm0.1])
      (by linarith [hm0.2])
  have hm1 : In (0.0329845436 * z0 + 0.9293118715 * z1 + 0.0361456387 * z2)
      0.12027092662 0.12027184974 := ⟨by linarith, by linarith⟩
  have hcb1 : In (cbrt (0.0329845436 * z0 + 0.9293118715 * z1 + 0.0361456387 * z2)) 0.49361333724 0.49361460013 :=
    cbrt_in (by norm_num) (by norm_num) (by linarith [hm1.1])
      (by linarith [hm1.2])
  have hm2 : In (0.0482003018 * z0 + 0.2643662691 * z1 + 0.633851707 * z2)
      0.051003112549 0.051003499711 := ⟨by linarith, by linarith⟩
  have hcb2 : In (cbrt (0.0482003018 * z0 + 0.2643662691 * z1 + 0.633851707 * z2)) 0.370850521 0.37085145937 :=
    cbrt_in (by norm_num) (by norm_num) (by linarith [hm2.1])
      (by linarith [hm2.2])
  show tolOk ColorSpace.oklch (sample ColorSpace.oklch)
    (toPolar (xyz65ToOklab ⟨z0, z1, z2⟩))
  rw [xyz65ToOklab_eval]
  exact outer_oklch_core _ _ _ hcb0 hcb1 hcb2


theorem decode_encode_pow' {x : ℝ} (h : 0.004 ≤ x) :
    gammaDecode (gammaEncode x) = x := by
  refine decode_encode_pow (by linarith) ?_
  calc (0.1 : ℝ) ^ 12 ≤ 0.004 ^ 5 := by norm_num
    _ ≤ x ^ 5 := pow_le_pow_left (by norm_num) h 5

theorem In.cube_pos {x l u : ℝ} (hx : In x l u) (h0 : 0 ≤ l) :
    In (x * x * x) (l * l * l) (u * u * u) := by
  have hx0 : 0 ≤ x := h0.trans hx.1
  have h1 : l ^ 3 ≤ x ^ 3 := pow_le_pow_left h0 hx.1 3
  have h2 : x ^ 3 ≤ u ^ 3 := pow_le_pow_left hx0 hx.2 3
  exact ⟨by nlinarith [h1], by nlinarith [h2]⟩

theorem oklabToXyz65_eval (L a b : ℝ) :
    oklabToXyz65 ⟨L, a, b⟩
      = ⟨1.2270138511 * ((L + 0.3963377774 * a + 0.2158037573 * b) *
            (L + 0.3963377774 * a + 0.2158037573 * b) *
            (L + 0.3963377774 * a + 0.2158037573 * b))
          - 0.5577999807 * ((L - 0.1055613458 * a - 0.0638541728 * b) *
            (L - 0.1055613458 * a - 0.0638541728 * b) *
            (L - 0.1055613458 * a - 0.0638541728 * b))
          + 0.281256149 * ((L - 0.0894841775 * a - 1.291485548 * b) *
            (L - 0.0894841775 * a - 1.291485548 * b) *
            (L - 0.0894841775 * a - 1.291485548 * b)),
         -0.0405801784 * ((L + 0.3963377774 * a + 0.2158037573 * b) *
            (L + 0.3963377774 * a + 0.2158037573 * b) *
            (L + 0.3963377774 * a + 0.2158037573 * b))
          + 1.1122568696 * ((L - 0.1055613458 * a - 0.0638541728 * b) *
            (L - 0.1055613458 * a - 0.0638541728 * b) *
            (L - 0.1055613458 * a - 0.0638541728 * b))
          - 0.0716766787 * ((L - 0.0894841775 * a - 1.291485548 * b) *
            (L - 0.0894841775 * a - 1.291485548 * b) *
            (L - 0.0894841775 * a - 1.291485548 * b)),
         -0.0763812845 * ((L + 0.3963377774 * a + 0.2158037573 * b) *
            (L + 0.3963377774 * a + 0.2158037573 * b) *
            (L + 0.3963377774 * a + 0.2158037573 * b))
          - 0.4214819784 * ((L - 0.1055613458 * a - 0.0638541728 * b) *
            (L - 0.1055613458 * a - 0.0638541728 * b) *
            (L - 0.1055613458 * a - 0.0638541728 * b))
          + 1.5861632204 * ((L - 0.0894841775 * a - 1.291485548 * b) *
            (L - 0.0894841775 * a - 1.291485548 * b) *
            (L - 0.0894841775 * a - 1.291485548 * b))⟩ := rfl

/-- `toPolar` of a straight-up vector: chroma `C`, hue exactly 90. -/
theorem polar_up (L C : ℝ) (hC : 0 < C) : toPolar ⟨L, 0, C⟩ = ⟨L, C, 90⟩ := by
  rw [toPolar_eval]
  have hπ : Real.pi ≠ 0 := Real.pi_ne_zero
  have hat : atan2 C 0 = Real.pi / 2 := by
    unfold atan2
    rw [if_neg (by norm_num), if_neg (by norm_num), if_pos hC]
  have h90 : Real.pi / 2 * (180 / Real.pi) = 90 := by
    field_simp
    ring
  rw [hat, h90, if_neg (by norm_num)]
  rw [show (0 : ℝ) * 0 + C * C = C * C by ring, Real.sqrt_mul_self hC.le]

/-- `toCartesian` at hue 90: lands on the positive `b` axis. -/
theorem cart_up (L C : ℝ) : toCartesian ⟨L, C, 90⟩ = ⟨L, 0, C⟩ := by
  rw [toCartesian_eval]
  have h90 : (90 : ℝ) * (Real.pi / 180) = Real.pi / 2 := by ring
  rw [h90, Real.cos_pi_div_two, Real.sin_pi_div_two]
  simp only [T3.mk.injEq]
  exact ⟨trivial, by ring, by ring⟩

theorem rgbToHsv_rmax {r g b : ℝ} (h1 : g < r) (h2 : b < r) (h3 : 0 ≤ g)
    (h4 : 0 ≤ b) :
    rgbToHsv ⟨r, g, b⟩
      = ⟨if (g - b) / (r - min g b) * 60 < 0 then
          (g - b) / (r - min g b) * 60 + 360 else (g - b) / (r - min g b) * 60,
         (r - min g b) / r, r⟩ := by
  have hr : 0 < r := lt_of_le_of_lt h3 h1
  have hming : min g b ≤ g := min_le_left g b
  have hc : 0 < r - min g b := by linarith
  simp only [rgbToHsv]
  rw [max_eq_left (max_lt h1 h2).le,
    min_eq_right ((min_le_left g b).trans h1.le)]
  rw [if_pos hr.ne', if_pos (sub_ne_zero.mpr (ne_of_gt (by linarith : min g b < r)))]
  rw [if_pos rfl]

theorem hsv_rgb_rmax {r g b : ℝ} (h1 : g < r) (h2 : b < r) (h3 : 0 ≤ g)
    (h4 : 0 ≤ b) : hsvToRgb (rgbToHsv ⟨r, g, b⟩) = ⟨r, g, b⟩ := by
  have hr : 0 < r := lt_of_le_of_lt h3 h1
  have hming : min g b ≤ g := min_le_left g b
  have hminb : min g b ≤ b := min_le_right g b
  have hc : 0 < r - min g b := by linarith
  rw [rgbToHsv_rmax h1 h2 h3 h4]
  simp only [hsvToRgb]
  rw [if_neg (ne_of_gt (div_pos hc hr))]
  rw [show r * ((r - min g b) / r) = r - min g b from by field_simp]
  rcases le_or_lt b g with hbg | hbg
  · rw [min_eq_right hbg]
    have hrb : (0 : ℝ) < r - b := by linarith
    have ht0 : 0 ≤ (g - b) / (r - b) := div_nonneg (by linarith) hrb.le
    have ht1 : (g - b) / (r - b) < 1 := by
      rw [div_lt_one hrb]
      linarith
    rw [if_neg (not_lt.mpr (by positivity : (0:ℝ) ≤ (g - b) / (r - b) * 60))]
    rw [show (g - b) / (r - b) * 60 * (1 / 60) = (g - b) / (r - b) from by ring]
    rw [floor_eq_nat 0 (by push_cast; linarith) (by push_cast; linarith)]
    rw [show Int.tmod ((0 : ℕ) : ℤ) 6 = 0 from by decide, if_pos rfl]
    rw [jsFmod_two 0 (by linarith) (by push_cast; linarith)
      (by push_cast; linarith)]
    rw [show (g - b) / (r - b) - 2 * ((0 : ℕ) : ℝ) - 1 = (g - b) / (r - b) - 1
      from by push_cast; ring]
    rw [abs_of_nonpos (by linarith : (g - b) / (r - b) - 1 ≤ 0)]
    have hrb' : r - b ≠ 0 := ne_of_gt hrb
    simp only [T3.mk.injEq]
    refine ⟨by ring, ?_, by ring⟩
    field_simp
  · rw [min_eq_left hbg.le]
    have hrg : (0 : ℝ) < r - g := by linarith
    have htneg : (g - b) / (r - g) < 0 :=
      div_neg_of_neg_of_pos (by linarith) hrg
    have htm1 : -1 < (g - b) / (r - g) := by
      rw [lt_div_iff₀ hrg]
      linarith
    rw [if_pos (by nlinarith : (g - b) / (r - g) * 60 < 0)]
    rw [show ((g - b) / (r - g) * 60 + 360) * (1 / 60) = (g - b) / (r - g) + 6
      from by ring]
    rw [floor_eq_nat 5 (by push_cast; linarith) (by push_cast; linarith)]
    rw [show Int.tmod ((5 : ℕ) : ℤ) 6 = 5 from by decide]
    rw [if_neg (by decide : ¬(5 : ℤ) = 0), if_neg (by decide : ¬(5 : ℤ) = 1),
      if_neg (by decide : ¬(5 : ℤ) = 2), if_neg (by decide : ¬(5 : ℤ) = 3),
      if_neg (by decide : ¬(5 : ℤ) = 4)]
    rw [jsFmod_two 2 (by linarith) (by push_cast; linarith)
      (by push_cast; linarith)]
    rw [show (g - b) / (r - g) + 6 - 2 * ((2 : ℕ) : ℝ) - 1
      = (g - b) / (r - g) + 1 from by push_cast; ring]
    rw [abs_of_nonneg (by linarith : (0:ℝ) ≤ (g - b) / (r - g) + 1)]
    have hrg' : r - g ≠ 0 := ne_of_gt hrg
    simp only [T3.mk.injEq]
    refine ⟨by ring, by ring, ?_⟩
    field_simp

theorem mid_cyl_hsl_gmax {R G B : ℝ} (h1 : R < G) (h2 : B < G) (h3 : 0 ≤ R)
    (h4 : 0 ≤ B) (h5 : G < 1) :
    hsvToRgb (hslToHsv (hsvToHsl (rgbToHsv ⟨R, G, B⟩))) = ⟨R, G, B⟩ := by
  have hG0 : 0 < G := lt_of_le_of_lt h3 h1
  have hmn0 : 0 ≤ min R B := le_min h3 h4
  have hmnle : min R B ≤ R := min_le_left R B
  rw [rgbToHsv_gmax h1 h2 h3 h4]
  have hle : G * (1 - (G - min R B) / G * 0.5) = (G + min R B) / 2 := by
    field_simp
    ring
  rw [hsl_mid _ _ _ (ne_of_gt hG0) (by rw [hle]; linarith) (by rw [hle]; linarith)]
  rw [← rgbToHsv_gmax h1 h2 h3 h4]
  exact hsv_rgb_gmax h1 h2 h3 h4

theorem mid_cyl_hsl_bmax {R G B : ℝ} (h1 : R < B) (h2 : G < B) (h3 : 0 ≤ R)
    (h4 : 0 ≤ G) (h5 : B < 1) :
    hsvToRgb (hslToHsv (hsvToHsl (rgbToHsv ⟨R, G, B⟩))) = ⟨R, G, B⟩ := by
  have hB0 : 0 < B := lt_of_le_of_lt h3 h1
  have hmn0 : 0 ≤ min R G := le_min h3 h4
  have hmnle : min R G ≤ R := min_le_left R G
  rw [rgbToHsv_bmax h1 h2 h3 h4]
  have hle : B * (1 - (B - min R G) / B * 0.5) = (B + min R G) / 2 := by
    field_simp
    ring
  rw [hsl_mid _ _ _ (ne_of_gt hB0) (by rw [hle]; linarith) (by rw [hle]; linarith)]
  rw [← rgbToHsv_bmax h1 h2 h3 h4]
  exact hsv_rgb_bmax h1 h2 h3 h4

theorem mid_cyl_hsl_rmax {R G B : ℝ} (h1 : G < R) (h2 : B < R) (h3 : 0 ≤ G)
    (h4 : 0 ≤ B) (h5 : R < 1) :
    hsvToRgb (hslToHsv (hsvToHsl (rgbToHsv ⟨R, G, B⟩))) = ⟨R, G, B⟩ := by
  have hR0 : 0 < R := lt_of_le_of_lt h3 h1
  have hmn0 : 0 ≤ min G B := le_min h3 h4
  have hmnle : min G B ≤ G := min_le_left G B
  rw [rgbToHsv_rmax h1 h2 h3 h4]
  have hle : R * (1 - (R - min G B) / R * 0.5) = (R + min G B) / 2 := by
    field_simp
    ring
  rw [hsl_mid _ _ _ (ne_of_gt hR0) (by rw [hle]; linarith)
    (by rw [hle]; linarith [h1, h5])]
  rw [← rgbToHsv_rmax h1 h2 h3 h4]
  exact hsv_rgb_rmax h1 h2 h3 h4

theorem mid_cyl_hwb_gmax {R G B : ℝ} (h1 : R < G) (h2 : B < G) (h3 : 0 ≤ R)
    (h4 : 0 ≤ B) :
    hsvToRgb (hwbToHsv (hsvToHwb (rgbToHsv ⟨R, G, B⟩))) = ⟨R, G, B⟩ := by
  have hG0 : 0 < G := lt_of_le_of_lt h3 h1
  have hmnle : min R B ≤ R := min_le_left R B
  rw [rgbToHsv_gmax h1 h2 h3 h4]
  rw [hwb_mid _ _ _ (ne_of_gt hG0)
    (div_nonneg (by linarith) hG0.le)]
  rw [← rgbToHsv_gmax h1 h2 h3 h4]
  exact hsv_rgb_gmax h1 h2 h3 h4

theorem mid_cyl_hwb_bmax {R G B : ℝ} (h1 : R < B) (h2 : G < B) (h3 : 0 ≤ R)
    (h4 : 0 ≤ G) :
    hsvToRgb (hwbToHsv (hsvToHwb (rgbToHsv ⟨R, G, B⟩))) = ⟨R, G, B⟩ := by
  have hB0 : 0 < B := lt_of_le_of_lt h3 h1
  have hmnle : min R G ≤ R := min_le_left R G
  rw [rgbToHsv_bmax h1 h2 h3 h4]
  rw [hwb_mid _ _ _ (ne_of_gt hB0)
    (div_nonneg (by linarith) hB0.le)]
  rw [← rgbToHsv_bmax h1 h2 h3 h4]
  exact hsv_rgb_bmax h1 h2 h3 h4

theorem mid_cyl_hwb_rmax {R G B : ℝ} (h1 : G < R) (h2 : B < R) (h3 : 0 ≤ G)
    (h4 : 0 ≤ B) :
    hsvToRgb (hwbToHsv (hsvToHwb (rgbToHsv ⟨R, G, B⟩))) = ⟨R, G, B⟩ := by
  have hR0 : 0 < R := lt_of_le_of_lt h3 h1
  have hmnle : min G B ≤ G := min_le_left G B
  rw [rgbToHsv_rmax h1 h2 h3 h4]
  rw [hwb_mid _ _ _ (ne_of_gt hR0)
    (div_nonneg (by linarith) hR0.le)]
  rw [← rgbToHsv_rmax h1 h2 h3 h4]
  exact hsv_rgb_rmax h1 h2 h3 h4

theorem entry_hsl_hsv : hslToHsv ⟨120, 0.5, 0.4⟩ = ⟨120, 2 / 3, 0.6⟩ := by
  simp only [hslToHsv]
  rw [show min (0.4 : ℝ) (1 - 0.4) = 0.4 from by norm_num [min_def]]
  norm_num

theorem entry_hsl_rgb : hsvToRgb ⟨120, 2 / 3, 0.6⟩ = ⟨0.2, 0.6, 0.2⟩ := by
  simp only [hsvToRgb]
  rw [if_neg (by norm_num : ¬(2 : ℝ) / 3 = 0)]
  rw [show (120 : ℝ) * (1 / 60) = 2 from by norm_num]
  rw [jsFmod_two 1 (by norm_num) (by push_cast; norm_num) (by push_cast; norm_num)]
  rw [floor_eq_nat 2 (by push_cast; norm_num) (by push_cast; norm_num)]
  rw [show Int.tmod ((2 : ℕ) : ℤ) 6 = 2 from by decide]
  rw [if_neg (by decide : ¬(2 : ℤ) = 0), if_neg (by decide : ¬(2 : ℤ) = 1),
    if_pos rfl]
  have habs : |(2 : ℝ) - 2 * ((1 : ℕ) : ℝ) - 1| = 1 := by
    push_cast
    rw [show (2 : ℝ) - 2 * 1 - 1 = -1 from by ring, abs_neg, abs_one]
  rw [habs]
  norm_num

theorem entry_hwb_hsv : hwbToHsv ⟨240, 0.2, 0.3⟩ = ⟨240, 5 / 7, 0.7⟩ := by
  simp only [hwbToHsv]
  norm_num

theorem entry_hwb_rgb : hsvToRgb ⟨240, 5 / 7, 0.7⟩ = ⟨0.2, 0.2, 0.7⟩ := by
  simp only [hsvToRgb]
  rw [if_neg (by norm_num : ¬(5 : ℝ) / 7 = 0)]
  rw [show (240 : ℝ) * (1 / 60) = 4 from by norm_num]
  rw [jsFmod_two 2 (by norm_num) (by push_cast; norm_num) (by push_cast; norm_num)]
  rw [floor_eq_nat 4 (by push_cast; norm_num) (by push_cast; norm_num)]
  rw [show Int.tmod ((4 : ℕ) : ℤ) 6 = 4 from by decide]
  rw [if_neg (by decide : ¬(4 : ℤ) = 0), if_neg (by decide : ¬(4 : ℤ) = 1),
    if_neg (by decide : ¬(4 : ℤ) = 2), if_neg (by decide : ¬(4 : ℤ) = 3),
    if_pos rfl]
  have habs : |(4 : ℝ) - 2 * ((2 : ℕ) : ℝ) - 1| = 1 := by
    push_cast
    rw [show (4 : ℝ) - 2 * 2 - 1 = -1 from by ring, abs_neg, abs_one]
  rw [habs]
  norm_num

theorem entry_hsl_back1 : rgbToHsv ⟨0.2, 0.6, 0.2⟩ = ⟨120, 2 / 3, 0.6⟩ := by
  rw [rgbToHsv_gmax (by norm_num) (by norm_num) (by norm_num) (by norm_num)]
  rw [show min (0.2 : ℝ) 0.2 = 0.2 from min_self _]
  norm_num

theorem entry_hsl_back2 : hsvToHsl ⟨120, 2 / 3, 0.6⟩ = ⟨120, 0.5, 0.4⟩ := by
  rw [hsvToHsl_eval]
  rw [show (0.6 : ℝ) * (1 - 2 / 3 * 0.5) = 0.4 from by norm_num]
  rw [if_pos (by norm_num : (0:ℝ) < 0.4 ∧ (0.4:ℝ) < 1)]
  rw [show min (0.4 : ℝ) (1 - 0.4) = 0.4 from by norm_num [min_def]]
  norm_num

theorem entry_hwb_back1 : rgbToHsv ⟨0.2, 0.2, 0.7⟩ = ⟨240, 5 / 7, 0.7⟩ := by
  rw [rgbToHsv_bmax (by norm_num) (by norm_num) (by norm_num) (by norm_num)]
  rw [show min (0.2 : ℝ) 0.2 = 0.2 from min_self _]
  norm_num

theorem entry_hwb_back2 : hsvToHwb ⟨240, 5 / 7, 0.7⟩ = ⟨240, 0.2, 0.3⟩ := by
  rw [hsvToHwb_eval]
  norm_num

theorem entry_lch_lab : lchToLab ⟨50, 30, 90⟩ = ⟨50, 0, 30⟩ := cart_up 50 30

theorem entry_oklch_oklab : oklchToOklab ⟨0.5, 0.1, 90⟩ = ⟨0.5, 0, 0.1⟩ :=
  cart_up 0.5 0.1

theorem entry_lab_xyz : labToXyz50 ⟨50, 10, 20⟩
    = ⟨(3753442479913 / 19053906250000 : ℝ), (35937 / 195112 : ℝ),
       (810851346 / 9526953125 : ℝ)⟩ := by
  simp only [labToXyz50, EPSILON, KAPPA, WHITE_D50_X, WHITE_D50_Z]
  norm_num

theorem entry_lch_xyz : labToXyz50 ⟨50, 0, 30⟩
    = ⟨(1732558707 / 9755600000 : ℝ), (35937 / 195112 : ℝ),
       (1184086154547 / 19511200000000 : ℝ)⟩ := by
  simp only [labToXyz50, EPSILON, KAPPA, WHITE_D50_X, WHITE_D50_Z]
  norm_num

theorem adapters_alias_safe_witness :
    (toCartesianOp (fun _ => ⟨1, 2, 3⟩) 5 5) 5 = toCartesian ⟨1, 2, 3⟩ ∧
    (toCartesianOp (fun _ => ⟨1, 2, 3⟩) 5 5) 5 =
      (toCartesianOp (fun _ => ⟨1, 2, 3⟩) 5 7) 7 := by
  have h := adapters_alias_safe.2.2.2.2.2.2.2.2.2.1
    (fun _ => ⟨1, 2, 3⟩) 5 7 (by decide)
  exact ⟨h.2, h.1⟩

end Chromatrix
